import Mathlib

/-!
Verification development for `scripts/configure.py`: the configuration
resolution engine that builds `openclaw.json` and two Caddy snippets from
environment variables, a bundled override document and a persisted document.

The embedding is shallow: Python `dict`s become insertion-ordered association
lists, the process environment becomes an association list of variables,
`main`'s mutable pipeline becomes a chain of document-transforming functions,
and uncaught Python exceptions (`ValueError` from `int(...)`,
`TypeError`/`AttributeError`/`KeyError` from indexing non-dicts) become the
`.error .crash` outcome of an `Except`.
-/

set_option maxHeartbeats 1000000
set_option maxRecDepth 100000

/-- A JSON-like document node, the value space of the configuration document.
`float` keeps the literal text that Python's `float(...)` accepted: the engine
never inspects a float numerically after parsing, it only stores and
serializes it, so the literal is a faithful carrier (see `truthy` for the one
documented caveat). Objects are insertion-ordered association lists, mirroring
Python 3.7+ `dict` semantics; keys are unique in every value produced by
`json.load` or by the engine. -/
inductive JValue where
  | null
  | bool (b : Bool)
  | int (n : Int)
  | float (lit : String)
  | str (s : String)
  | arr (xs : List JValue)
  | obj (kvs : List (String × JValue))
  deriving Repr

/-- A Python `dict` with string keys: insertion-ordered association list. -/
abbrev Obj := List (String × JValue)

mutual

/-- Structural equality of values (the nested `List` positions rule out the
deriving handler, so the recursion is spelled out). -/
def jbeq : JValue → JValue → Bool
  | .null, .null => true
  | .bool a, .bool b => a == b
  | .int a, .int b => a == b
  | .float a, .float b => a == b
  | .str a, .str b => a == b
  | .arr a, .arr b => jbeqList a b
  | .obj a, .obj b => jbeqFields a b
  | _, _ => false

def jbeqList : List JValue → List JValue → Bool
  | [], [] => true
  | x :: xs, y :: ys => jbeq x y && jbeqList xs ys
  | _, _ => false

def jbeqFields : List (String × JValue) → List (String × JValue) → Bool
  | [], [] => true
  | (k₁, v₁) :: xs, (k₂, v₂) :: ys => k₁ == k₂ && jbeq v₁ v₂ && jbeqFields xs ys
  | _, _ => false

end

mutual

theorem jbeq_iff_eq : ∀ a b : JValue, jbeq a b = true ↔ a = b
  | .null, .null => by simp [jbeq]
  | .bool _, .bool _ => by simp [jbeq]
  | .int _, .int _ => by simp [jbeq]
  | .float _, .float _ => by simp [jbeq]
  | .str _, .str _ => by simp [jbeq]
  | .arr x, .arr y => by simp [jbeq, jbeqList_iff_eq x y]
  | .obj x, .obj y => by simp [jbeq, jbeqFields_iff_eq x y]
  | .null, .bool _ | .null, .int _ | .null, .float _ | .null, .str _
  | .null, .arr _ | .null, .obj _
  | .bool _, .null | .bool _, .int _ | .bool _, .float _ | .bool _, .str _
  | .bool _, .arr _ | .bool _, .obj _
  | .int _, .null | .int _, .bool _ | .int _, .float _ | .int _, .str _
  | .int _, .arr _ | .int _, .obj _
  | .float _, .null | .float _, .bool _ | .float _, .int _ | .float _, .str _
  | .float _, .arr _ | .float _, .obj _
  | .str _, .null | .str _, .bool _ | .str _, .int _ | .str _, .float _
  | .str _, .arr _ | .str _, .obj _
  | .arr _, .null | .arr _, .bool _ | .arr _, .int _ | .arr _, .float _
  | .arr _, .str _ | .arr _, .obj _
  | .obj _, .null | .obj _, .bool _ | .obj _, .int _ | .obj _, .float _
  | .obj _, .str _ | .obj _, .arr _ => by simp [jbeq]

theorem jbeqList_iff_eq : ∀ xs ys : List JValue, jbeqList xs ys = true ↔ xs = ys
  | [], [] => by simp [jbeqList]
  | x :: xs, y :: ys => by simp [jbeqList, jbeq_iff_eq x y, jbeqList_iff_eq xs ys]
  | [], _ :: _ => by simp [jbeqList]
  | _ :: _, [] => by simp [jbeqList]

theorem jbeqFields_iff_eq :
    ∀ xs ys : List (String × JValue), jbeqFields xs ys = true ↔ xs = ys
  | [], [] => by simp [jbeqFields]
  | (k₁, v₁) :: xs, (k₂, v₂) :: ys => by
      simp [jbeqFields, jbeq_iff_eq v₁ v₂, jbeqFields_iff_eq xs ys, and_assoc]
  | [], _ :: _ => by simp [jbeqFields]
  | _ :: _, [] => by simp [jbeqFields]

end

instance : DecidableEq JValue := fun a b =>
  decidable_of_iff (jbeq a b = true) (jbeq_iff_eq a b)

/-- `d.get(k)` / `k in d`: first (and in well-formed dicts only) binding. -/
def alookup {α : Type} : List (String × α) → String → Option α
  | [], _ => none
  | (k', v) :: rest, k => if k' = k then some v else alookup rest k

/-- `d[k] = v`: replace the binding in place if the key exists (Python keeps
the key's position), otherwise append the new binding at the end. -/
def ainsert {α : Type} : List (String × α) → String → α → List (String × α)
  | [], k, v => [(k, v)]
  | (k', v') :: rest, k, v =>
      if k' = k then (k, v) :: rest else (k', v') :: ainsert rest k v

/-- `del d[k]`: drop the (first) binding of `k`, keeping the rest in order. -/
def aremove {α : Type} : List (String × α) → String → List (String × α)
  | [], _ => []
  | (k', v') :: rest, k => if k' = k then rest else (k', v') :: aremove rest k

@[simp] theorem alookup_nil {α : Type} (k : String) :
    alookup ([] : List (String × α)) k = none := rfl

theorem alookup_cons {α : Type} (k' : String) (v : α) (rest : List (String × α)) (k : String) :
    alookup ((k', v) :: rest) k = if k' = k then some v else alookup rest k := rfl

@[simp] theorem alookup_ainsert_self {α : Type} (m : List (String × α)) (k : String) (v : α) :
    alookup (ainsert m k v) k = some v := by
  induction m with
  | nil => simp [ainsert, alookup]
  | cons hd tl ih =>
      obtain ⟨k', v'⟩ := hd
      by_cases h : k' = k <;> simp [ainsert, alookup, h, ih]

theorem alookup_ainsert_ne {α : Type} (m : List (String × α)) (k k₂ : String) (v : α)
    (h : k ≠ k₂) : alookup (ainsert m k v) k₂ = alookup m k₂ := by
  induction m with
  | nil => simp [ainsert, alookup, h]
  | cons hd tl ih =>
      obtain ⟨k', v'⟩ := hd
      by_cases hk : k' = k
      · subst hk
        simp [ainsert, alookup, h]
      · simp [ainsert, alookup, hk, ih]

theorem alookup_aremove_ne {α : Type} (m : List (String × α)) (k k₂ : String)
    (h : k ≠ k₂) : alookup (aremove m k) k₂ = alookup m k₂ := by
  induction m with
  | nil => simp [aremove]
  | cons hd tl ih =>
      obtain ⟨k', v'⟩ := hd
      by_cases hk : k' = k
      · subst hk
        simp [aremove, alookup, h]
      · simp [aremove, alookup, hk, ih]

-- ── Python string helpers (modelled over the character list) ────────────────

/-- The characters `str.strip()` removes (ASCII whitespace; the engine's
inputs are ASCII environment values, so the full Unicode table is not
modelled). -/
def isPyWs (c : Char) : Bool :=
  c = ' ' ∨ c = '\t' ∨ c = '\n' ∨ c = '\r' ∨ c = '\x0b' ∨ c = '\x0c'

/-- `s.strip()` on both ends. -/
def pyStrip (s : String) : String :=
  String.mk (((s.data.dropWhile isPyWs).reverse.dropWhile isPyWs).reverse)

/-- `s.rstrip("/")`. -/
def rstripSlash (s : String) : String :=
  String.mk ((s.data.reverse.dropWhile (fun c => c = '/')).reverse)

/-- `s.lower()` (ASCII case fold; the engine compares against ASCII literals
such as "true", "false", "1"). -/
def toLowerStr (s : String) : String :=
  String.mk (s.data.map Char.toLower)

/-- `s.split(".")`: split on every single dot, keeping empty components, and
`"".split(".") = [""]`. -/
def splitDots (s : String) : List String :=
  (go s.data []).reverse
where
  go : List Char → List Char → List String
    | [], acc => [String.mk acc]
    | '.' :: rest, acc => go rest [] ++ [String.mk acc]
    | c :: rest, acc => go rest (acc ++ [c])

/-- `s.replace("__", ".")`: left-to-right, non-overlapping. -/
def replaceDunder (s : String) : String :=
  String.mk (go s.data)
where
  go : List Char → List Char
    | [] => []
    | '_' :: '_' :: rest => '.' :: go rest
    | c :: rest => c :: go rest

/-- `s.startswith(p)`. -/
def strStarts (s p : String) : Bool :=
  p.data.isPrefixOf s.data

/-- `s.endswith(p)`. -/
def strEnds (s p : String) : Bool :=
  p.data.isSuffixOf s.data

/-- Drop the first `n` characters (for slicing off a known prefix). -/
def strDrop (s : String) (n : Nat) : String :=
  String.mk (s.data.drop n)

/-- `p in s` on strings: `p` occurs as a contiguous substring of `s`. -/
def strContains (s p : String) : Bool :=
  go s.data
where
  go : List Char → Bool
    | [] => p.data.isPrefixOf []
    | c :: rest => p.data.isPrefixOf (c :: rest) || go rest

-- ── Python `int(...)` on strings ────────────────────────────────────────────

def digitVal (c : Char) : Option Nat :=
  if '0' ≤ c ∧ c ≤ '9' then some (c.toNat - 48) else none

/-- Digits with single underscores allowed between digits, continuing an
already-seen leading digit whose value is `acc`. -/
def pyDigitsGo : List Char → Nat → Option Nat
  | [], acc => some acc
  | '_' :: c :: rest, acc =>
      match digitVal c with
      | some d => pyDigitsGo rest (acc * 10 + d)
      | none => none
  | ['_'], _ => none
  | c :: rest, acc =>
      match digitVal c with
      | some d => pyDigitsGo rest (acc * 10 + d)
      | none => none

/-- A non-empty digit string with Python's underscore rule. -/
def pyDigits : List Char → Option Nat
  | [] => none
  | c :: rest =>
      match digitVal c with
      | some d => pyDigitsGo rest d
      | none => none

/-- `int(s)` for a decimal string: optional surrounding whitespace, optional
sign, digits with underscore separators; `none` models the `ValueError`. -/
def pyInt (s : String) : Option Int :=
  match (s.data.dropWhile isPyWs).reverse.dropWhile isPyWs |>.reverse with
  | '+' :: rest => (pyDigits rest).map Int.ofNat
  | '-' :: rest => (pyDigits rest).map (fun n => -(Int.ofNat n))
  | rest => (pyDigits rest).map Int.ofNat

example : pyInt " +1_234 " = some 1234 := by decide
example : pyInt "12a" = none := by decide
example : pyInt "" = none := by decide
example : pyInt "-07" = some (-7) := by decide
example : pyInt "1__2" = none := by decide

-- ── Python truthiness ───────────────────────────────────────────────────────

/-- Accept exactly the strings Python's `float(...)` accepts: optional
whitespace and sign, then `inf`/`infinity`/`nan` (case-insensitively) or a
decimal mantissa with optional fraction and exponent, underscores only
between digits. -/
def breakAtChar (p : Char → Bool) : List Char → List Char × Option (List Char)
  | [] => ([], none)
  | c :: rest =>
      if p c then ([], some rest)
      else
        let (pre, post) := breakAtChar p rest
        (c :: pre, post)

/-- A non-empty run of digits with Python's underscore rule. -/
def uDigitsOk (cs : List Char) : Bool := (pyDigits cs).isSome

def floatBodyOk (cs : List Char) : Bool :=
  let (mant, expPart) := breakAtChar (fun c => c = 'e' ∨ c = 'E') cs
  let expOk := match expPart with
    | none => true
    | some ('+' :: r) => uDigitsOk r
    | some ('-' :: r) => uDigitsOk r
    | some r => uDigitsOk r
  let (a, bOpt) := breakAtChar (fun c => c = '.') mant
  let mantOk := match bOpt with
    | none => uDigitsOk a
    | some b =>
        (a.isEmpty || uDigitsOk a) && (b.isEmpty || uDigitsOk b)
          && !(a.isEmpty && b.isEmpty)
  mantOk && expOk

def pyFloatAccepts (s : String) : Bool :=
  let cs := (s.data.dropWhile isPyWs).reverse.dropWhile isPyWs |>.reverse
  let cs := match cs with
    | '+' :: r => r
    | '-' :: r => r
    | r => r
  let low := String.mk (cs.map Char.toLower)
  if low = "inf" ∨ low = "infinity" ∨ low = "nan" then true
  else floatBodyOk cs

/-- Whether a float literal denotes the value 0.0: every mantissa digit is
`0`. Caveat: a non-zero decimal below ~5e-324 underflows to `0.0` in IEEE
arithmetic (e.g. `1e-400`), which this decimal-level test calls non-zero;
no theorem below rests on the truthiness of such a literal. -/
def pyFloatIsZero (s : String) : Bool :=
  let cs := (s.data.dropWhile isPyWs).reverse.dropWhile isPyWs |>.reverse
  let cs := match cs with
    | '+' :: r => r
    | '-' :: r => r
    | r => r
  let low := String.mk (cs.map Char.toLower)
  if low = "inf" ∨ low = "infinity" ∨ low = "nan" then false
  else
    let (mant, _) := breakAtChar (fun c => c = 'e' ∨ c = 'E') cs
    mant.all (fun c => c = '0' ∨ c = '_' ∨ c = '.')

/-- Python truthiness of a document node: `None`, `False`, `0`, `0.0`, `""`,
`[]` and `{}` are falsy, everything else truthy. -/
def truthy : JValue → Bool
  | .null => false
  | .bool b => b
  | .int n => n != 0
  | .float lit => !(pyFloatIsZero lit)
  | .str s => s ≠ ""
  | .arr xs => !xs.isEmpty
  | .obj m => !m.isEmpty

def truthyO (o : Option JValue) : Bool :=
  match o with
  | some v => truthy v
  | none => false

example : pyFloatAccepts " -1_0.5e+3 " = true := by decide
example : pyFloatAccepts "1." = true := by decide
example : pyFloatAccepts ".5" = true := by decide
example : pyFloatAccepts "." = false := by decide
example : pyFloatAccepts "1e" = false := by decide
example : pyFloatAccepts "Infinity" = true := by decide
example : pyFloatIsZero "0.00e5" = true := by decide
example : truthy (.float "0.1") = true := by decide

-- ── json.loads (for `_auto_type`'s structured branch) ───────────────────────

/-- JSON string body after the opening quote: standard escapes, `\uXXXX`
taken as a single code point (astral surrogate pairing is not modelled; no
claim exercises it), raw control characters rejected as in strict mode. -/
def hexVal (c : Char) : Option Nat :=
  if '0' ≤ c ∧ c ≤ '9' then some (c.toNat - 48)
  else if 'a' ≤ c ∧ c ≤ 'f' then some (c.toNat - 87)
  else if 'A' ≤ c ∧ c ≤ 'F' then some (c.toNat - 55)
  else none

def jpStrGo : List Char → List Char → Option (String × List Char)
  | [], _ => none
  | '"' :: rest, acc => some (String.mk acc.reverse, rest)
  | '\\' :: 'u' :: h₁ :: h₂ :: h₃ :: h₄ :: rest, acc =>
      match hexVal h₁, hexVal h₂, hexVal h₃, hexVal h₄ with
      | some a, some b, some c, some d =>
          let n := ((a * 16 + b) * 16 + c) * 16 + d
          if n < 0xd800 then jpStrGo rest (Char.ofNat n :: acc)
          else if n ≥ 0xe000 then jpStrGo rest (Char.ofNat n :: acc)
          else jpStrGo rest ('�' :: acc)
      | _, _, _, _ => none
  | '\\' :: e :: rest, acc =>
      match e with
      | '"' => jpStrGo rest ('"' :: acc)
      | '\\' => jpStrGo rest ('\\' :: acc)
      | '/' => jpStrGo rest ('/' :: acc)
      | 'b' => jpStrGo rest ('\x08' :: acc)
      | 'f' => jpStrGo rest ('\x0c' :: acc)
      | 'n' => jpStrGo rest ('\n' :: acc)
      | 'r' => jpStrGo rest ('\r' :: acc)
      | 't' => jpStrGo rest ('\t' :: acc)
      | _ => none
  | c :: rest, acc => if c.toNat < 32 then none else jpStrGo rest (c :: acc)

/-- JSON whitespace (exactly space, tab, newline, carriage return). -/
def jpWs (cs : List Char) : List Char :=
  cs.dropWhile (fun c => c = ' ' ∨ c = '\t' ∨ c = '\n' ∨ c = '\r')

def isDigitCh (c : Char) : Bool := '0' ≤ c ∧ c ≤ '9'

/-- JSON number: strict grammar (no leading zeros, no underscores); integral
literals become `int`, fractional or exponential ones keep their literal as
`float`. Returns the node and the remaining input. -/
def jpNum (cs : List Char) : Option (JValue × List Char) :=
  let (sgn, cs₁) := match cs with
    | '-' :: r => (true, r)
    | r => (false, r)
  match intPart cs₁ with
  | none => none
  | some (ip, cs₂) =>
      let (fp, cs₃) := fracPart cs₂
      let (ep, cs₄) := expPart cs₃
      match fp, ep with
      | none, none =>
          let n : Int := Int.ofNat (natOfDigits ip)
          some (.int (if sgn then -n else n), cs₄)
      | _, _ =>
          match fp, ep with
          | some none, _ => none
          | _, some none => none
          | _, _ =>
              let lit := (if sgn then ['-'] else []) ++ ip
                ++ (match fp with | some (some f) => '.' :: f | _ => [])
                ++ (match ep with | some (some e) => e | _ => [])
              some (.float (String.mk lit), cs₄)
where
  natOfDigits (ds : List Char) : Nat :=
    ds.foldl (fun acc c => acc * 10 + (c.toNat - 48)) 0
  intPart : List Char → Option (List Char × List Char)
    | '0' :: r => some (['0'], r)
    | c :: r =>
        if isDigitCh c then
          let ds := r.takeWhile isDigitCh
          some (c :: ds, r.dropWhile isDigitCh)
        else none
    | [] => none
  fracPart : List Char → Option (Option (List Char)) × List Char
    | '.' :: r =>
        let ds := r.takeWhile isDigitCh
        if ds.isEmpty then (some none, r) else (some (some ds), r.dropWhile isDigitCh)
    | r => (none, r)
  expPart : List Char → Option (Option (List Char)) × List Char
    | c :: r =>
        if c = 'e' ∨ c = 'E' then
          let (sg, r₁) := match r with
            | '+' :: r' => (['+'], r')
            | '-' :: r' => (['-'], r')
            | r' => (([] : List Char), r')
          let ds := r₁.takeWhile isDigitCh
          if ds.isEmpty then (some none, r)
          else (some (some (c :: sg ++ ds)), r₁.dropWhile isDigitCh)
        else (none, c :: r)
    | [] => (none, [])

mutual

/-- One JSON value at the head of the input (leading whitespace already
consumed); `fuel` bounds the nesting and is set from the input length. -/
def jpValue : Nat → List Char → Option (JValue × List Char)
  | 0, _ => none
  | _ + 1, [] => none
  | fuel + 1, cs =>
      match cs with
      | '"' :: rest => (jpStrGo rest []).map (fun p => (.str p.1, p.2))
      | '[' :: rest =>
          let r₁ := jpWs rest
          (match r₁ with
           | ']' :: r₂ => some (.arr [], r₂)
           | _ => (jpArrGo fuel r₁ []).map (fun p => (.arr p.1.reverse, p.2)))
      | '\x7b' :: rest =>
          let r₁ := jpWs rest
          (match r₁ with
           | '\x7d' :: r₂ => some (.obj [], r₂)
           | _ => (jpObjGo fuel r₁ []).map (fun p => (.obj p.1, p.2)))
      | _ =>
          if ['t', 'r', 'u', 'e'].isPrefixOf cs then some (.bool true, cs.drop 4)
          else if ['f', 'a', 'l', 's', 'e'].isPrefixOf cs then some (.bool false, cs.drop 5)
          else if ['n', 'u', 'l', 'l'].isPrefixOf cs then some (.null, cs.drop 4)
          else if ['N', 'a', 'N'].isPrefixOf cs then some (.float "nan", cs.drop 3)
          else if ['I', 'n', 'f', 'i', 'n', 'i', 't', 'y'].isPrefixOf cs then
            some (.float "inf", cs.drop 8)
          else if ['-', 'I', 'n', 'f', 'i', 'n', 'i', 't', 'y'].isPrefixOf cs then
            some (.float "-inf", cs.drop 9)
          else jpNum cs

/-- Array elements after the first has been reached; `acc` is reversed. -/
def jpArrGo : Nat → List Char → List JValue → Option (List JValue × List Char)
  | 0, _, _ => none
  | fuel + 1, cs, acc =>
      match jpValue fuel cs with
      | none => none
      | some (v, rest) =>
          match jpWs rest with
          | ',' :: r₂ => jpArrGo fuel (jpWs r₂) (v :: acc)
          | ']' :: r₂ => some (v :: acc, r₂)
          | _ => none

/-- Object members; duplicate keys follow `dict` assignment (last wins, first
position kept), as `json.loads` does. -/
def jpObjGo : Nat → List Char → Obj → Option (Obj × List Char)
  | 0, _, _ => none
  | fuel + 1, cs, acc =>
      match cs with
      | '"' :: rest =>
          (match jpStrGo rest [] with
           | none => none
           | some (k, r₁) =>
               match jpWs r₁ with
               | ':' :: r₂ =>
                   (match jpValue fuel (jpWs r₂) with
                    | none => none
                    | some (v, r₃) =>
                        match jpWs r₃ with
                        | ',' :: r₄ => jpObjGo fuel (jpWs r₄) (ainsert acc k v)
                        | '\x7d' :: r₄ => some (ainsert acc k v, r₄)
                        | _ => none)
               | _ => none)
      | _ => none

end

/-- `json.loads`: a single value surrounded by optional whitespace. -/
def jsonLoads (s : String) : Option JValue :=
  match jpValue (s.data.length + 1) (jpWs s.data) with
  | some (v, rest) => if (jpWs rest).isEmpty then some v else none
  | none => none

example : jsonLoads " [1, 2.5, \"x\"] " = some (.arr [.int 1, .float "2.5", .str "x"]) := by decide
example : jsonLoads "\x7b\"a\": true, \"a\": null\x7d" = some (.obj [("a", .null)]) := by decide
example : jsonLoads "[01]" = none := by decide

-- ── Schema Engine (configure.py lines 232-357) ──────────────────────────────

mutual

/-- `deep_merge(target, source)`: for each key of `source` in order, recurse
when both sides are dicts, otherwise assign `source`'s value (replacing in
place, appending when new). Arrays and scalars are replaced wholesale. -/
def deepMerge : Obj → Obj → Obj
  | t, [] => t
  | t, (k, v) :: rest => deepMerge (mergeKey t k v) rest

/-- One iteration of `deep_merge`'s loop: the merge of a single source
binding into the target. -/
def mergeKey : Obj → String → JValue → Obj
  | t, k, .obj s =>
      (match alookup t k with
       | some (.obj ts) => ainsert t k (.obj (deepMerge ts s))
       | _ => ainsert t k (.obj s))
  | t, k, v => ainsert t k v

end

/-- `set_nested(obj, dotpath, value)` after the path has been split (path
first so the recursion is structural): descend with `setdefault(k, {})`,
then assign at the last segment. `setdefault` returns a pre-existing value
unchanged even when it is not a dict, and the next subscript on it then
raises (`AttributeError`/`TypeError`) — modelled as `none`. An empty segment
list cannot arise from `split(".")`. -/
def setNestedO : List String → Obj → JValue → Option Obj
  | [], _, _ => none
  | [k], m, v => some (ainsert m k v)
  | k :: k₂ :: ks, m, v =>
      (match alookup m k with
       | some (.obj sm) =>
           (setNestedO (k₂ :: ks) sm v).map (fun sm' => ainsert m k (.obj sm'))
       | some _ => none
       | none => (setNestedO (k₂ :: ks) [] v).map (fun sm' => ainsert m k (.obj sm')))

/-- `set_nested` with a dot-path string, on a document node (the callers all
pass dicts; a non-dict receiver raises). -/
def setNested (doc : JValue) (dotpath : String) (v : JValue) : Option JValue :=
  match doc with
  | .obj m => (setNestedO (splitDots dotpath) m v).map .obj
  | _ => none

/-- `get_nested(obj, dotpath, default)` after splitting: walk the segments,
answering `default` as soon as a segment is missing or a traversed node is
not a dict. -/
def getNested : JValue → List String → JValue → JValue
  | v, [], _ => v
  | .obj m, k :: ks, d =>
      (match alookup m k with
       | some v => getNested v ks d
       | none => d)
  | _, _ :: _, d => d

/-- Presence-style path lookup used by theorem statements: `some v` exactly
when every segment exists through dicts. -/
def getAt : JValue → List String → Option JValue
  | v, [] => some v
  | .obj m, k :: ks =>
      (match alookup m k with
       | some v => getAt v ks
       | none => none)
  | _, _ :: _ => none

/-- `ensure(obj, *keys)` fused with the mutation the callers perform on the
returned innermost dict: descend, replacing a missing or non-dict node by
`{}`, and apply `f` to the innermost dict. `ensure` alone is `f = id`. -/
def asObjD : Option JValue → Obj
  | some (.obj m) => m
  | _ => []

def ensureMod : Obj → List String → (Obj → Obj) → Obj
  | cfg, [], f => f cfg
  | cfg, k :: ks, f => ainsert cfg k (.obj (ensureMod (asObjD (alookup cfg k)) ks f))

def ensureK (cfg : Obj) (ks : List String) : Obj := ensureMod cfg ks id

/-- The failure space of a run: `crash` is any uncaught Python exception
(malformed `int`, subscripting a non-dict), `noProvider` is the designed
`sys.exit(1)` of the validator. -/
inductive CfgErr where
  | crash
  | noProvider
  deriving Repr, DecidableEq

/-- Direct chained subscripting `cfg[k₁][k₂]…` followed by a mutation of the
innermost dict: raises when a level is missing or not a dict. -/
def modifyAt : Obj → List String → (Obj → Obj) → Except CfgErr Obj
  | cfg, [], f => .ok (f cfg)
  | cfg, k :: ks, f =>
      (match alookup cfg k with
       | some (.obj m) => (modifyAt m ks f).map (fun m' => ainsert cfg k (.obj m'))
       | _ => .error .crash)

/-- The process environment: an association list of set variables. A missing
key is an unset variable; an empty value is set-but-empty. -/
abbrev Env := List (String × String)

def envVal (env : Env) (k : String) : Option String := alookup env k

/-- Python truthiness of `os.environ.get(k)`: set and non-empty. -/
def envTru (env : Env) (k : String) : Bool := ((envVal env k).getD "") ≠ ""

/-- The six field type tags of the schema. -/
inductive FType where
  | tstr
  | tint
  | tboolT
  | tboolF
  | tcsv
  | tcsvSmart
  deriving Repr, DecidableEq

/-- One (environment variable, dot-path, type tag) field mapping. -/
structure FMap where
  var : String
  path : String
  ty : FType
  deriving Repr, DecidableEq

/-- Split on commas (for the two csv types). -/
def splitCommas (s : String) : List String :=
  (go s.data []).reverse
where
  go : List Char → List Char → List String
    | [], acc => [String.mk acc]
    | ',' :: rest, acc => go rest [] ++ [String.mk acc]
    | c :: rest, acc => go rest (acc ++ [c])

/-- `parse_value(raw, type_hint)`: crash models the uncaught `ValueError`
from `int(raw)`; the csv variants strip each element and drop empties, and
`csv_smart` falls back to the string whenever `int` fails. -/
def parseValue (raw : String) : FType → Except CfgErr JValue
  | .tstr => .ok (.str raw)
  | .tint =>
      (match pyInt raw with
       | some n => .ok (.int n)
       | none => .error .crash)
  | .tboolT => .ok (.bool (toLowerStr raw ≠ "false"))
  | .tboolF => .ok (.bool (toLowerStr raw = "true"))
  | .tcsv =>
      .ok (.arr (((splitCommas raw).map pyStrip).filter (fun e => e ≠ "") |>.map .str))
  | .tcsvSmart =>
      .ok (.arr (((splitCommas raw).map pyStrip).filter (fun e => e ≠ "") |>.map
        (fun e => match pyInt e with
          | some n => .int n
          | none => .str e)))

/-- `apply_fields(obj, fields)`: apply each mapping whose variable is present
in the environment — even with an empty value — in list order. -/
def applyFields (env : Env) (fields : List FMap) (o : Obj) : Except CfgErr Obj :=
  fields.foldlM
    (fun acc f =>
      match envVal env f.var with
      | none => .ok acc
      | some raw => do
          let v ← parseValue raw f.ty
          match setNestedO (splitDots f.path) acc v with
          | some acc' => .ok acc'
          | none => .error .crash)
    o

/-- `_auto_type(raw)`: boolean literal, else `int`, else `float`, else a
structured JSON literal when the first character opens one, else the string
itself. -/
def autoType (raw : String) : JValue :=
  let low := toLowerStr raw
  if low = "true" then .bool true
  else if low = "false" then .bool false
  else
    match pyInt raw with
    | some n => .int n
    | none =>
        if pyFloatAccepts raw then .float raw
        else if strStarts raw "[" ∨ strStarts raw "\x7b" then
          match jsonLoads raw with
          | some v => v
          | none => .str raw
        else .str raw

example : autoType "TRUE" = .bool true := by decide
example : autoType "42" = .int 42 := by decide
example : autoType "4.5" = .float "4.5" := by decide
example : autoType "[1,\"a\"]" = .arr [.int 1, .str "a"] := by decide
example : autoType "[oops" = .str "[oops" := by decide
example : autoType "hello" = .str "hello" := by decide

/-- Lexicographic order on strings by code point, as Python compares. -/
def strLtB (a b : String) : Bool :=
  go a.data b.data
where
  go : List Char → List Char → Bool
    | [], [] => false
    | [], _ :: _ => true
    | _ :: _, [] => false
    | x :: xs, y :: ys => if x < y then true else if y < x then false else go xs ys

/-- Tuple comparison on environment items, as `sorted(os.environ.items())`. -/
def pairLtB (a b : String × String) : Bool :=
  strLtB a.1 b.1 || (a.1 == b.1 && strLtB a.2 b.2)

def sortedInsert (x : String × String) : List (String × String) → List (String × String)
  | [] => [x]
  | y :: ys => if pairLtB y x then y :: sortedInsert x ys else x :: y :: ys

/-- Insertion sort by the tuple order (Python `sorted`). -/
def sortPairs : List (String × String) → List (String × String)
  | [] => []
  | x :: xs => sortedInsert x (sortPairs xs)

/-- The reserved convention namespace. -/
def convPfx : String := "OPENCLAW_JSON__"

/-- The sorted matches `apply_convention_overrides` iterates over. -/
def convItems (env : Env) : List (String × String) :=
  sortPairs (env.filter (fun kv => strStarts kv.1 convPfx))

/-- The dot-path encoded by a convention variable name. -/
def convPath (name : String) : List String :=
  splitDots (replaceDunder (strDrop name convPfx.data.length))

/-- `apply_convention_overrides(config)`: for each match in sorted order,
derive the path, auto-type the value, `set_nested` it (crash propagates). -/
def applyConv (env : Env) (cfg : Obj) : Except CfgErr Obj :=
  (convItems env).foldlM
    (fun acc kv =>
      match setNestedO (convPath kv.1) acc (autoType kv.2) with
      | some acc' => .ok acc'
      | none => .error .crash)
    cfg

example : convPath "OPENCLAW_JSON__a__b" = ["a", "b"] := by decide
example : convPath "OPENCLAW_JSON__gateway__port" = ["gateway", "port"] := by decide
example : splitDots "actions.reactions" = ["actions", "reactions"] := by decide
example : splitDots "a..b." = ["a", "", "b", ""] := by decide
example : splitDots "" = [""] := by decide
example : splitCommas "x, y,,z" = ["x", " y", "", "z"] := by decide
example : applyConv [("OPENCLAW_JSON__x__y", "3"), ("HOME", "/root")] [] =
    .ok [("x", .obj [("y", .int 3)])] := rfl

-- ── Schema data (configure.py lines 25-225) ─────────────────────────────────

/-- `BUILTIN_PROVIDERS`: (env var, display label, provider key). -/
def BUILTIN_PROVIDERS : List (String × String × String) :=
  [ ("ANTHROPIC_API_KEY",    "Anthropic",         "anthropic"),
    ("OPENAI_API_KEY",       "OpenAI",            "openai"),
    ("OPENROUTER_API_KEY",   "OpenRouter",         "openrouter"),
    ("GEMINI_API_KEY",       "Google Gemini",     "google"),
    ("XAI_API_KEY",          "xAI",               "xai"),
    ("GROQ_API_KEY",         "Groq",              "groq"),
    ("MISTRAL_API_KEY",      "Mistral",           "mistral"),
    ("CEREBRAS_API_KEY",     "Cerebras",          "cerebras"),
    ("ZAI_API_KEY",          "ZAI",               "zai"),
    ("AI_GATEWAY_API_KEY",   "Vercel AI Gateway", "vercel-ai-gateway"),
    ("COPILOT_GITHUB_TOKEN", "GitHub Copilot",    "github-copilot") ]

/-- One `CUSTOM_PROVIDERS` catalog entry; `baseUrl` is static when present,
otherwise `baseUrlEnv`/`baseUrlDefault` resolve it from the environment. -/
structure CustomProv where
  key : String
  envK : String
  api : String
  baseUrl : Option String
  baseUrlEnv : Option String
  baseUrlDefault : Option String
  models : JValue
  deriving Repr

def mkModel (idv namev : String) (ctx : Int) : JValue :=
  .obj [("id", .str idv), ("name", .str namev), ("contextWindow", .int ctx)]

def CUSTOM_PROVIDERS : List CustomProv :=
  [ { key := "venice", envK := "VENICE_API_KEY", api := "openai-completions",
      baseUrl := some "https://api.venice.ai/api/v1",
      baseUrlEnv := none, baseUrlDefault := none,
      models := .arr [mkModel "llama-3.3-70b" "Llama 3.3 70B" 128000] },
    { key := "minimax", envK := "MINIMAX_API_KEY", api := "anthropic-messages",
      baseUrl := some "https://api.minimax.io/anthropic",
      baseUrlEnv := none, baseUrlDefault := none,
      models := .arr [mkModel "MiniMax-M2.1" "MiniMax M2.1" 200000] },
    { key := "moonshot", envK := "MOONSHOT_API_KEY", api := "openai-completions",
      baseUrl := none,
      baseUrlEnv := some "MOONSHOT_BASE_URL",
      baseUrlDefault := some "https://api.moonshot.ai/v1",
      models := .arr [mkModel "kimi-k2.5" "Kimi K2.5" 128000] },
    { key := "kimi-coding", envK := "KIMI_API_KEY", api := "anthropic-messages",
      baseUrl := none,
      baseUrlEnv := some "KIMI_BASE_URL",
      baseUrlDefault := some "https://api.moonshot.ai/anthropic",
      models := .arr [mkModel "k2p5" "Kimi K2P5" 128000] },
    { key := "synthetic", envK := "SYNTHETIC_API_KEY", api := "anthropic-messages",
      baseUrl := some "https://api.synthetic.new/anthropic",
      baseUrlEnv := none, baseUrlDefault := none,
      models := .arr [mkModel "hf:MiniMaxAI/MiniMax-M2.1" "MiniMax M2.1" 192000] },
    { key := "xiaomi", envK := "XIAOMI_API_KEY", api := "anthropic-messages",
      baseUrl := some "https://api.xiaomimimo.com/anthropic",
      baseUrlEnv := none, baseUrlDefault := none,
      models := .arr [mkModel "mimo-v2-flash" "MiMo v2 Flash" 262144] } ]

/-- `PRIMARY_MODEL_PRIORITY`: (signal key, model id); `_OPENCODE_KEY` and
`_OLLAMA_URL` are resolved composites. -/
def PRIMARY_MODEL_PRIORITY : List (String × String) :=
  [ ("ANTHROPIC_API_KEY",    "anthropic/claude-opus-4-5-20251101"),
    ("OPENAI_API_KEY",       "openai/gpt-5.2"),
    ("OPENROUTER_API_KEY",   "openrouter/anthropic/claude-opus-4-5"),
    ("GEMINI_API_KEY",       "google/gemini-2.5-pro"),
    ("_OPENCODE_KEY",        "opencode/claude-opus-4-5"),
    ("COPILOT_GITHUB_TOKEN", "github-copilot/claude-opus-4-5"),
    ("XAI_API_KEY",          "xai/grok-3"),
    ("GROQ_API_KEY",         "groq/llama-3.3-70b-versatile"),
    ("MISTRAL_API_KEY",      "mistral/mistral-large-latest"),
    ("CEREBRAS_API_KEY",     "cerebras/llama-3.3-70b"),
    ("VENICE_API_KEY",       "venice/llama-3.3-70b"),
    ("MOONSHOT_API_KEY",     "moonshot/kimi-k2.5"),
    ("KIMI_API_KEY",         "kimi-coding/k2p5"),
    ("MINIMAX_API_KEY",      "minimax/MiniMax-M2.1"),
    ("SYNTHETIC_API_KEY",    "synthetic/hf:MiniMaxAI/MiniMax-M2.1"),
    ("ZAI_API_KEY",          "zai/glm-4.7"),
    ("AI_GATEWAY_API_KEY",   "vercel-ai-gateway/anthropic/claude-opus-4.5"),
    ("XIAOMI_API_KEY",       "xiaomi/mimo-v2-flash"),
    ("AWS_ACCESS_KEY_ID",    "amazon-bedrock/anthropic.claude-opus-4-5-20251101-v1:0"),
    ("_OLLAMA_URL",          "ollama/llama3.3") ]

/-- A channel gate: a single variable or a list that must all be non-empty. -/
inductive GateSpec where
  | one (g : String)
  | many (gs : List String)
  deriving Repr

/-- The `gateCheck` mode: non-empty token (default) or boolean equality. -/
inductive GateCheck where
  | token
  | boolCheck
  deriving Repr, DecidableEq

/-- The `tokenField` shape, parallel to the gate shape. -/
inductive TokSpec where
  | one (f : String)
  | many (fs : List String)
  deriving Repr

/-- One `CHANNELS` entry. -/
structure Channel where
  key : String
  gate : GateSpec
  gateCheck : GateCheck
  merge : Bool
  tokenField : Option TokSpec
  fields : List FMap
  deriving Repr

def fm (v p : String) (t : FType) : FMap := ⟨v, p, t⟩

def telegramChannel : Channel :=
  { key := "telegram", gate := .one "TELEGRAM_BOT_TOKEN", gateCheck := .token,
    merge := true, tokenField := some (.one "botToken"),
    fields :=
      [ fm "TELEGRAM_DM_POLICY"              "dmPolicy"                   .tstr,
        fm "TELEGRAM_GROUP_POLICY"           "groupPolicy"                .tstr,
        fm "TELEGRAM_REPLY_TO_MODE"          "replyToMode"                .tstr,
        fm "TELEGRAM_CHUNK_MODE"             "chunkMode"                  .tstr,
        fm "TELEGRAM_STREAM_MODE"            "streamMode"                 .tstr,
        fm "TELEGRAM_REACTION_NOTIFICATIONS" "reactionNotifications"      .tstr,
        fm "TELEGRAM_REACTION_LEVEL"         "reactionLevel"              .tstr,
        fm "TELEGRAM_PROXY"                  "proxy"                      .tstr,
        fm "TELEGRAM_WEBHOOK_URL"            "webhookUrl"                 .tstr,
        fm "TELEGRAM_WEBHOOK_SECRET"         "webhookSecret"              .tstr,
        fm "TELEGRAM_WEBHOOK_PATH"           "webhookPath"                .tstr,
        fm "TELEGRAM_MESSAGE_PREFIX"         "messagePrefix"              .tstr,
        fm "TELEGRAM_LINK_PREVIEW"           "linkPreview"                .tboolT,
        fm "TELEGRAM_ACTIONS_REACTIONS"      "actions.reactions"          .tboolT,
        fm "TELEGRAM_ACTIONS_STICKER"        "actions.sticker"            .tboolF,
        fm "TELEGRAM_TEXT_CHUNK_LIMIT"       "textChunkLimit"             .tint,
        fm "TELEGRAM_MEDIA_MAX_MB"           "mediaMaxMb"                 .tint,
        fm "TELEGRAM_ALLOW_FROM"             "allowFrom"                  .tcsvSmart,
        fm "TELEGRAM_GROUP_ALLOW_FROM"       "groupAllowFrom"             .tcsvSmart,
        fm "TELEGRAM_INLINE_BUTTONS"         "capabilities.inlineButtons" .tstr ] }

def discordChannel : Channel :=
  { key := "discord", gate := .one "DISCORD_BOT_TOKEN", gateCheck := .token,
    merge := true, tokenField := some (.one "token"),
    fields :=
      [ fm "DISCORD_DM_POLICY"               "dm.policy"                  .tstr,
        fm "DISCORD_GROUP_POLICY"            "groupPolicy"                .tstr,
        fm "DISCORD_REPLY_TO_MODE"           "replyToMode"                .tstr,
        fm "DISCORD_CHUNK_MODE"              "chunkMode"                  .tstr,
        fm "DISCORD_REACTION_NOTIFICATIONS"  "reactionNotifications"      .tstr,
        fm "DISCORD_MESSAGE_PREFIX"          "messagePrefix"              .tstr,
        fm "DISCORD_ALLOW_BOTS"              "allowBots"                  .tboolF,
        fm "DISCORD_ACTIONS_REACTIONS"       "actions.reactions"          .tboolT,
        fm "DISCORD_ACTIONS_STICKERS"        "actions.stickers"           .tboolT,
        fm "DISCORD_ACTIONS_EMOJI_UPLOADS"   "actions.emojiUploads"       .tboolT,
        fm "DISCORD_ACTIONS_STICKER_UPLOADS" "actions.stickerUploads"     .tboolT,
        fm "DISCORD_ACTIONS_POLLS"           "actions.polls"              .tboolT,
        fm "DISCORD_ACTIONS_PERMISSIONS"     "actions.permissions"        .tboolT,
        fm "DISCORD_ACTIONS_MESSAGES"        "actions.messages"           .tboolT,
        fm "DISCORD_ACTIONS_THREADS"         "actions.threads"            .tboolT,
        fm "DISCORD_ACTIONS_PINS"            "actions.pins"               .tboolT,
        fm "DISCORD_ACTIONS_SEARCH"          "actions.search"             .tboolT,
        fm "DISCORD_ACTIONS_MEMBER_INFO"     "actions.memberInfo"         .tboolT,
        fm "DISCORD_ACTIONS_ROLE_INFO"       "actions.roleInfo"           .tboolT,
        fm "DISCORD_ACTIONS_CHANNEL_INFO"    "actions.channelInfo"        .tboolT,
        fm "DISCORD_ACTIONS_CHANNELS"        "actions.channels"           .tboolT,
        fm "DISCORD_ACTIONS_VOICE_STATUS"    "actions.voiceStatus"        .tboolT,
        fm "DISCORD_ACTIONS_EVENTS"          "actions.events"             .tboolT,
        fm "DISCORD_ACTIONS_ROLES"           "actions.roles"              .tboolF,
        fm "DISCORD_ACTIONS_MODERATION"      "actions.moderation"         .tboolF,
        fm "DISCORD_TEXT_CHUNK_LIMIT"        "textChunkLimit"             .tint,
        fm "DISCORD_MAX_LINES_PER_MESSAGE"   "maxLinesPerMessage"         .tint,
        fm "DISCORD_MEDIA_MAX_MB"            "mediaMaxMb"                 .tint,
        fm "DISCORD_HISTORY_LIMIT"           "historyLimit"               .tint,
        fm "DISCORD_DM_HISTORY_LIMIT"        "dmHistoryLimit"             .tint,
        fm "DISCORD_DM_ALLOW_FROM"           "dm.allowFrom"               .tcsv ] }

def slackChannel : Channel :=
  { key := "slack", gate := .many ["SLACK_BOT_TOKEN", "SLACK_APP_TOKEN"],
    gateCheck := .token, merge := true,
    tokenField := some (.many ["botToken", "appToken"]),
    fields :=
      [ fm "SLACK_USER_TOKEN"               "userToken"                  .tstr,
        fm "SLACK_SIGNING_SECRET"           "signingSecret"              .tstr,
        fm "SLACK_MODE"                     "mode"                       .tstr,
        fm "SLACK_WEBHOOK_PATH"             "webhookPath"                .tstr,
        fm "SLACK_DM_POLICY"                "dm.policy"                  .tstr,
        fm "SLACK_GROUP_POLICY"             "groupPolicy"                .tstr,
        fm "SLACK_REPLY_TO_MODE"            "replyToMode"                .tstr,
        fm "SLACK_REACTION_NOTIFICATIONS"   "reactionNotifications"      .tstr,
        fm "SLACK_CHUNK_MODE"               "chunkMode"                  .tstr,
        fm "SLACK_MESSAGE_PREFIX"           "messagePrefix"              .tstr,
        fm "SLACK_ALLOW_BOTS"               "allowBots"                  .tboolF,
        fm "SLACK_ACTIONS_REACTIONS"        "actions.reactions"          .tboolT,
        fm "SLACK_ACTIONS_MESSAGES"         "actions.messages"           .tboolT,
        fm "SLACK_ACTIONS_PINS"             "actions.pins"               .tboolT,
        fm "SLACK_ACTIONS_MEMBER_INFO"      "actions.memberInfo"         .tboolT,
        fm "SLACK_ACTIONS_EMOJI_LIST"       "actions.emojiList"          .tboolT,
        fm "SLACK_HISTORY_LIMIT"            "historyLimit"               .tint,
        fm "SLACK_TEXT_CHUNK_LIMIT"         "textChunkLimit"             .tint,
        fm "SLACK_MEDIA_MAX_MB"             "mediaMaxMb"                 .tint,
        fm "SLACK_DM_ALLOW_FROM"            "dm.allowFrom"               .tcsv ] }

def whatsappChannel : Channel :=
  { key := "whatsapp", gate := .one "WHATSAPP_ENABLED", gateCheck := .boolCheck,
    merge := false, tokenField := none,
    fields :=
      [ fm "WHATSAPP_DM_POLICY"             "dmPolicy"                   .tstr,
        fm "WHATSAPP_GROUP_POLICY"          "groupPolicy"                .tstr,
        fm "WHATSAPP_MESSAGE_PREFIX"        "messagePrefix"              .tstr,
        fm "WHATSAPP_SELF_CHAT_MODE"        "selfChatMode"               .tboolF,
        fm "WHATSAPP_SEND_READ_RECEIPTS"    "sendReadReceipts"           .tboolT,
        fm "WHATSAPP_ACTIONS_REACTIONS"     "actions.reactions"          .tboolT,
        fm "WHATSAPP_MEDIA_MAX_MB"          "mediaMaxMb"                 .tint,
        fm "WHATSAPP_HISTORY_LIMIT"         "historyLimit"               .tint,
        fm "WHATSAPP_DM_HISTORY_LIMIT"      "dmHistoryLimit"             .tint,
        fm "WHATSAPP_ALLOW_FROM"            "allowFrom"                  .tcsv,
        fm "WHATSAPP_GROUP_ALLOW_FROM"      "groupAllowFrom"             .tcsv,
        fm "WHATSAPP_ACK_REACTION_EMOJI"    "ackReaction.emoji"          .tstr,
        fm "WHATSAPP_ACK_REACTION_DIRECT"   "ackReaction.direct"         .tboolT,
        fm "WHATSAPP_ACK_REACTION_GROUP"    "ackReaction.group"          .tstr ] }

def CHANNELS : List Channel :=
  [telegramChannel, discordChannel, slackChannel, whatsappChannel]

def BROWSER_FIELDS : List FMap :=
  [ fm "BROWSER_CDP_URL"                     "cdpUrl"                      .tstr,
    fm "BROWSER_EVALUATE_ENABLED"            "evaluateEnabled"             .tboolF,
    fm "BROWSER_SNAPSHOT_MODE"               "snapshotDefaults.mode"       .tstr,
    fm "BROWSER_REMOTE_TIMEOUT_MS"           "remoteCdpTimeoutMs"          .tint,
    fm "BROWSER_REMOTE_HANDSHAKE_TIMEOUT_MS" "remoteCdpHandshakeTimeoutMs" .tint,
    fm "BROWSER_DEFAULT_PROFILE"             "defaultProfile"              .tstr ]

def HOOKS_FIELDS : List FMap :=
  [ fm "HOOKS_TOKEN" "token" .tstr,
    fm "HOOKS_PATH"  "path"  .tstr ]

-- ── The resolution pipeline (configure.py main, lines 416-686) ──────────────

/-- Subscript navigation `cfg[k₁][k₂]…` as a read: raises when a level is
missing or not a dict. -/
def getObjAt : Obj → List String → Except CfgErr Obj
  | cfg, [] => .ok cfg
  | cfg, k :: ks =>
      (match alookup cfg k with
       | some (.obj m) => getObjAt m ks
       | _ => .error .crash)

/-- `x is None` on an optional stored node: missing, or stored JSON null. -/
def isNoneN : Option JValue → Bool
  | none => true
  | some .null => true
  | some _ => false

/-- `WORKSPACE_DIR` (module scope): env override with fixed fallback,
trailing slashes stripped. -/
def workspaceDir (env : Env) : String :=
  rstripSlash ((envVal env "OPENCLAW_WORKSPACE_DIR").getD "/data/workspace")

/-- `opencode_key` truthiness: `OPENCODE_API_KEY or OPENCODE_ZEN_API_KEY`. -/
def opencodeTru (env : Env) : Bool :=
  envTru env "OPENCODE_API_KEY" || envTru env "OPENCODE_ZEN_API_KEY"

/-- `ollama_url`: `OLLAMA_BASE_URL` with trailing slashes stripped. -/
def ollamaUrl (env : Env) : String :=
  rstripSlash ((envVal env "OLLAMA_BASE_URL").getD "")

/-- Step 1: custom JSON, then persisted, deep-merged over it. A missing or
unparsable file is `none`; a present non-object top level aborts the run
before any claim-relevant stage (`deep_merge`/`ensure` raise on it), so the
loaded documents are modelled at object type. -/
def loadConfig (custom persisted : Option Obj) : Obj :=
  let cfg : Obj := match custom with
    | some c => c
    | none => []
  match persisted with
  | some p => deepMerge cfg p
  | none => cfg

/-- Step 2, port: an explicit non-empty `OPENCLAW_GATEWAY_PORT` is parsed by
`int(...)` (crash on failure), otherwise an untruthy existing port falls back
to 18789. -/
def gwPortDefault (cfg : Obj) : Except CfgErr Obj :=
  modifyAt cfg ["gateway"] (fun gw =>
    if truthyO (alookup gw "port") then gw else ainsert gw "port" (.int 18789))

def gwPortStep (env : Env) (cfg : Obj) : Except CfgErr Obj :=
  match envVal env "OPENCLAW_GATEWAY_PORT" with
  | some s =>
      if s = "" then gwPortDefault cfg
      else
        (match pyInt s with
         | some n => modifyAt cfg ["gateway"] (fun gw => ainsert gw "port" (.int n))
         | none => .error .crash)
  | none => gwPortDefault cfg

def gwModeStep (cfg : Obj) : Except CfgErr Obj :=
  modifyAt cfg ["gateway"] (fun gw =>
    if truthyO (alookup gw "mode") then gw else ainsert gw "mode" (.str "local"))

def gwTokenStep (env : Env) (cfg : Obj) : Except CfgErr Obj :=
  let tok := pyStrip ((envVal env "OPENCLAW_GATEWAY_TOKEN").getD "")
  if tok = "" then .ok cfg
  else
    modifyAt (ensureK cfg ["gateway", "auth"]) ["gateway", "auth"] (fun au =>
      ainsert (ainsert au "mode" (.str "token")) "token" (.str tok))

def gwCuiStep (cfg : Obj) : Except CfgErr Obj :=
  modifyAt (ensureK cfg ["gateway", "controlUi"]) ["gateway", "controlUi"] (fun cu =>
    let cu := if isNoneN (alookup cu "allowInsecureAuth") then
        ainsert cu "allowInsecureAuth" (.bool true) else cu
    if isNoneN (alookup cu "enabled") then ainsert cu "enabled" (.bool true) else cu)

def stageGateway (env : Env) (cfg : Obj) : Except CfgErr Obj := do
  let c₀ := ensureK cfg ["gateway"]
  let c₁ ← gwPortStep env c₀
  let c₂ ← gwModeStep c₁
  let c₃ ← gwTokenStep env c₂
  gwCuiStep c₃

/-- Step 3: agents defaults (workspace fallback) and the model subtree. -/
def stageAgents (env : Env) (cfg : Obj) : Obj :=
  let cfg := ensureMod cfg ["agents", "defaults"] (fun d =>
    if truthyO (alookup d "workspace") then d
    else ainsert d "workspace" (.str (workspaceDir env)))
  ensureK cfg ["agents", "defaults", "model"]

/-- `remove_provider(config, has_custom_config, name, …)`: get_nested to the
providers dict, delete the named key when present; a no-op when a custom
document was loaded or the path is absent/non-dict. -/
def removeProvider (hasCustom : Bool) (cfg : Obj) (name : String) : Obj :=
  if hasCustom then cfg
  else
    match alookup cfg "models" with
    | some (.obj ms) =>
        (match alookup ms "providers" with
         | some (.obj provs) =>
             if (alookup provs name).isSome then
               ainsert cfg "models" (.obj (ainsert ms "providers"
                 (.obj (aremove provs name))))
             else cfg
         | _ => cfg)
    | _ => cfg

/-- Step 4 entry construction: `api`, `apiKey`, `models`, then `baseUrl`
(static, or from the entry's env var with default and trailing-slash
strip). -/
def provEntry (env : Env) (p : CustomProv) (apiKey : String) : JValue :=
  let base : Obj := [("api", .str p.api), ("apiKey", .str apiKey), ("models", p.models)]
  match p.baseUrl with
  | some u => .obj (ainsert base "baseUrl" (.str u))
  | none =>
      (match p.baseUrlEnv with
       | some ev =>
           let url := (envVal env ev).getD (p.baseUrlDefault.getD "")
           .obj (ainsert base "baseUrl" (.str (rstripSlash url)))
       | none => .obj base)

def stageCustomProvs (env : Env) (hasCustom : Bool) (cfg : Obj) : Obj :=
  CUSTOM_PROVIDERS.foldl
    (fun cfg p =>
      match envVal env p.envK with
      | some apiKey =>
          if apiKey ≠ "" then
            ensureMod cfg ["models", "providers"]
              (fun provs => ainsert provs p.key (provEntry env p apiKey))
          else removeProvider hasCustom cfg p.key
      | none => removeProvider hasCustom cfg p.key)
    cfg

/-- Step 5: Amazon Bedrock, gated on the pair of AWS credentials. -/
def awsRegion (env : Env) : String :=
  if envTru env "AWS_REGION" then (envVal env "AWS_REGION").getD ""
  else if envTru env "AWS_DEFAULT_REGION" then (envVal env "AWS_DEFAULT_REGION").getD ""
  else "us-east-1"

def bedrockModels : JValue :=
  .arr [ mkModel "anthropic.claude-opus-4-5-20251101-v1:0"
           "Claude Opus 4.5 (Bedrock)" 200000,
         mkModel "anthropic.claude-sonnet-4-5-20250929-v1:0"
           "Claude Sonnet 4.5 (Bedrock)" 200000 ]

def stageBedrock (env : Env) (hasCustom : Bool) (cfg : Obj) : Obj :=
  if envTru env "AWS_ACCESS_KEY_ID" && envTru env "AWS_SECRET_ACCESS_KEY" then
    let region := awsRegion env
    let cfg := ensureMod cfg ["models", "providers"] (fun provs =>
      ainsert provs "amazon-bedrock" (.obj
        [ ("api", .str "bedrock-converse-stream"),
          ("baseUrl", .str ("https://bedrock-runtime." ++ region ++ ".amazonaws.com")),
          ("models", bedrockModels) ]))
    ensureMod cfg ["models"] (fun ms => ainsert ms "bedrockDiscovery" (.obj
      [ ("enabled", .bool true), ("region", .str region),
        ("providerFilter", .str ((envVal env "BEDROCK_PROVIDER_FILTER").getD "anthropic")),
        ("refreshInterval", .int 3600) ]))
  else if hasCustom then cfg
  else
    let cfg := removeProvider false cfg "amazon-bedrock"
    match alookup cfg "models" with
    | some (.obj ms) => ainsert cfg "models" (.obj (aremove ms "bedrockDiscovery"))
    | _ => cfg

/-- Step 6: Ollama, gated on the slash-stripped base URL, normalized to end
in `/v1`. -/
def stageOllama (env : Env) (hasCustom : Bool) (cfg : Obj) : Obj :=
  let url := ollamaUrl env
  if url ≠ "" then
    let base := if strEnds url "/v1" then url else url ++ "/v1"
    ensureMod cfg ["models", "providers"] (fun provs => ainsert provs "ollama" (.obj
      [ ("api", .str "openai-completions"), ("baseUrl", .str base),
        ("models", .arr [mkModel "llama3.3" "Llama 3.3" 128000]) ]))
  else removeProvider hasCustom cfg "ollama"

/-- Step 7: delete stale built-in provider entries (including `opencode`)
unless a custom document was loaded; the per-provider prints do not touch the
document. -/
def stageBuiltins (hasCustom : Bool) (cfg : Obj) : Obj :=
  if hasCustom then cfg
  else
    let cfg := BUILTIN_PROVIDERS.foldl (fun cfg t => removeProvider false cfg t.2.2) cfg
    removeProvider false cfg "opencode"

/-- Step 8 signal resolution over `resolved_env`: the two composite keys are
pre-resolved, everything else is a plain lookup. -/
def resolvedTru (env : Env) (k : String) : Bool :=
  if k = "_OPENCODE_KEY" then opencodeTru env
  else if k = "_OLLAMA_URL" then ollamaUrl env ≠ ""
  else envTru env k

/-- The first priority entry whose signal resolves truthy. -/
def primaryWalk (env : Env) : Option String :=
  (PRIMARY_MODEL_PRIORITY.find? (fun p => resolvedTru env p.1)).map (fun p => p.2)

def primaryPath : List String := ["agents", "defaults", "model"]

def stagePrimary (env : Env) (cfg : Obj) : Except CfgErr Obj :=
  if envTru env "OPENCLAW_PRIMARY_MODEL" then
    modifyAt cfg primaryPath (fun m =>
      ainsert m "primary" (.str ((envVal env "OPENCLAW_PRIMARY_MODEL").getD "")))
  else do
    let m ← getObjAt cfg primaryPath
    if truthyO (alookup m "primary") then .ok cfg
    else
      match primaryWalk env with
      | some model => modifyAt cfg primaryPath (fun mm => ainsert mm "primary" (.str model))
      | none => .ok cfg

/-- Step 9: Deepgram transcription (the `elif` branch only logs). -/
def stageDeepgram (env : Env) (cfg : Obj) : Obj :=
  if envTru env "DEEPGRAM_API_KEY" then
    ensureMod cfg ["tools", "media", "audio"] (fun au =>
      ainsert (ainsert au "enabled" (.bool true)) "models"
        (.arr [.obj [("provider", .str "deepgram"), ("model", .str "nova-3")]]))
  else cfg

/-- Step 10 gate: a list gate requires every variable non-empty; a `bool`
gate compares the lowered value against "true"/"1"; the default gate is
non-empty presence. -/
def chGateOpen (env : Env) (ch : Channel) : Bool :=
  match ch.gate with
  | .many gs => gs.all (fun g => envTru env g)
  | .one g =>
      match ch.gateCheck with
      | .boolCheck =>
          let v := toLowerStr ((envVal env g).getD "")
          v = "true" ∨ v = "1"
      | .token => envTru env g

/-- Step 10 token fields: copied verbatim from the gate variable(s); the
mixed-shape combinations are silently skipped as in the source. The gate is
open here, so the variables are present (`os.environ[g]`); `getD ""` keeps
the model total. -/
def chTokens (env : Env) (ch : Channel) (o : Obj) : Obj :=
  match ch.gate, ch.tokenField with
  | .many gs, some (.many tfs) =>
      (gs.zip tfs).foldl (fun o p => ainsert o p.2 (.str ((envVal env p.1).getD ""))) o
  | .one g, some (.one tf) => ainsert o tf (.str ((envVal env g).getD ""))
  | _, _ => o

/-- One channel: open gate builds/merges the entry (a non-dict pre-existing
entry under `merge` makes the first subscript on it raise); closed gate only
logs. -/
def processChannel (env : Env) (cfg : Obj) (ch : Channel) : Except CfgErr Obj :=
  if chGateOpen env ch then do
    let cfg := ensureK cfg ["channels"]
    let chans ← getObjAt cfg ["channels"]
    let entry ← (if ch.merge then
        match alookup chans ch.key with
        | some (.obj e) => Except.ok e
        | some _ => Except.error CfgErr.crash
        | none => Except.ok ([] : Obj)
      else Except.ok ([] : Obj))
    let entry := ainsert entry "enabled" (.bool true)
    let entry := chTokens env ch entry
    let entry ← applyFields env ch.fields entry
    modifyAt cfg ["channels"] (fun chans => ainsert chans ch.key (.obj entry))
  else .ok cfg

def stageChannels (env : Env) (cfg : Obj) : Except CfgErr Obj := do
  let cfg ← CHANNELS.foldlM (processChannel env) cfg
  .ok (match alookup cfg "channels" with
       | some (.obj []) => aremove cfg "channels"
       | _ => cfg)

/-- Step 11: browser tool, gated on `BROWSER_CDP_URL`. -/
def stageBrowser (env : Env) (cfg : Obj) : Except CfgErr Obj :=
  if envTru env "BROWSER_CDP_URL" then do
    let cfg := ensureK cfg ["browser"]
    let br ← getObjAt cfg ["browser"]
    let br ← applyFields env BROWSER_FIELDS br
    modifyAt cfg ["browser"] (fun _ => br)
  else .ok cfg

/-- Step 12: hooks, gated on `HOOKS_ENABLED` being "true"/"1". -/
def stageHooks (env : Env) (cfg : Obj) : Except CfgErr Obj :=
  let hv := toLowerStr ((envVal env "HOOKS_ENABLED").getD "")
  if hv = "true" ∨ hv = "1" then do
    let cfg := ensureK cfg ["hooks"]
    let hk ← getObjAt cfg ["hooks"]
    let hk := ainsert hk "enabled" (.bool true)
    let hk ← applyFields env HOOKS_FIELDS hk
    modifyAt cfg ["hooks"] (fun _ => hk)
  else .ok cfg

/-- Step 14 condition: some credential signal of any kind. -/
def hasProviderB (env : Env) : Bool :=
  BUILTIN_PROVIDERS.any (fun t => envTru env t.1)
  || opencodeTru env
  || (envTru env "AWS_ACCESS_KEY_ID" && envTru env "AWS_SECRET_ACCESS_KEY")
  || ollamaUrl env ≠ ""
  || CUSTOM_PROVIDERS.any (fun p => envTru env p.envK)

/-- The stderr diagnostic printed on the fatal validation exit. -/
def noProviderDiag : String :=
  "[configure] ERROR: No AI provider API key set.\n"
  ++ "[configure] Providers require an env var -- API keys are never read from the JSON config.\n"
  ++ "[configure] Set one of: ANTHROPIC_API_KEY, OPENAI_API_KEY, OPENROUTER_API_KEY, GEMINI_API_KEY,\n"
  ++ "[configure]   XAI_API_KEY, GROQ_API_KEY, MISTRAL_API_KEY, CEREBRAS_API_KEY, ZAI_API_KEY,\n"
  ++ "[configure]   AI_GATEWAY_API_KEY, OPENCODE_API_KEY, COPILOT_GITHUB_TOKEN, VENICE_API_KEY,\n"
  ++ "[configure]   MOONSHOT_API_KEY, KIMI_API_KEY, MINIMAX_API_KEY, SYNTHETIC_API_KEY, XIAOMI_API_KEY,\n"
  ++ "[configure]   AWS_ACCESS_KEY_ID+AWS_SECRET_ACCESS_KEY (Bedrock), or OLLAMA_BASE_URL (local)\n"

/-- The document pipeline of `main` (steps 1-14): returns the document that
step 15 serializes, or the run's failure. -/
def pipeline (env : Env) (custom persisted : Option Obj) : Except CfgErr Obj := do
  let cfg := loadConfig custom persisted
  let hasCustom := custom.isSome
  let cfg ← stageGateway env cfg
  let cfg := stageAgents env cfg
  let cfg := stageCustomProvs env hasCustom cfg
  let cfg := stageBedrock env hasCustom cfg
  let cfg := stageOllama env hasCustom cfg
  let cfg := stageBuiltins hasCustom cfg
  let cfg ← stagePrimary env cfg
  let cfg := stageDeepgram env cfg
  let cfg ← stageChannels env cfg
  let cfg ← stageBrowser env cfg
  let cfg ← stageHooks env cfg
  let cfg ← applyConv env cfg
  if hasProviderB env then .ok cfg else .error .noProvider

-- ── Generic association-list lemmas ─────────────────────────────────────────

theorem alookup_append {α : Type} (a b : List (String × α)) (k : String) :
    alookup (a ++ b) k = ((alookup a k).or (alookup b k)) := by
  induction a with
  | nil => simp [alookup]
  | cons hd tl ih =>
      obtain ⟨k', v'⟩ := hd
      by_cases h : k' = k <;> simp [alookup, h, ih]

theorem ainsert_of_lookup_none {α : Type} (m : List (String × α)) (k : String) (v : α)
    (h : alookup m k = none) : ainsert m k v = m ++ [(k, v)] := by
  induction m with
  | nil => simp [ainsert]
  | cons hd tl ih =>
      obtain ⟨k', v'⟩ := hd
      by_cases hk : k' = k
      · simp [alookup, hk] at h
      · simp [alookup, hk] at h
        simp [ainsert, hk, ih h]

theorem alookup_isSome_mem_keys {α : Type} (m : List (String × α)) (k : String)
    (h : (alookup m k).isSome) : k ∈ m.map Prod.fst := by
  induction m with
  | nil => simp [alookup] at h
  | cons hd tl ih =>
      obtain ⟨k', v'⟩ := hd
      by_cases hk : k' = k
      · simp [hk]
      · simp [alookup, hk] at h
        simp [ih h]

-- ── C5: deep merge ──────────────────────────────────────────────────────────

/-- `mergeKey` on a key absent from the target appends. -/
theorem mergeKey_of_lookup_none (t : Obj) (k : String) (v : JValue)
    (h : alookup t k = none) : mergeKey t k v = t ++ [(k, v)] := by
  cases v <;> simp [mergeKey, h, ainsert_of_lookup_none _ _ _ h]

/-- `mergeKey` seen through `alookup` at its own key. -/
theorem alookup_mergeKey_self (t : Obj) (k : String) (v : JValue) :
    alookup (mergeKey t k v) k =
      match v, alookup t k with
      | .obj s, some (.obj ts) => some (.obj (deepMerge ts s))
      | v, _ => some v := by
  cases v with
  | obj s =>
      cases h : alookup t k with
      | none => simp [mergeKey, h]
      | some tv => cases tv <;> simp [mergeKey, h]
  | null => simp [mergeKey]
  | bool b => simp [mergeKey]
  | int n => simp [mergeKey]
  | float l => simp [mergeKey]
  | str s => simp [mergeKey]
  | arr xs => simp [mergeKey]

/-- `mergeKey` does not disturb other keys. -/
theorem alookup_mergeKey_ne (t : Obj) (k k₂ : String) (v : JValue) (h : k ≠ k₂) :
    alookup (mergeKey t k v) k₂ = alookup t k₂ := by
  cases v with
  | obj s =>
      cases hl : alookup t k with
      | none => simp [mergeKey, hl, alookup_ainsert_ne _ _ _ _ h]
      | some tv => cases tv <;> simp [mergeKey, hl, alookup_ainsert_ne _ _ _ _ h]
  | null => simp [mergeKey, alookup_ainsert_ne _ _ _ _ h]
  | bool b => simp [mergeKey, alookup_ainsert_ne _ _ _ _ h]
  | int n => simp [mergeKey, alookup_ainsert_ne _ _ _ _ h]
  | float l => simp [mergeKey, alookup_ainsert_ne _ _ _ _ h]
  | str s => simp [mergeKey, alookup_ainsert_ne _ _ _ _ h]
  | arr xs => simp [mergeKey, alookup_ainsert_ne _ _ _ _ h]

/-- The lookup at any key after a deep merge, for a source with distinct
keys: a key absent from the source keeps the target's value; a present
object-valued key recursively merges when the target also holds an object
there; any other present key carries the source's value wholesale. -/
theorem alookup_deepMerge (s : Obj) : ∀ (t : Obj) (k : String),
    (s.map Prod.fst).Nodup →
    alookup (deepMerge t s) k =
      match alookup s k, alookup t k with
      | none, o => o
      | some (.obj sv), some (.obj tv) => some (.obj (deepMerge tv sv))
      | some (.obj sv), _ => some (.obj sv)
      | some v, _ => some v := by
  induction s with
  | nil => intro t k _; simp [deepMerge, alookup]
  | cons hd rest ih =>
      intro t k hnd
      obtain ⟨kb, vb⟩ := hd
      simp only [List.map_cons, List.nodup_cons] at hnd
      obtain ⟨hkb, hrest⟩ := hnd
      have step : deepMerge t ((kb, vb) :: rest) = deepMerge (mergeKey t kb vb) rest := by
        cases vb <;> rfl
      rw [step, ih (mergeKey t kb vb) k hrest]
      by_cases hk : kb = k
      · subst hk
        have hnone : alookup rest kb = none := by
          cases h : alookup rest kb with
          | none => rfl
          | some v =>
              exact absurd (alookup_isSome_mem_keys rest kb (by simp [h])) hkb
        rw [hnone, alookup_cons]
        simp only [if_pos rfl]
        rw [alookup_mergeKey_self]
        cases vb <;> cases htk : alookup t kb <;>
          first
          | rfl
          | (rename_i tv; cases tv <;> rfl)
      · rw [alookup_cons, if_neg hk, alookup_mergeKey_ne t kb k vb hk]

/-- Deep-merging a source whose keys are disjoint from the target appends it:
the result is exactly the union of both documents. -/
theorem deepMerge_disjoint_eq_append : ∀ (s t : Obj),
    (s.map Prod.fst).Nodup →
    (∀ k, k ∈ s.map Prod.fst → alookup t k = none) →
    deepMerge t s = t ++ s := by
  intro s
  induction s with
  | nil => intro t _ _; simp [deepMerge]
  | cons hd rest ih =>
      intro t hnd hdisj
      obtain ⟨kb, vb⟩ := hd
      simp only [List.map_cons, List.nodup_cons] at hnd
      obtain ⟨hkb, hrest⟩ := hnd
      have step : deepMerge t ((kb, vb) :: rest) = deepMerge (mergeKey t kb vb) rest := by
        cases vb <;> rfl
      have hmk : mergeKey t kb vb = t ++ [(kb, vb)] :=
        mergeKey_of_lookup_none t kb vb (hdisj kb (by simp))
      rw [step, hmk, ih (t ++ [(kb, vb)]) hrest]
      · simp
      · intro k hk
        rw [alookup_append]
        have h₁ : alookup t k = none := hdisj k (by simp [hk])
        have h₂ : alookup [(kb, vb)] k = none := by
          have : kb ≠ k := by
            intro hEq
            exact hkb (hEq ▸ hk)
          simp [alookup, this]
        simp [h₁, h₂]

/-- C5: `mergeInto(target, source)` is a deep merge — mapping values on both
sides recurse key-by-key, any other source value replaces the target's value
wholesale, and for documents with disjoint top-level keys the merge is
exactly the union of both (target's bindings followed by source's). -/
theorem C5_deepMerge_spec :
    (∀ (a b : Obj), (b.map Prod.fst).Nodup →
       (∀ k, k ∈ b.map Prod.fst → alookup a k = none) →
       deepMerge a b = a ++ b)
  ∧ (∀ (a b : Obj) (k : String) (tv sv : Obj), (b.map Prod.fst).Nodup →
       alookup a k = some (.obj tv) → alookup b k = some (.obj sv) →
       alookup (deepMerge a b) k = some (.obj (deepMerge tv sv)))
  ∧ (∀ (a b : Obj) (k : String) (v : JValue), (b.map Prod.fst).Nodup →
       alookup b k = some v → (∀ m : Obj, v ≠ .obj m) →
       alookup (deepMerge a b) k = some v) := by
  refine ⟨fun a b hnd hdisj => deepMerge_disjoint_eq_append b a hnd hdisj, ?_, ?_⟩
  · intro a b k tv sv hnd ha hb
    rw [alookup_deepMerge b a k hnd, ha, hb]
  · intro a b k v hnd hb hnobj
    rw [alookup_deepMerge b a k hnd, hb]
    cases v with
    | obj m => exact absurd rfl (hnobj m)
    | null => cases alookup a k with
        | none => rfl
        | some tv => cases tv <;> rfl
    | bool x => cases alookup a k with
        | none => rfl
        | some tv => cases tv <;> rfl
    | int x => cases alookup a k with
        | none => rfl
        | some tv => cases tv <;> rfl
    | float x => cases alookup a k with
        | none => rfl
        | some tv => cases tv <;> rfl
    | str x => cases alookup a k with
        | none => rfl
        | some tv => cases tv <;> rfl
    | arr x => cases alookup a k with
        | none => rfl
        | some tv => cases tv <;> rfl

/-- C5 witness: a concrete disjoint merge, a concrete recursive merge and a
concrete wholesale array replacement, all through `C5_deepMerge_spec`. -/
theorem C5_witness :
    deepMerge [("a", JValue.int 1)] [("b", JValue.str "x")]
      = [("a", JValue.int 1), ("b", JValue.str "x")]
  ∧ alookup (deepMerge [("m", JValue.obj [("x", JValue.int 1)])]
        [("m", JValue.obj [("y", JValue.int 2)])]) "m"
      = some (JValue.obj [("x", JValue.int 1), ("y", JValue.int 2)])
  ∧ alookup (deepMerge [("l", JValue.arr [JValue.int 1, JValue.int 2])]
        [("l", JValue.arr [JValue.int 9])]) "l"
      = some (JValue.arr [JValue.int 9]) := by
  refine ⟨?_, ?_, ?_⟩
  · have h := C5_deepMerge_spec.1 [("a", JValue.int 1)] [("b", JValue.str "x")]
      (by decide) (by intro k hk; simp at hk; subst hk; rfl)
    simpa using h
  · have h := C5_deepMerge_spec.2.1 [("m", JValue.obj [("x", JValue.int 1)])]
      [("m", JValue.obj [("y", JValue.int 2)])] "m"
      [("x", JValue.int 1)] [("y", JValue.int 2)] (by decide) rfl rfl
    rw [h]
    rfl
  · have h := C5_deepMerge_spec.2.2 [("l", JValue.arr [JValue.int 1, JValue.int 2])]
      [("l", JValue.arr [JValue.int 9])] "l" (JValue.arr [JValue.int 9])
      (by decide) rfl (by intro m h; exact absurd h (by simp))
    exact h

-- ── C6/C7: set_nested and get_nested ────────────────────────────────────────

/-- The domain of `set_nested`: the path is non-empty and every pre-existing
node along the path's interior segments is a dict (an absent segment is fine:
`setdefault` creates it). -/
def setPathOk : List String → Obj → Bool
  | [], _ => false
  | [_], _ => true
  | k :: k₂ :: ks, m =>
      match alookup m k with
      | some (.obj sm) => setPathOk (k₂ :: ks) sm
      | some _ => false
      | none => true

theorem isSome_omap {α β : Type} (f : α → β) (o : Option α) :
    (o.map f).isSome = o.isSome := by
  cases o <;> rfl

theorem setPathOk_nil (k : String) (ks : List String) : setPathOk (k :: ks) [] = true := by
  cases ks with
  | nil => rfl
  | cons k₂ ks => simp [setPathOk, alookup]

theorem setNestedO_isSome : ∀ (p : List String) (m : Obj) (v : JValue),
    (setNestedO p m v).isSome = setPathOk p m
  | [], m, v => by simp [setNestedO, setPathOk]
  | [k], m, v => by simp [setNestedO, setPathOk]
  | k :: k₂ :: ks, m, v => by
      cases h : alookup m k with
      | none =>
          simp only [setNestedO, setPathOk, h, isSome_omap]
          rw [setNestedO_isSome (k₂ :: ks) [] v, setPathOk_nil]
      | some s =>
          cases s <;>
            simp only [setNestedO, setPathOk, h, isSome_omap, Option.isSome_none] <;>
            first
            | rfl
            | exact setNestedO_isSome (k₂ :: ks) _ v

/-- C6 counterexample: the claim that `setAtPath` succeeds for every document
and every path of depth ≥ 1 (overwriting non-mapping intermediates) is false:
with `doc = {"a": 5}` and path `a.b`, `setdefault("a", {})` returns the
integer and the subscript on it raises, so the set fails. -/
theorem C6_counterexample : ¬ (∀ (doc : Obj) (path : List String) (v : JValue),
    1 ≤ path.length → (setNestedO path doc v).isSome = true) := by
  intro h
  have h₂ := h [("a", JValue.int 5)] ["a", "b"] (JValue.int 0) (by decide)
  exact absurd h₂ (by decide)

/-- C6 amended: `setAtPath` creates intermediate mapping nodes for absent
segments, but an intermediate node that exists and is not a mapping makes the
set raise rather than being overwritten; the set succeeds exactly when the
path is non-empty and every pre-existing interior node is a mapping
(`setPathOk`). -/
theorem C6_amended (doc : Obj) (path : List String) (v : JValue) :
    (setNestedO path doc v).isSome = setPathOk path doc :=
  setNestedO_isSome path doc v

theorem getNested_setNestedO : ∀ (p : List String) (m m' : Obj) (v d : JValue),
    setNestedO p m v = some m' → getNested (.obj m') p d = v
  | [], m, m', v, d => by simp [setNestedO]
  | [k], m, m', v, d => by
      intro h
      simp only [setNestedO, Option.some_inj] at h
      subst h
      simp [getNested, alookup_ainsert_self]
  | k :: k₂ :: ks, m, m', v, d => by
      intro h
      cases hl : alookup m k with
      | none =>
          rw [setNestedO, hl] at h
          simp only [Option.map_eq_some'] at h
          obtain ⟨sm', hsm, rfl⟩ := h
          simp only [getNested, alookup_ainsert_self]
          exact getNested_setNestedO (k₂ :: ks) [] sm' v d hsm
      | some s =>
          cases s with
          | obj sm =>
              rw [setNestedO, hl] at h
              simp only [Option.map_eq_some'] at h
              obtain ⟨sm', hsm, rfl⟩ := h
              simp only [getNested, alookup_ainsert_self]
              exact getNested_setNestedO (k₂ :: ks) sm sm' v d hsm
          | null => rw [setNestedO, hl] at h; exact absurd h (by simp)
          | bool b => rw [setNestedO, hl] at h; exact absurd h (by simp)
          | int n => rw [setNestedO, hl] at h; exact absurd h (by simp)
          | float l => rw [setNestedO, hl] at h; exact absurd h (by simp)
          | str s => rw [setNestedO, hl] at h; exact absurd h (by simp)
          | arr xs => rw [setNestedO, hl] at h; exact absurd h (by simp)

/-- C7 counterexample: "set then get returns the set value for every document
and every path of depth ≥ 1" fails where the set itself raises: with
`doc = {"x": "s"}` and path `x.y` no resulting document exists. -/
theorem C7_counterexample : ¬ (∀ (doc : Obj) (path : List String) (v d : JValue),
    1 ≤ path.length →
    ∃ doc', setNestedO path doc v = some doc' ∧ getNested (.obj doc') path d = v) := by
  intro h
  obtain ⟨d', hd, _⟩ :=
    h [("x", JValue.str "s")] ["x", "y"] (JValue.int 7) JValue.null (by decide)
  have hnone : setNestedO ["x", "y"] [("x", JValue.str "s")] (JValue.int 7) = none := by
    decide
  rw [hnone] at hd
  exact absurd hd (by simp)

/-- C7 amended: whenever `setAtPath(doc, path, value)` succeeds, `getAtPath`
on the resulting document with the same path returns the set value, for every
default. -/
theorem C7_amended (doc doc' : Obj) (path : List String) (v d : JValue)
    (h : setNestedO path doc v = some doc') :
    getNested (.obj doc') path d = v :=
  getNested_setNestedO path doc doc' v d h

/-- C7 witness: a depth-2 set into an empty document, read back through
`C7_amended`. -/
theorem C7_witness :
    setNestedO ["x", "y"] [] (JValue.int 7) = some [("x", JValue.obj [("y", JValue.int 7)])]
    ∧ getNested (.obj [("x", JValue.obj [("y", JValue.int 7)])]) ["x", "y"] JValue.null
        = JValue.int 7 :=
  ⟨by decide,
   C7_amended [] [("x", JValue.obj [("y", JValue.int 7)])] ["x", "y"]
     (JValue.int 7) JValue.null (by decide)⟩

-- ── Observables of the document used by the claims ──────────────────────────

/-- A channel's entry: the binding under the `channels` mapping (none when
the mapping is absent or not a dict). -/
def chanLook (cfg : Obj) (k : String) : Option JValue :=
  match alookup cfg "channels" with
  | some (.obj chans) => alookup chans k
  | _ => none

/-- The `models.providers` dict seen through the engine's first-binding
discipline (empty when absent or not a dict). -/
def provsOf (cfg : Obj) : Obj :=
  asObjD (alookup (asObjD (alookup cfg "models")) "providers")

/-- A provider's entry under `models.providers`. -/
def provLook (cfg : Obj) (name : String) : Option JValue := alookup (provsOf cfg) name

/-- The stored primary model value. -/
def primLook (cfg : Obj) : Option JValue :=
  getAt (.obj cfg) ["agents", "defaults", "model", "primary"]

/-- No convention-override variable in the environment (their unconditional
last-wins behaviour is claim C4's subject). -/
def noConv (env : Env) : Prop := ∀ kv ∈ env, strStarts kv.1 convPfx = false

instance (env : Env) : Decidable (noConv env) := by
  unfold noConv
  infer_instance

/-- Top-level keys without duplicates (automatic for any Python dict). -/
def topNodup (m : Obj) : Prop := (m.map Prod.fst).Nodup

instance (m : Obj) : Decidable (topNodup m) := by
  unfold topNodup
  infer_instance

-- ── Monadic plumbing lemmas ─────────────────────────────────────────────────

theorem emap_ok {ε α β : Type} (f : α → β) (e : Except ε α) (b : β) :
    e.map f = .ok b ↔ ∃ a, e = .ok a ∧ f a = b := by
  cases e <;> simp [Except.map]

theorem ebind_ok {ε α β : Type} (e : Except ε α) (f : α → Except ε β) (b : β) :
    (e >>= f) = .ok b ↔ ∃ a, e = .ok a ∧ f a = .ok b := by
  cases e <;> simp [Bind.bind, Except.bind]

-- ── Footprint lemmas: what each stage leaves untouched ──────────────────────

theorem alookup_ensureMod_ne (cfg : Obj) (k : String) (ks : List String) (f : Obj → Obj)
    (k₂ : String) (h : k ≠ k₂) :
    alookup (ensureMod cfg (k :: ks) f) k₂ = alookup cfg k₂ := by
  simp [ensureMod, alookup_ainsert_ne _ _ _ _ h]

theorem alookup_ensureK_ne (cfg : Obj) (k : String) (ks : List String) (k₂ : String)
    (h : k ≠ k₂) : alookup (ensureK cfg (k :: ks)) k₂ = alookup cfg k₂ :=
  alookup_ensureMod_ne cfg k ks id k₂ h

theorem modifyAt_ok_shape (cfg cfg' : Obj) (k : String) (ks : List String) (f : Obj → Obj)
    (hok : modifyAt cfg (k :: ks) f = .ok cfg') :
    ∃ m m', alookup cfg k = some (.obj m) ∧ modifyAt m ks f = .ok m'
      ∧ cfg' = ainsert cfg k (.obj m') := by
  rw [modifyAt] at hok
  split at hok
  · rename_i m heq
    rw [show (modifyAt m ks f).map (fun m' => ainsert cfg k (JValue.obj m'))
          = Except.map (fun m' => ainsert cfg k (JValue.obj m')) (modifyAt m ks f)
        from rfl, emap_ok] at hok
    obtain ⟨m', hmod, hins⟩ := hok
    exact ⟨m, m', heq, hmod, hins.symm⟩
  · exact absurd hok (by simp)

theorem alookup_modifyAt_ne (cfg cfg' : Obj) (k : String) (ks : List String) (f : Obj → Obj)
    (k₂ : String) (h : k ≠ k₂) (hok : modifyAt cfg (k :: ks) f = .ok cfg') :
    alookup cfg' k₂ = alookup cfg k₂ := by
  obtain ⟨m, m', _, _, rfl⟩ := modifyAt_ok_shape cfg cfg' k ks f hok
  exact alookup_ainsert_ne _ _ _ _ h

theorem alookup_removeProvider_ne (hC : Bool) (cfg : Obj) (name k₂ : String)
    (h : k₂ ≠ "models") :
    alookup (removeProvider hC cfg name) k₂ = alookup cfg k₂ := by
  unfold removeProvider
  repeat' split
  all_goals
    first
    | rfl
    | exact alookup_ainsert_ne _ _ _ _ (fun hEq => h hEq.symm)

theorem alookup_foldl_preserve {β : Type} (g : Obj → β → Obj) (l : List β) (cfg : Obj)
    (k₂ : String) (h : ∀ c b, b ∈ l → alookup (g c b) k₂ = alookup c k₂) :
    alookup (l.foldl g cfg) k₂ = alookup cfg k₂ := by
  induction l generalizing cfg with
  | nil => rfl
  | cons b rest ih =>
      rw [List.foldl_cons, ih (g cfg b) (fun c b' hb' => h c b' (List.mem_cons_of_mem b hb')),
        h cfg b (List.mem_cons_self b rest)]

theorem alookup_foldlM_preserve {β : Type} (g : Obj → β → Except CfgErr Obj) (l : List β)
    (cfg cfg' : Obj) (k₂ : String)
    (h : ∀ c c' b, b ∈ l → g c b = .ok c' → alookup c' k₂ = alookup c k₂)
    (hok : l.foldlM g cfg = .ok cfg') : alookup cfg' k₂ = alookup cfg k₂ := by
  induction l generalizing cfg with
  | nil =>
      simp only [List.foldlM_nil] at hok
      cases hok
      rfl
  | cons b rest ih =>
      rw [List.foldlM_cons, ebind_ok] at hok
      obtain ⟨c₁, hb, hrest⟩ := hok
      rw [ih c₁ (fun c c' b' hb' => h c c' b' (List.mem_cons_of_mem b hb')) hrest,
        h cfg c₁ b (List.mem_cons_self b rest) hb]

-- Per-stage footprints, at any top-level key outside the stage's subtree.

theorem stageGateway_ne (env : Env) (cfg cfg' : Obj) (k₂ : String) (h : k₂ ≠ "gateway")
    (hok : stageGateway env cfg = .ok cfg') : alookup cfg' k₂ = alookup cfg k₂ := by
  have hne : "gateway" ≠ k₂ := fun hEq => h hEq.symm
  unfold stageGateway at hok
  rw [ebind_ok] at hok
  obtain ⟨c₁, h₁, hok⟩ := hok
  rw [ebind_ok] at hok
  obtain ⟨c₂, h₂, hok⟩ := hok
  rw [ebind_ok] at hok
  obtain ⟨c₃, h₃, hok⟩ := hok
  -- step 4: gwCuiStep
  have e₄ : alookup cfg' k₂ = alookup c₃ k₂ := by
    unfold gwCuiStep at hok
    have := alookup_modifyAt_ne _ _ _ _ _ k₂ hne hok
    rw [this, alookup_ensureK_ne _ _ _ _ hne]
  -- step 3: gwTokenStep
  have e₃ : alookup c₃ k₂ = alookup c₂ k₂ := by
    unfold gwTokenStep at h₃
    dsimp only at h₃
    split at h₃
    · cases h₃; rfl
    · have := alookup_modifyAt_ne _ _ _ _ _ k₂ hne h₃
      rw [this, alookup_ensureK_ne _ _ _ _ hne]
  -- step 2: gwModeStep
  have e₂ : alookup c₂ k₂ = alookup c₁ k₂ := by
    unfold gwModeStep at h₂
    exact alookup_modifyAt_ne _ _ _ _ _ k₂ hne h₂
  -- step 1: gwPortStep on ensureK cfg ["gateway"]
  have e₁ : alookup c₁ k₂ = alookup cfg k₂ := by
    have base : alookup (ensureK cfg ["gateway"]) k₂ = alookup cfg k₂ := by
      unfold ensureK
      exact alookup_ensureMod_ne _ _ _ _ _ hne
    unfold gwPortStep at h₁
    split at h₁
    · split at h₁
      · unfold gwPortDefault at h₁
        rw [alookup_modifyAt_ne _ _ _ _ _ k₂ hne h₁, base]
      · split at h₁
        · rw [alookup_modifyAt_ne _ _ _ _ _ k₂ hne h₁, base]
        · exact absurd h₁ (by simp)
    · unfold gwPortDefault at h₁
      rw [alookup_modifyAt_ne _ _ _ _ _ k₂ hne h₁, base]
  rw [e₄, e₃, e₂, e₁]

theorem stageAgents_ne (env : Env) (cfg : Obj) (k₂ : String) (h : k₂ ≠ "agents") :
    alookup (stageAgents env cfg) k₂ = alookup cfg k₂ := by
  have hne : "agents" ≠ k₂ := fun hEq => h hEq.symm
  unfold stageAgents ensureK
  rw [alookup_ensureMod_ne _ _ _ _ _ hne, alookup_ensureMod_ne _ _ _ _ _ hne]

theorem stageCustomProvs_ne (env : Env) (hC : Bool) (cfg : Obj) (k₂ : String)
    (h : k₂ ≠ "models") :
    alookup (stageCustomProvs env hC cfg) k₂ = alookup cfg k₂ := by
  have hne : "models" ≠ k₂ := fun hEq => h hEq.symm
  unfold stageCustomProvs
  refine alookup_foldl_preserve _ _ _ _ (fun c p _ => ?_)
  split
  · split
    · exact alookup_ensureMod_ne _ _ _ _ _ hne
    · exact alookup_removeProvider_ne _ _ _ _ h
  · exact alookup_removeProvider_ne _ _ _ _ h

theorem stageBedrock_ne (env : Env) (hC : Bool) (cfg : Obj) (k₂ : String)
    (h : k₂ ≠ "models") :
    alookup (stageBedrock env hC cfg) k₂ = alookup cfg k₂ := by
  have hne : "models" ≠ k₂ := fun hEq => h hEq.symm
  unfold stageBedrock
  split
  · rw [alookup_ensureMod_ne _ _ _ _ _ hne, alookup_ensureMod_ne _ _ _ _ _ hne]
  · split
    · rfl
    · have base := alookup_removeProvider_ne false cfg "amazon-bedrock" k₂ h
      dsimp only
      split
      · rw [alookup_ainsert_ne _ _ _ _ hne, base]
      · exact base

theorem stageOllama_ne (env : Env) (hC : Bool) (cfg : Obj) (k₂ : String)
    (h : k₂ ≠ "models") :
    alookup (stageOllama env hC cfg) k₂ = alookup cfg k₂ := by
  have hne : "models" ≠ k₂ := fun hEq => h hEq.symm
  unfold stageOllama
  dsimp only
  split
  · exact alookup_ensureMod_ne _ _ _ _ _ hne
  · exact alookup_removeProvider_ne _ _ _ _ h

theorem stageBuiltins_ne (hC : Bool) (cfg : Obj) (k₂ : String) (h : k₂ ≠ "models") :
    alookup (stageBuiltins hC cfg) k₂ = alookup cfg k₂ := by
  unfold stageBuiltins
  split
  · rfl
  · rw [alookup_removeProvider_ne _ _ _ _ h]
    exact alookup_foldl_preserve _ _ _ _ (fun c t _ => alookup_removeProvider_ne _ _ _ _ h)

theorem stagePrimary_ne (env : Env) (cfg cfg' : Obj) (k₂ : String) (h : k₂ ≠ "agents")
    (hok : stagePrimary env cfg = .ok cfg') : alookup cfg' k₂ = alookup cfg k₂ := by
  have hne : "agents" ≠ k₂ := fun hEq => h hEq.symm
  unfold stagePrimary at hok
  split at hok
  · exact alookup_modifyAt_ne _ _ _ _ _ k₂ hne hok
  · rw [ebind_ok] at hok
    obtain ⟨m, _, hok⟩ := hok
    split at hok
    · cases hok; rfl
    · split at hok
      · exact alookup_modifyAt_ne _ _ _ _ _ k₂ hne hok
      · cases hok; rfl

theorem stageDeepgram_ne (env : Env) (cfg : Obj) (k₂ : String) (h : k₂ ≠ "tools") :
    alookup (stageDeepgram env cfg) k₂ = alookup cfg k₂ := by
  have hne : "tools" ≠ k₂ := fun hEq => h hEq.symm
  unfold stageDeepgram
  split
  · exact alookup_ensureMod_ne _ _ _ _ _ hne
  · rfl

theorem processChannel_ne (env : Env) (cfg cfg' : Obj) (ch : Channel) (k₂ : String)
    (h : k₂ ≠ "channels") (hok : processChannel env cfg ch = .ok cfg') :
    alookup cfg' k₂ = alookup cfg k₂ := by
  have hne : "channels" ≠ k₂ := fun hEq => h hEq.symm
  unfold processChannel at hok
  split at hok
  · rw [ebind_ok] at hok
    obtain ⟨chans, _, hok⟩ := hok
    rw [ebind_ok] at hok
    obtain ⟨entry₀, _, hok⟩ := hok
    rw [ebind_ok] at hok
    obtain ⟨entry₁, _, hok⟩ := hok
    have := alookup_modifyAt_ne _ _ _ _ _ k₂ hne hok
    rw [this]
    exact alookup_ensureK_ne _ _ _ _ hne
  · cases hok; rfl

theorem stageChannels_ne (env : Env) (cfg cfg' : Obj) (k₂ : String) (h : k₂ ≠ "channels")
    (hok : stageChannels env cfg = .ok cfg') : alookup cfg' k₂ = alookup cfg k₂ := by
  unfold stageChannels at hok
  rw [ebind_ok] at hok
  obtain ⟨c₁, h₁, h₂⟩ := hok
  have e₁ : alookup c₁ k₂ = alookup cfg k₂ :=
    alookup_foldlM_preserve _ _ _ _ _ (fun c c' ch _ => processChannel_ne env c c' ch k₂ h) h₁
  cases h₂
  split
  · rw [alookup_aremove_ne _ _ _ (fun hEq => h hEq.symm), e₁]
  · exact e₁

theorem stageBrowser_ne (env : Env) (cfg cfg' : Obj) (k₂ : String) (h : k₂ ≠ "browser")
    (hok : stageBrowser env cfg = .ok cfg') : alookup cfg' k₂ = alookup cfg k₂ := by
  have hne : "browser" ≠ k₂ := fun hEq => h hEq.symm
  unfold stageBrowser at hok
  split at hok
  · rw [ebind_ok] at hok
    obtain ⟨br₀, _, hok⟩ := hok
    rw [ebind_ok] at hok
    obtain ⟨br₁, _, hok⟩ := hok
    rw [alookup_modifyAt_ne _ _ _ _ _ k₂ hne hok]
    exact alookup_ensureK_ne _ _ _ _ hne
  · cases hok; rfl

theorem stageHooks_ne (env : Env) (cfg cfg' : Obj) (k₂ : String) (h : k₂ ≠ "hooks")
    (hok : stageHooks env cfg = .ok cfg') : alookup cfg' k₂ = alookup cfg k₂ := by
  have hne : "hooks" ≠ k₂ := fun hEq => h hEq.symm
  unfold stageHooks at hok
  dsimp only at hok
  split at hok
  · rw [ebind_ok] at hok
    obtain ⟨hk₀, _, hok⟩ := hok
    rw [ebind_ok] at hok
    obtain ⟨hk₁, _, hok⟩ := hok
    rw [alookup_modifyAt_ne _ _ _ _ _ k₂ hne hok]
    exact alookup_ensureK_ne _ _ _ _ hne
  · cases hok; rfl

/-- Without convention variables the override stage is the identity. -/
theorem applyConv_noConv (env : Env) (cfg : Obj) (h : noConv env) :
    applyConv env cfg = .ok cfg := by
  have hfilter : env.filter (fun kv => strStarts kv.1 convPfx) = [] := by
    rw [List.filter_eq_nil_iff]
    intro kv hkv
    simp [h kv hkv]
  unfold applyConv convItems
  rw [hfilter]
  rfl

/-- The mid-pipeline pure segment (steps 3-7 after gateway, before the
primary-model step), written once so decompositions stay readable. -/
def midStages (env : Env) (hasCustom : Bool) (cfg : Obj) : Obj :=
  stageBuiltins hasCustom
    (stageOllama env hasCustom
      (stageBedrock env hasCustom
        (stageCustomProvs env hasCustom (stageAgents env cfg))))

/-- A successful run decomposed into its stage results. -/
theorem pipeline_ok_shape (env : Env) (custom persisted : Option Obj) (doc : Obj)
    (hok : pipeline env custom persisted = .ok doc) :
    ∃ c₁ c₂ c₃ c₄ c₅ c₆,
      stageGateway env (loadConfig custom persisted) = .ok c₁
      ∧ stagePrimary env (midStages env custom.isSome c₁) = .ok c₂
      ∧ stageChannels env (stageDeepgram env c₂) = .ok c₃
      ∧ stageBrowser env c₃ = .ok c₄
      ∧ stageHooks env c₄ = .ok c₅
      ∧ applyConv env c₅ = .ok c₆
      ∧ hasProviderB env = true ∧ doc = c₆ := by
  unfold pipeline at hok
  rw [ebind_ok] at hok
  obtain ⟨c₁, h₁, hok⟩ := hok
  rw [ebind_ok] at hok
  obtain ⟨c₂, h₂, hok⟩ := hok
  rw [ebind_ok] at hok
  obtain ⟨c₃, h₃, hok⟩ := hok
  rw [ebind_ok] at hok
  obtain ⟨c₄, h₄, hok⟩ := hok
  rw [ebind_ok] at hok
  obtain ⟨c₅, h₅, hok⟩ := hok
  rw [ebind_ok] at hok
  obtain ⟨c₆, h₆, hok⟩ := hok
  split at hok
  · cases hok
    exact ⟨c₁, c₂, c₃, c₄, c₅, doc, h₁, h₂, h₃, h₄, h₅, h₆, by assumption, rfl⟩
  · exact absurd hok (by simp)

-- ── Top-level key uniqueness is preserved by every stage ────────────────────

theorem alookup_eq_none_iff {α : Type} (m : List (String × α)) (k : String) :
    alookup m k = none ↔ k ∉ m.map Prod.fst := by
  induction m with
  | nil => simp [alookup]
  | cons hd tl ih =>
      obtain ⟨k', v'⟩ := hd
      by_cases h : k' = k
      · subst h
        simp [alookup]
      · rw [alookup_cons, if_neg h]
        simp only [List.map_cons, List.mem_cons, not_or]
        rw [ih]
        constructor
        · intro hnm
          exact ⟨fun hEq => h hEq.symm, hnm⟩
        · intro hp
          exact hp.2

theorem keys_ainsert {α : Type} (m : List (String × α)) (k : String) (v : α) :
    (ainsert m k v).map Prod.fst =
      if (alookup m k).isSome then m.map Prod.fst else m.map Prod.fst ++ [k] := by
  induction m with
  | nil => simp [ainsert, alookup]
  | cons hd tl ih =>
      obtain ⟨k', v'⟩ := hd
      by_cases h : k' = k
      · subst h
        simp [ainsert, alookup]
      · simp only [ainsert, if_neg h, alookup, List.map_cons, ih]
        split <;> simp

theorem topNodup_ainsert (m : Obj) (k : String) (v : JValue) (h : topNodup m) :
    topNodup (ainsert m k v) := by
  unfold topNodup at *
  rw [keys_ainsert]
  split
  · exact h
  · rename_i hnone
    simp only [List.nodup_append, List.nodup_cons, List.nodup_nil]
    refine ⟨h, by simp, ?_⟩
    intro a ha hb
    simp at hb
    subst hb
    have hk : alookup m a = none := by
      cases hx : alookup m a with
      | none => rfl
      | some w =>
          rw [hx] at hnone
          simp at hnone
    exact (alookup_eq_none_iff m a).mp hk ha

theorem aremove_sublist {α : Type} (m : List (String × α)) (k : String) :
    (aremove m k).Sublist m := by
  induction m with
  | nil => simp [aremove]
  | cons hd tl ih =>
      obtain ⟨k', v'⟩ := hd
      by_cases h : k' = k
      · simp [aremove, h]
      · simpa [aremove, h] using ih

theorem topNodup_aremove (m : Obj) (k : String) (h : topNodup m) :
    topNodup (aremove m k) :=
  List.Nodup.sublist (List.Sublist.map Prod.fst (aremove_sublist m k)) h

theorem alookup_aremove_self_of_nodup {α : Type} (m : List (String × α)) (k : String)
    (h : (m.map Prod.fst).Nodup) : alookup (aremove m k) k = none := by
  induction m with
  | nil => simp [aremove]
  | cons hd tl ih =>
      obtain ⟨k', v'⟩ := hd
      simp only [List.map_cons, List.nodup_cons] at h
      by_cases hk : k' = k
      · subst hk
        rw [alookup_eq_none_iff]
        simpa [aremove] using h.1
      · simp [aremove, hk, alookup, ih h.2]

theorem topNodup_ensureMod (cfg : Obj) (k : String) (ks : List String) (f : Obj → Obj)
    (h : topNodup cfg) : topNodup (ensureMod cfg (k :: ks) f) :=
  topNodup_ainsert cfg k _ h

theorem topNodup_modifyAt (cfg cfg' : Obj) (k : String) (ks : List String) (f : Obj → Obj)
    (hok : modifyAt cfg (k :: ks) f = .ok cfg') (h : topNodup cfg) : topNodup cfg' := by
  obtain ⟨m, m', _, _, rfl⟩ := modifyAt_ok_shape cfg cfg' k ks f hok
  exact topNodup_ainsert cfg k _ h

theorem topNodup_removeProvider (hC : Bool) (cfg : Obj) (name : String)
    (h : topNodup cfg) : topNodup (removeProvider hC cfg name) := by
  unfold removeProvider
  repeat' split
  all_goals first
    | exact h
    | exact topNodup_ainsert cfg "models" _ h

theorem topNodup_stageGateway (env : Env) (cfg cfg' : Obj)
    (hok : stageGateway env cfg = .ok cfg') (h : topNodup cfg) : topNodup cfg' := by
  unfold stageGateway at hok
  rw [ebind_ok] at hok
  obtain ⟨c₁, h₁, hok⟩ := hok
  rw [ebind_ok] at hok
  obtain ⟨c₂, h₂, hok⟩ := hok
  rw [ebind_ok] at hok
  obtain ⟨c₃, h₃, hok⟩ := hok
  have n₀ : topNodup (ensureK cfg ["gateway"]) := topNodup_ensureMod _ _ _ _ h
  have n₁ : topNodup c₁ := by
    unfold gwPortStep at h₁
    split at h₁
    · split at h₁
      · unfold gwPortDefault at h₁
        exact topNodup_modifyAt _ _ _ _ _ h₁ n₀
      · split at h₁
        · exact topNodup_modifyAt _ _ _ _ _ h₁ n₀
        · exact absurd h₁ (by simp)
    · unfold gwPortDefault at h₁
      exact topNodup_modifyAt _ _ _ _ _ h₁ n₀
  have n₂ : topNodup c₂ := topNodup_modifyAt _ _ _ _ _ h₂ n₁
  have n₃ : topNodup c₃ := by
    unfold gwTokenStep at h₃
    dsimp only at h₃
    split at h₃
    · cases h₃; exact n₂
    · exact topNodup_modifyAt _ _ _ _ _ h₃ (topNodup_ensureMod _ _ _ _ n₂)
  unfold gwCuiStep at hok
  exact topNodup_modifyAt _ _ _ _ _ hok (topNodup_ensureMod _ _ _ _ n₃)

theorem topNodup_stageAgents (env : Env) (cfg : Obj) (h : topNodup cfg) :
    topNodup (stageAgents env cfg) :=
  topNodup_ensureMod _ _ _ _ (topNodup_ensureMod _ _ _ _ h)

theorem topNodup_midStages (env : Env) (hC : Bool) (cfg : Obj) (h : topNodup cfg) :
    topNodup (midStages env hC cfg) := by
  unfold midStages
  have n₁ := topNodup_stageAgents env cfg h
  have n₂ : topNodup (stageCustomProvs env hC (stageAgents env cfg)) := by
    unfold stageCustomProvs
    generalize stageAgents env cfg = c at n₁ ⊢
    generalize CUSTOM_PROVIDERS = l
    induction l generalizing c with
    | nil => exact n₁
    | cons p rest ih =>
        rw [List.foldl_cons]
        apply ih
        repeat' split
        all_goals first
          | exact n₁
          | exact topNodup_ensureMod _ _ _ _ n₁
          | exact topNodup_removeProvider _ _ _ n₁
  have n₃ : topNodup (stageBedrock env hC (stageCustomProvs env hC (stageAgents env cfg))) := by
    unfold stageBedrock
    generalize stageCustomProvs env hC (stageAgents env cfg) = c at n₂ ⊢
    split
    · exact topNodup_ensureMod _ _ _ _ (topNodup_ensureMod _ _ _ _ n₂)
    · split
      · exact n₂
      · have := topNodup_removeProvider false c "amazon-bedrock" n₂
        dsimp only
        split
        · exact topNodup_ainsert _ _ _ this
        · exact this
  have n₄ : topNodup (stageOllama env hC (stageBedrock env hC
      (stageCustomProvs env hC (stageAgents env cfg)))) := by
    unfold stageOllama
    generalize stageBedrock env hC (stageCustomProvs env hC (stageAgents env cfg)) = c at n₃ ⊢
    dsimp only
    split
    · exact topNodup_ensureMod _ _ _ _ n₃
    · exact topNodup_removeProvider _ _ _ n₃
  unfold stageBuiltins
  generalize stageOllama env hC (stageBedrock env hC
      (stageCustomProvs env hC (stageAgents env cfg))) = c at n₄ ⊢
  split
  · exact n₄
  · apply topNodup_removeProvider
    generalize BUILTIN_PROVIDERS = l
    induction l generalizing c with
    | nil => exact n₄
    | cons t rest ih =>
        rw [List.foldl_cons]
        exact ih _ (topNodup_removeProvider _ _ _ n₄)

theorem topNodup_stagePrimary (env : Env) (cfg cfg' : Obj)
    (hok : stagePrimary env cfg = .ok cfg') (h : topNodup cfg) : topNodup cfg' := by
  unfold stagePrimary at hok
  split at hok
  · exact topNodup_modifyAt _ _ _ _ _ hok h
  · rw [ebind_ok] at hok
    obtain ⟨m, _, hok⟩ := hok
    split at hok
    · cases hok; exact h
    · split at hok
      · exact topNodup_modifyAt _ _ _ _ _ hok h
      · cases hok; exact h

theorem topNodup_stageDeepgram (env : Env) (cfg : Obj) (h : topNodup cfg) :
    topNodup (stageDeepgram env cfg) := by
  unfold stageDeepgram
  split
  · exact topNodup_ensureMod _ _ _ _ h
  · exact h

theorem topNodup_processChannel (env : Env) (cfg cfg' : Obj) (ch : Channel)
    (hok : processChannel env cfg ch = .ok cfg') (h : topNodup cfg) : topNodup cfg' := by
  unfold processChannel at hok
  split at hok
  · rw [ebind_ok] at hok
    obtain ⟨chans, _, hok⟩ := hok
    rw [ebind_ok] at hok
    obtain ⟨e₀, _, hok⟩ := hok
    rw [ebind_ok] at hok
    obtain ⟨e₁, _, hok⟩ := hok
    exact topNodup_modifyAt _ _ _ _ _ hok (topNodup_ensureMod _ _ _ _ h)
  · cases hok; exact h

theorem topNodup_chanFold (env : Env) (l : List Channel) (cfg cfg' : Obj)
    (hok : l.foldlM (processChannel env) cfg = .ok cfg') (h : topNodup cfg) :
    topNodup cfg' := by
  induction l generalizing cfg with
  | nil =>
      simp only [List.foldlM_nil] at hok
      cases hok
      exact h
  | cons ch rest ih =>
      rw [List.foldlM_cons, ebind_ok] at hok
      obtain ⟨c₁, hc, hrest⟩ := hok
      exact ih c₁ hrest (topNodup_processChannel env cfg c₁ ch hc h)

-- ── Channel stage characterization (C1) ─────────────────────────────────────

theorem chanLook_of_eq (a b : Obj) (h : alookup a "channels" = alookup b "channels")
    (k : String) : chanLook a k = chanLook b k := by
  unfold chanLook
  rw [h]

theorem chanLook_ensureK (cfg : Obj) (k : String) :
    chanLook (ensureK cfg ["channels"]) k = chanLook cfg k := by
  simp only [chanLook, ensureK, ensureMod, alookup_ainsert_self]
  cases h : alookup cfg "channels" with
  | none => simp [asObjD]
  | some v => cases v <;> simp [asObjD]

theorem chanLook_modifyAt_write (cfg cfg' : Obj) (f : Obj → Obj)
    (hok : modifyAt cfg ["channels"] f = .ok cfg') (k : String) :
    ∃ m, alookup cfg "channels" = some (.obj m) ∧ chanLook cfg' k = alookup (f m) k := by
  obtain ⟨m, m', hm, hmod, rfl⟩ := modifyAt_ok_shape cfg cfg' "channels" [] f hok
  refine ⟨m, hm, ?_⟩
  have hm' : m' = f m := by
    rw [modifyAt] at hmod
    cases hmod
    rfl
  subst hm'
  simp [chanLook, alookup_ainsert_self]

theorem processChannel_closed (env : Env) (cfg : Obj) (ch : Channel)
    (h : chGateOpen env ch = false) : processChannel env cfg ch = .ok cfg := by
  simp [processChannel, h]

theorem processChannel_chanLook_ne (env : Env) (cfg cfg' : Obj) (ch : Channel) (k : String)
    (hk : ch.key ≠ k) (hok : processChannel env cfg ch = .ok cfg') :
    chanLook cfg' k = chanLook cfg k := by
  unfold processChannel at hok
  split at hok
  · rw [ebind_ok] at hok
    obtain ⟨chans, _, hok⟩ := hok
    rw [ebind_ok] at hok
    obtain ⟨e₀, _, hok⟩ := hok
    rw [ebind_ok] at hok
    obtain ⟨e₁, _, hok⟩ := hok
    obtain ⟨m, hm, hcl⟩ := chanLook_modifyAt_write _ _ _ hok k
    rw [hcl, alookup_ainsert_ne _ _ _ _ hk]
    have : chanLook (ensureK cfg ["channels"]) k = alookup m k := by
      unfold chanLook
      rw [hm]
    rw [← this, chanLook_ensureK]
  · cases hok
    rfl

theorem processChannel_open_isSome (env : Env) (cfg cfg' : Obj) (ch : Channel)
    (hopen : chGateOpen env ch = true) (hok : processChannel env cfg ch = .ok cfg') :
    (chanLook cfg' ch.key).isSome = true := by
  unfold processChannel at hok
  rw [hopen] at hok
  simp only [if_true] at hok
  rw [ebind_ok] at hok
  obtain ⟨chans, _, hok⟩ := hok
  rw [ebind_ok] at hok
  obtain ⟨e₀, _, hok⟩ := hok
  rw [ebind_ok] at hok
  obtain ⟨e₁, _, hok⟩ := hok
  obtain ⟨m, hm, hcl⟩ := chanLook_modifyAt_write _ _ _ hok ch.key
  rw [hcl, alookup_ainsert_self]
  rfl

theorem chanFold_preserve (env : Env) (l : List Channel) (cfg cfg' : Obj) (k : String)
    (h : ∀ ch' ∈ l, ch'.key ≠ k)
    (hok : l.foldlM (processChannel env) cfg = .ok cfg') :
    chanLook cfg' k = chanLook cfg k := by
  induction l generalizing cfg with
  | nil =>
      simp only [List.foldlM_nil] at hok
      cases hok
      rfl
  | cons ch rest ih =>
      rw [List.foldlM_cons, ebind_ok] at hok
      obtain ⟨c₁, hc, hrest⟩ := hok
      rw [ih c₁ (fun ch' hm => h ch' (List.mem_cons_of_mem ch hm)) hrest,
        processChannel_chanLook_ne env cfg c₁ ch k (h ch (List.mem_cons_self ch rest)) hc]

theorem chanFold_spec (env : Env) : ∀ (l : List Channel) (cfg cfg' : Obj) (ch : Channel),
    ch ∈ l → l.Pairwise (fun a b => a.key ≠ b.key) →
    l.foldlM (processChannel env) cfg = .ok cfg' →
    (chGateOpen env ch = true → (chanLook cfg' ch.key).isSome = true)
    ∧ (chGateOpen env ch = false → chanLook cfg' ch.key = chanLook cfg ch.key)
  | [], _, _, ch, hmem, _, _ => absurd hmem (List.not_mem_nil ch)
  | ch₀ :: rest, cfg, cfg', ch, hmem, hpair, hok => by
      rw [List.foldlM_cons, ebind_ok] at hok
      obtain ⟨c₁, hc, hrest⟩ := hok
      rw [List.pairwise_cons] at hpair
      obtain ⟨hhead, htail⟩ := hpair
      rcases List.mem_cons.mp hmem with hEq | hmemTail
      · subst hEq
        have hpres : chanLook cfg' ch.key = chanLook c₁ ch.key :=
          chanFold_preserve env rest c₁ cfg' ch.key
            (fun ch' hm => fun hKeyEq => hhead ch' hm hKeyEq.symm) hrest
        constructor
        · intro hopen
          rw [hpres]
          exact processChannel_open_isSome env cfg c₁ ch hopen hc
        · intro hclosed
          rw [processChannel_closed env cfg ch hclosed] at hc
          cases hc
          exact hpres
      · have hk : ch₀.key ≠ ch.key := hhead ch hmemTail
        have hstep : chanLook c₁ ch.key = chanLook cfg ch.key :=
          processChannel_chanLook_ne env cfg c₁ ch₀ ch.key hk hc
        obtain ⟨ho, hcl⟩ := chanFold_spec env rest c₁ cfg' ch hmemTail htail hrest
        exact ⟨ho, fun hclosed => (hcl hclosed).trans hstep⟩

/-- The trailing cleanup (delete an empty `channels` dict) does not change
any channel lookup, given unique top-level keys. -/
theorem chanLook_cleanup (cfg : Obj) (k : String) (hnd : topNodup cfg) :
    chanLook (match alookup cfg "channels" with
              | some (.obj []) => aremove cfg "channels"
              | _ => cfg) k = chanLook cfg k := by
  cases h : alookup cfg "channels" with
  | none => rfl
  | some v =>
      cases v with
      | obj chans =>
          cases chans with
          | nil =>
              unfold chanLook
              rw [alookup_aremove_self_of_nodup cfg "channels" hnd, h]
              rfl
          | cons hd tl => rfl
      | null => rfl
      | bool b => rfl
      | int n => rfl
      | float l => rfl
      | str s => rfl
      | arr xs => rfl

theorem stageChannels_spec (env : Env) (cfg cfg' : Obj) (ch : Channel)
    (hmem : ch ∈ CHANNELS) (hnd : topNodup cfg)
    (hok : stageChannels env cfg = .ok cfg') :
    (chGateOpen env ch = true → (chanLook cfg' ch.key).isSome = true)
    ∧ (chGateOpen env ch = false → chanLook cfg' ch.key = chanLook cfg ch.key) := by
  unfold stageChannels at hok
  rw [ebind_ok] at hok
  obtain ⟨cF, hfold, hclean⟩ := hok
  have hpair : CHANNELS.Pairwise (fun a b => a.key ≠ b.key) := by
    unfold CHANNELS telegramChannel discordChannel slackChannel whatsappChannel
    simp
  obtain ⟨ho, hcl⟩ := chanFold_spec env CHANNELS cfg cF ch hmem hpair hfold
  have hndF : topNodup cF := topNodup_chanFold env CHANNELS cfg cF hfold hnd
  cases hclean
  rw [chanLook_cleanup cF ch.key hndF]
  exact ⟨ho, hcl⟩

-- ── topNodup of the loaded document ─────────────────────────────────────────

theorem mergeKey_eq_ainsert (t : Obj) (k : String) (v : JValue) :
    ∃ w, mergeKey t k v = ainsert t k w := by
  cases v with
  | obj s =>
      cases h : alookup t k with
      | none => exact ⟨.obj s, by simp [mergeKey, h]⟩
      | some tv =>
          cases tv with
          | obj ts => exact ⟨.obj (deepMerge ts s), by simp [mergeKey, h]⟩
          | null => exact ⟨.obj s, by simp [mergeKey, h]⟩
          | bool b => exact ⟨.obj s, by simp [mergeKey, h]⟩
          | int n => exact ⟨.obj s, by simp [mergeKey, h]⟩
          | float l => exact ⟨.obj s, by simp [mergeKey, h]⟩
          | str s₂ => exact ⟨.obj s, by simp [mergeKey, h]⟩
          | arr xs => exact ⟨.obj s, by simp [mergeKey, h]⟩
  | null => exact ⟨.null, rfl⟩
  | bool b => exact ⟨.bool b, rfl⟩
  | int n => exact ⟨.int n, rfl⟩
  | float l => exact ⟨.float l, rfl⟩
  | str s => exact ⟨.str s, rfl⟩
  | arr xs => exact ⟨.arr xs, rfl⟩

theorem topNodup_deepMerge (s : Obj) : ∀ (t : Obj), topNodup t → topNodup (deepMerge t s) := by
  induction s with
  | nil => intro t h; exact h
  | cons hd rest ih =>
      intro t h
      obtain ⟨kb, vb⟩ := hd
      have step : deepMerge t ((kb, vb) :: rest) = deepMerge (mergeKey t kb vb) rest := by
        cases vb <;> rfl
      rw [step]
      obtain ⟨w, hw⟩ := mergeKey_eq_ainsert t kb vb
      exact ih _ (hw ▸ topNodup_ainsert t kb w h)

theorem topNodup_loadConfig (custom persisted : Option Obj)
    (hc : topNodup (custom.getD [])) : topNodup (loadConfig custom persisted) := by
  unfold loadConfig
  cases custom with
  | none =>
      cases persisted with
      | none => exact List.nodup_nil
      | some p => exact topNodup_deepMerge p [] List.nodup_nil
  | some c =>
      cases persisted with
      | none => exact hc
      | some p => exact topNodup_deepMerge p c hc

theorem midStages_ne (env : Env) (hC : Bool) (cfg : Obj) (k₂ : String)
    (h₁ : k₂ ≠ "agents") (h₂ : k₂ ≠ "models") :
    alookup (midStages env hC cfg) k₂ = alookup cfg k₂ := by
  unfold midStages
  rw [stageBuiltins_ne _ _ _ h₂, stageOllama_ne _ _ _ _ h₂, stageBedrock_ne _ _ _ _ h₂,
    stageCustomProvs_ne _ _ _ _ h₂, stageAgents_ne _ _ _ h₁]

/-- C1: a channel's entry exists in the final document exactly when its gate
is open now, or it pre-existed in the loaded (bundled/persisted, deep-merged)
document with the gate closed now — and in the closed pre-existing case the
entry value is carried over unchanged. In particular the slack gate requires
both of `SLACK_BOT_TOKEN` and `SLACK_APP_TOKEN` to be non-empty. The
hypotheses scope the statement to runs without convention-override variables
(claim C4's mechanism) and to loaded documents with unique top-level keys, as
any parsed JSON object has. -/
theorem C1_channel_gating (env : Env) (custom persisted : Option Obj) (doc : Obj)
    (ch : Channel) (hmem : ch ∈ CHANNELS) (hconv : noConv env)
    (hnd : topNodup (custom.getD []))
    (hok : pipeline env custom persisted = .ok doc) :
    ((chanLook doc ch.key).isSome = true ↔
       (chGateOpen env ch = true ∨
         ((chanLook (loadConfig custom persisted) ch.key).isSome = true
           ∧ chGateOpen env ch = false)))
    ∧ (chGateOpen env ch = false →
       chanLook doc ch.key = chanLook (loadConfig custom persisted) ch.key) := by
  obtain ⟨c₁, c₂, c₃, c₄, c₅, c₆, hg, hp, hch, hbr, hhk, hcv, hprov, hdoc⟩ :=
    pipeline_ok_shape env custom persisted doc hok
  -- after the channel stage nothing changes the channels mapping
  rw [applyConv_noConv env c₅ hconv] at hcv
  cases hcv
  cases hdoc
  have e₅ : chanLook doc ch.key = chanLook c₄ ch.key :=
    chanLook_of_eq _ _ (stageHooks_ne env c₄ doc "channels" (by decide) hhk) ch.key
  have e₄ : chanLook c₄ ch.key = chanLook c₃ ch.key :=
    chanLook_of_eq _ _ (stageBrowser_ne env c₃ c₄ "channels" (by decide) hbr) ch.key
  -- before the channel stage the channels mapping is the loaded one
  have e₂ : chanLook (stageDeepgram env c₂) ch.key
      = chanLook (loadConfig custom persisted) ch.key := by
    refine (chanLook_of_eq _ _ (stageDeepgram_ne env c₂ "channels" (by decide)) ch.key).trans ?_
    refine (chanLook_of_eq _ _ (stagePrimary_ne env _ c₂ "channels" (by decide) hp) ch.key).trans ?_
    refine (chanLook_of_eq _ _
      (midStages_ne env custom.isSome c₁ "channels" (by decide) (by decide)) ch.key).trans ?_
    exact chanLook_of_eq _ _
      (stageGateway_ne env (loadConfig custom persisted) c₁ "channels" (by decide) hg) ch.key
  -- uniqueness of top-level keys at the channel stage
  have hndIn : topNodup (stageDeepgram env c₂) := by
    refine topNodup_stageDeepgram env c₂ ?_
    refine topNodup_stagePrimary env _ c₂ hp ?_
    refine topNodup_midStages env custom.isSome c₁ ?_
    exact topNodup_stageGateway env _ c₁ hg (topNodup_loadConfig custom persisted hnd)
  obtain ⟨hopen, hclosed⟩ := stageChannels_spec env (stageDeepgram env c₂) c₃ ch hmem hndIn hch
  constructor
  · constructor
    · intro hsome
      cases hgate : chGateOpen env ch with
      | true => exact Or.inl rfl
      | false =>
          refine Or.inr ⟨?_, rfl⟩
          rw [← e₂, ← hclosed hgate, ← e₄, ← e₅]
          exact hsome
    · intro hcase
      rcases hcase with hgate | ⟨hpre, hgate⟩
      · rw [e₅, e₄]
        exact hopen hgate
      · rw [e₅, e₄, hclosed hgate, e₂]
        exact hpre
  · intro hgate
    rw [e₅, e₄, hclosed hgate, e₂]

/-- The slack-gating scenario: `SLACK_BOT_TOKEN` set (plus a Groq key so the
validator passes), `SLACK_APP_TOKEN` unset, and a persisted slack entry. -/
def c1Env : Env := [("GROQ_API_KEY", "gsk"), ("SLACK_BOT_TOKEN", "xoxb-1")]

def c1Persisted : Obj := [("channels", .obj [("slack", .obj [("botToken", .str "old")])])]

def c1Doc : Obj :=
  [ ("channels", .obj [("slack", .obj [("botToken", .str "old")])]),
    ("gateway", .obj
      [ ("port", .int 18789), ("mode", .str "local"),
        ("controlUi", .obj [("allowInsecureAuth", .bool true), ("enabled", .bool true)]) ]),
    ("agents", .obj
      [ ("defaults", .obj
          [ ("workspace", .str "/data/workspace"),
            ("model", .obj [("primary", .str "groq/llama-3.3-70b-versatile")]) ]) ]) ]

/-- C1 witness: with only `SLACK_BOT_TOKEN` among the slack pair the gate is
closed, and the persisted slack entry comes through the whole run untouched;
the same run also shows the entry exists only because it pre-existed. -/
theorem C1_witness :
    pipeline c1Env none (some c1Persisted) = .ok c1Doc
    ∧ chGateOpen c1Env slackChannel = false
    ∧ chanLook c1Doc "slack"
        = chanLook (loadConfig none (some c1Persisted)) "slack"
    ∧ chanLook c1Doc "slack" = some (.obj [("botToken", .str "old")]) := by
  have hok : pipeline c1Env none (some c1Persisted) = .ok c1Doc := by rfl
  have hmem : slackChannel ∈ CHANNELS := by
    unfold CHANNELS
    exact List.mem_cons_of_mem _ (List.mem_cons_of_mem _ (List.mem_cons_self _ _))
  have h := C1_channel_gating c1Env none (some c1Persisted) c1Doc slackChannel hmem
    (by decide) (by decide) hok
  refine ⟨hok, by decide, ?_, by decide⟩
  exact h.2 (by decide)

-- ── Path normal forms shared by the provider and primary-model claims ───────

/-- Descend through a path of keys, treating a missing or non-dict node as
the empty dict — the composite the `ensure`-style writers operate on. -/
def chainObj (m : Obj) (path : List String) : Obj :=
  path.foldl (fun acc k => asObjD (alookup acc k)) m

theorem chainObj_cons (m : Obj) (k : String) (ks : List String) :
    chainObj m (k :: ks) = chainObj (asObjD (alookup m k)) ks := rfl

theorem chainObj_empty (path : List String) : chainObj [] path = [] := by
  induction path with
  | nil => rfl
  | cons k ks ih =>
      rw [chainObj_cons]
      simpa [alookup, asObjD] using ih

theorem chainObj_append (p q : List String) (m : Obj) :
    chainObj m (p ++ q) = chainObj (chainObj m p) q := by
  unfold chainObj
  rw [List.foldl_append]

/-- `getAt` through dicts agrees with the chain normal form at the last
segment. -/
theorem getAt_chain (path : List String) : ∀ (m : Obj) (last : String),
    getAt (.obj m) (path ++ [last]) = alookup (chainObj m path) last := by
  induction path with
  | nil =>
      intro m last
      show getAt (.obj m) [last] = alookup m last
      cases h : alookup m last <;> simp [getAt, h]
  | cons k ks ih =>
      intro m last
      rw [chainObj_cons]
      show (match alookup m k with
            | some v => getAt v (ks ++ [last])
            | none => none) = alookup (chainObj (asObjD (alookup m k)) ks) last
      cases h : alookup m k with
      | none =>
          simp [asObjD, chainObj_empty, alookup]
      | some v =>
          cases v with
          | obj m₂ => exact ih m₂ last
          | null =>
              simp only [asObjD, chainObj_empty, alookup_nil]
              cases ks <;> rfl
          | bool b =>
              simp only [asObjD, chainObj_empty, alookup_nil]
              cases ks <;> rfl
          | int n =>
              simp only [asObjD, chainObj_empty, alookup_nil]
              cases ks <;> rfl
          | float l =>
              simp only [asObjD, chainObj_empty, alookup_nil]
              cases ks <;> rfl
          | str s =>
              simp only [asObjD, chainObj_empty, alookup_nil]
              cases ks <;> rfl
          | arr xs =>
              simp only [asObjD, chainObj_empty, alookup_nil]
              cases ks <;> rfl

theorem chainObj_ensureMod (path : List String) : ∀ (cfg : Obj) (f : Obj → Obj),
    chainObj (ensureMod cfg path f) path = f (chainObj cfg path) := by
  induction path with
  | nil => intro cfg f; rfl
  | cons k ks ih =>
      intro cfg f
      rw [ensureMod, chainObj_cons, alookup_ainsert_self]
      show chainObj (ensureMod (asObjD (alookup cfg k)) ks f) ks = _
      rw [ih, chainObj_cons]

theorem chainObj_modifyAt (path : List String) : ∀ (cfg cfg' : Obj) (f : Obj → Obj),
    modifyAt cfg path f = .ok cfg' → chainObj cfg' path = f (chainObj cfg path) := by
  induction path with
  | nil =>
      intro cfg cfg' f h
      rw [modifyAt] at h
      cases h
      rfl
  | cons k ks ih =>
      intro cfg cfg' f h
      obtain ⟨m, m', hm, hmod, rfl⟩ := modifyAt_ok_shape cfg cfg' k ks f h
      rw [chainObj_cons, alookup_ainsert_self]
      show chainObj m' ks = _
      rw [ih m m' f hmod, chainObj_cons, hm]
      rfl

theorem getObjAt_chain (path : List String) : ∀ (cfg m : Obj),
    getObjAt cfg path = .ok m → chainObj cfg path = m := by
  induction path with
  | nil =>
      intro cfg m h
      rw [getObjAt] at h
      cases h
      rfl
  | cons k ks ih =>
      intro cfg m h
      rw [getObjAt] at h
      split at h
      · rename_i m₂ heq
        rw [chainObj_cons, heq]
        exact ih m₂ m h
      · exact absurd h (by simp)

/-- `primLook` in chain normal form. -/
theorem primLook_chain (cfg : Obj) :
    primLook cfg = alookup (chainObj cfg primaryPath) "primary" := by
  unfold primLook
  exact getAt_chain primaryPath cfg "primary"

theorem primLook_of_eq (a b : Obj) (h : alookup a "agents" = alookup b "agents") :
    primLook a = primLook b := by
  rw [primLook_chain, primLook_chain]
  unfold primaryPath
  rw [chainObj_cons a "agents" ["defaults", "model"],
    chainObj_cons b "agents" ["defaults", "model"], h]

theorem chainObj_model_write (cfg : Obj) (f : Obj → Obj)
    (hf : ∀ d, alookup (f d) "model" = alookup d "model") :
    chainObj (ensureMod cfg ["agents", "defaults"] f) ["agents", "defaults", "model"]
      = chainObj cfg ["agents", "defaults", "model"] := by
  have e₁ : (["agents", "defaults", "model"] : List String)
      = ["agents", "defaults"] ++ ["model"] := rfl
  rw [e₁, chainObj_append, chainObj_append, chainObj_ensureMod]
  rw [chainObj_cons _ "model" [], chainObj_cons _ "model" [], hf]

/-- Step 3 never touches an existing primary value (it only ensures the
dicts and possibly writes `workspace`). -/
theorem primLook_stageAgents (env : Env) (cfg : Obj) :
    primLook (stageAgents env cfg) = primLook cfg := by
  rw [primLook_chain, primLook_chain]
  unfold primaryPath stageAgents ensureK
  rw [chainObj_ensureMod]
  show alookup (chainObj (ensureMod cfg ["agents", "defaults"] _)
    ["agents", "defaults", "model"]) "primary" = _
  rw [chainObj_model_write]
  intro d
  split
  · rfl
  · exact alookup_ainsert_ne _ _ _ _ (by decide)

theorem primLook_midStages (env : Env) (hC : Bool) (cfg : Obj) :
    primLook (midStages env hC cfg) = primLook cfg := by
  unfold midStages
  rw [primLook_of_eq _ _ (stageBuiltins_ne hC _ "agents" (by decide)),
    primLook_of_eq _ _ (stageOllama_ne env hC _ "agents" (by decide)),
    primLook_of_eq _ _ (stageBedrock_ne env hC _ "agents" (by decide)),
    primLook_of_eq _ _ (stageCustomProvs_ne env hC _ "agents" (by decide)),
    primLook_stageAgents]

/-- Step 8 in full: explicit override wins; otherwise a truthy stored primary
is kept; otherwise the first truthy signal in the priority list (when any)
supplies the primary. -/
theorem stagePrimary_spec (env : Env) (cfg cfg' : Obj)
    (hok : stagePrimary env cfg = .ok cfg') :
    (envTru env "OPENCLAW_PRIMARY_MODEL" = true →
       primLook cfg' = some (.str ((envVal env "OPENCLAW_PRIMARY_MODEL").getD "")))
    ∧ (envTru env "OPENCLAW_PRIMARY_MODEL" = false →
        (truthyO (primLook cfg) = true → primLook cfg' = primLook cfg)
        ∧ (truthyO (primLook cfg) = false →
            (∀ model, primaryWalk env = some model →
              primLook cfg' = some (.str model))
            ∧ (primaryWalk env = none → primLook cfg' = primLook cfg))) := by
  unfold stagePrimary at hok
  cases hov : envTru env "OPENCLAW_PRIMARY_MODEL" with
  | true =>
      rw [hov] at hok
      simp only [if_true] at hok
      constructor
      · intro _
        rw [primLook_chain, chainObj_modifyAt primaryPath _ _ _ hok, alookup_ainsert_self]
      · intro hfalse
        exact absurd hfalse (by simp)
  | false =>
      rw [hov] at hok
      simp only [Bool.false_eq_true, if_false] at hok
      rw [ebind_ok] at hok
      obtain ⟨m, hget, hok⟩ := hok
      have hchain : chainObj cfg primaryPath = m := getObjAt_chain primaryPath cfg m hget
      have hprim : primLook cfg = alookup m "primary" := by
        rw [primLook_chain, hchain]
      constructor
      · intro htrue
        exact absurd htrue (by simp)
      · intro _
        constructor
        · intro htr
          rw [hprim] at htr
          rw [htr] at hok
          simp only [if_true] at hok
          cases hok
          rfl
        · intro hfa
          rw [hprim] at hfa
          rw [hfa] at hok
          simp only [Bool.false_eq_true, if_false] at hok
          constructor
          · intro model hw
            rw [hw] at hok
            rw [primLook_chain, chainObj_modifyAt primaryPath _ _ _ hok, alookup_ainsert_self]
          · intro hw
            rw [hw] at hok
            cases hok
            rfl

/-- C3: primary model resolution follows the strict three-level precedence —
a non-empty `OPENCLAW_PRIMARY_MODEL` override wins; else a truthy primary
already carried by the loaded document is kept; else the static priority list
is walked in order (its two composite signals pre-resolved) and the first
truthy signal supplies the model. Scoped to runs without convention-override
variables. -/
theorem C3_primary_model (env : Env) (custom persisted : Option Obj) (doc : Obj)
    (hconv : noConv env) (hok : pipeline env custom persisted = .ok doc) :
    (envTru env "OPENCLAW_PRIMARY_MODEL" = true →
       primLook doc = some (.str ((envVal env "OPENCLAW_PRIMARY_MODEL").getD "")))
    ∧ (envTru env "OPENCLAW_PRIMARY_MODEL" = false →
       truthyO (primLook (loadConfig custom persisted)) = true →
       primLook doc = primLook (loadConfig custom persisted))
    ∧ (envTru env "OPENCLAW_PRIMARY_MODEL" = false →
       truthyO (primLook (loadConfig custom persisted)) = false →
       ∀ model, primaryWalk env = some model →
       primLook doc = some (.str model)) := by
  obtain ⟨c₁, c₂, c₃, c₄, c₅, c₆, hg, hp, hch, hbr, hhk, hcv, hprov, hdoc⟩ :=
    pipeline_ok_shape env custom persisted doc hok
  rw [applyConv_noConv env c₅ hconv] at hcv
  cases hcv
  cases hdoc
  have eOut : primLook doc = primLook c₂ := by
    rw [primLook_of_eq _ _ (stageHooks_ne env c₄ doc "agents" (by decide) hhk),
      primLook_of_eq _ _ (stageBrowser_ne env c₃ c₄ "agents" (by decide) hbr),
      primLook_of_eq _ _ (stageChannels_ne env _ c₃ "agents" (by decide) hch),
      primLook_of_eq _ _ (stageDeepgram_ne env c₂ "agents" (by decide))]
  have eIn : primLook (midStages env custom.isSome c₁)
      = primLook (loadConfig custom persisted) := by
    rw [primLook_midStages,
      primLook_of_eq _ _ (stageGateway_ne env _ c₁ "agents" (by decide) hg)]
  obtain ⟨hov, hrest⟩ := stagePrimary_spec env _ c₂ hp
  refine ⟨?_, ?_, ?_⟩
  · intro htrue
    rw [eOut]
    exact hov htrue
  · intro hfalse htr
    rw [eOut, (hrest hfalse).1 (by rw [eIn]; exact htr), eIn]
  · intro hfalse hfa model hw
    rw [eOut]
    exact (((hrest hfalse).2 (by rw [eIn]; exact hfa)).1) model hw

/-- C3 witness: with only `GROQ_API_KEY` set, no override and no persisted
primary, the resolved primary is the Groq entry of the priority list. -/
theorem C3_witness :
    ∃ doc, pipeline [("GROQ_API_KEY", "gsk")] none none = .ok doc
      ∧ primLook doc = some (.str "groq/llama-3.3-70b-versatile") := by
  refine ⟨[ ("gateway", .obj
      [ ("port", .int 18789), ("mode", .str "local"),
        ("controlUi", .obj [("allowInsecureAuth", .bool true), ("enabled", .bool true)]) ]),
    ("agents", .obj
      [ ("defaults", .obj
          [ ("workspace", .str "/data/workspace"),
            ("model", .obj [("primary", .str "groq/llama-3.3-70b-versatile")]) ]) ]) ], rfl, ?_⟩
  have h := (C3_primary_model [("GROQ_API_KEY", "gsk")] none none _ (by decide) rfl).2.2
  exact h (by decide) (by decide) "groq/llama-3.3-70b-versatile" (by decide)

-- ── Provider stage characterization (C2) ────────────────────────────────────

theorem provsOf_chain (cfg : Obj) : provsOf cfg = chainObj cfg ["models", "providers"] := rfl

theorem provsOf_of_eq (a b : Obj) (h : alookup a "models" = alookup b "models") :
    provsOf a = provsOf b := by
  unfold provsOf
  rw [h]

theorem provLook_of_eq (a b : Obj) (h : alookup a "models" = alookup b "models")
    (name : String) : provLook a name = provLook b name := by
  unfold provLook
  rw [provsOf_of_eq a b h]

theorem provsOf_ensureMod (cfg : Obj) (f : Obj → Obj) :
    provsOf (ensureMod cfg ["models", "providers"] f) = f (provsOf cfg) := by
  rw [provsOf_chain, provsOf_chain, chainObj_ensureMod]

theorem provsOf_ensureModels (cfg : Obj) (f : Obj → Obj)
    (hf : ∀ ms, alookup (f ms) "providers" = alookup ms "providers") :
    provsOf (ensureMod cfg ["models"] f) = provsOf cfg := by
  rw [provsOf_chain, provsOf_chain]
  have e : (["models", "providers"] : List String) = ["models"] ++ ["providers"] := rfl
  rw [e, chainObj_append, chainObj_append, chainObj_ensureMod,
    chainObj_cons _ "providers" [], chainObj_cons _ "providers" [], hf]

theorem provsOf_removeProvider_false (cfg : Obj) (name : String) :
    provsOf (removeProvider false cfg name) =
      if (alookup (provsOf cfg) name).isSome then aremove (provsOf cfg) name
      else provsOf cfg := by
  unfold removeProvider
  simp only [Bool.false_eq_true, if_false]
  cases hm : alookup cfg "models" with
  | none => simp [provsOf, hm, asObjD, alookup]
  | some v =>
      cases v with
      | obj ms =>
          cases hp : alookup ms "providers" with
          | none => simp [provsOf, hm, hp, asObjD, alookup]
          | some pv =>
              cases pv with
              | obj ps =>
                  dsimp only
                  rw [hp]
                  have hps : provsOf cfg = ps := by
                    simp [provsOf, hm, hp, asObjD]
                  rw [hps]
                  dsimp only
                  by_cases hin : (alookup ps name).isSome = true
                  · rw [if_pos hin, if_pos hin]
                    simp [provsOf, alookup_ainsert_self, asObjD]
                  · rw [if_neg hin, if_neg hin]
                    exact hps
              | null => simp [provsOf, hm, hp, asObjD, alookup]
              | bool b => simp [provsOf, hm, hp, asObjD, alookup]
              | int n => simp [provsOf, hm, hp, asObjD, alookup]
              | float l => simp [provsOf, hm, hp, asObjD, alookup]
              | str s => simp [provsOf, hm, hp, asObjD, alookup]
              | arr xs => simp [provsOf, hm, hp, asObjD, alookup]
      | null => simp [provsOf, hm, asObjD, alookup]
      | bool b => simp [provsOf, hm, asObjD, alookup]
      | int n => simp [provsOf, hm, asObjD, alookup]
      | float l => simp [provsOf, hm, asObjD, alookup]
      | str s => simp [provsOf, hm, asObjD, alookup]
      | arr xs => simp [provsOf, hm, asObjD, alookup]

theorem removeProvider_custom (cfg : Obj) (name : String) :
    removeProvider true cfg name = cfg := by
  simp [removeProvider]

theorem provLook_removeProvider_keyne (hC : Bool) (cfg : Obj) (name b : String)
    (h : name ≠ b) : provLook (removeProvider hC cfg name) b = provLook cfg b := by
  cases hC with
  | true => rw [removeProvider_custom]
  | false =>
      unfold provLook
      rw [provsOf_removeProvider_false]
      split
      · exact alookup_aremove_ne _ _ _ h
      · rfl

theorem provLook_removeProvider_self (cfg : Obj) (name : String)
    (hnd : topNodup (provsOf cfg)) :
    provLook (removeProvider false cfg name) name = none := by
  unfold provLook
  rw [provsOf_removeProvider_false]
  split
  · exact alookup_aremove_self_of_nodup _ _ hnd
  · rename_i hin
    cases hx : alookup (provsOf cfg) name with
    | none => rfl
    | some w =>
        rw [hx] at hin
        simp at hin

theorem provLook_none_removeProvider (cfg : Obj) (name b : String)
    (h : provLook cfg b = none) :
    provLook (removeProvider false cfg name) b = none := by
  by_cases hnb : name = b
  · subst hnb
    unfold provLook at h ⊢
    rw [provsOf_removeProvider_false, h]
    simp [h]
  · rw [provLook_removeProvider_keyne false cfg name b hnb]
    exact h

theorem provsNodup_removeProvider (hC : Bool) (cfg : Obj) (name : String)
    (hnd : topNodup (provsOf cfg)) :
    topNodup (provsOf (removeProvider hC cfg name)) := by
  cases hC with
  | true => rw [removeProvider_custom]; exact hnd
  | false =>
      rw [provsOf_removeProvider_false]
      split
      · exact topNodup_aremove _ _ hnd
      · exact hnd

theorem provLook_provFold (env : Env) (hC : Bool) (b : String) :
    ∀ (l : List CustomProv) (cfg : Obj), (∀ p ∈ l, p.key ≠ b) →
    provLook (l.foldl
      (fun cfg p =>
        match envVal env p.envK with
        | some apiKey =>
            if apiKey ≠ "" then
              ensureMod cfg ["models", "providers"]
                (fun provs => ainsert provs p.key (provEntry env p apiKey))
            else removeProvider hC cfg p.key
        | none => removeProvider hC cfg p.key) cfg) b = provLook cfg b
  | [], _, _ => rfl
  | p :: rest, cfg, hb => by
      rw [List.foldl_cons,
        provLook_provFold env hC b rest _ (fun q hq => hb q (List.mem_cons_of_mem p hq))]
      have hk : p.key ≠ b := hb p (List.mem_cons_self p rest)
      split
      · split
        · unfold provLook
          rw [provsOf_ensureMod, alookup_ainsert_ne _ _ _ _ hk]
        · exact provLook_removeProvider_keyne hC cfg p.key b hk
      · exact provLook_removeProvider_keyne hC cfg p.key b hk

theorem provsNodup_provFold (env : Env) (hC : Bool) :
    ∀ (l : List CustomProv) (cfg : Obj), topNodup (provsOf cfg) →
    topNodup (provsOf (l.foldl
      (fun cfg p =>
        match envVal env p.envK with
        | some apiKey =>
            if apiKey ≠ "" then
              ensureMod cfg ["models", "providers"]
                (fun provs => ainsert provs p.key (provEntry env p apiKey))
            else removeProvider hC cfg p.key
        | none => removeProvider hC cfg p.key) cfg))
  | [], _, hnd => hnd
  | p :: rest, cfg, hnd => by
      rw [List.foldl_cons]
      refine provsNodup_provFold env hC rest _ ?_
      split
      · split
        · rw [provsOf_ensureMod]
          exact topNodup_ainsert _ _ _ hnd
        · exact provsNodup_removeProvider hC cfg p.key hnd
      · exact provsNodup_removeProvider hC cfg p.key hnd

theorem provLook_stageCustomProvs (env : Env) (hC : Bool) (cfg : Obj) (b : String)
    (hb : ∀ p ∈ CUSTOM_PROVIDERS, p.key ≠ b) :
    provLook (stageCustomProvs env hC cfg) b = provLook cfg b := by
  unfold stageCustomProvs
  exact provLook_provFold env hC b CUSTOM_PROVIDERS cfg hb

theorem provsNodup_stageCustomProvs (env : Env) (hC : Bool) (cfg : Obj)
    (hnd : topNodup (provsOf cfg)) :
    topNodup (provsOf (stageCustomProvs env hC cfg)) := by
  unfold stageCustomProvs
  exact provsNodup_provFold env hC CUSTOM_PROVIDERS cfg hnd

theorem provLook_stageBedrock_ne (env : Env) (hC : Bool) (cfg : Obj) (b : String)
    (hbed : b ≠ "amazon-bedrock") :
    provLook (stageBedrock env hC cfg) b = provLook cfg b := by
  have hk : "amazon-bedrock" ≠ b := fun hEq => hbed hEq.symm
  unfold stageBedrock
  split
  · unfold provLook
    rw [provsOf_ensureModels _ _ (fun ms => alookup_ainsert_ne _ _ _ _ (by decide)),
      provsOf_ensureMod, alookup_ainsert_ne _ _ _ _ hk]
  · split
    · rfl
    · dsimp only
      have base := provLook_removeProvider_keyne false cfg "amazon-bedrock" b hk
      split
      · rename_i ms hms
        have e₁ : provLook (ainsert (removeProvider false cfg "amazon-bedrock") "models"
            (.obj (aremove ms "bedrockDiscovery"))) b
            = alookup (asObjD (alookup (aremove ms "bedrockDiscovery") "providers")) b := by
          unfold provLook provsOf
          rw [alookup_ainsert_self]
          rfl
        have e₂ : provLook (removeProvider false cfg "amazon-bedrock") b
            = alookup (asObjD (alookup ms "providers")) b := by
          unfold provLook provsOf
          rw [hms]
          rfl
        rw [e₁, alookup_aremove_ne _ _ _ (by decide), ← e₂, base]
      · exact base

theorem provsNodup_stageBedrock (env : Env) (hC : Bool) (cfg : Obj)
    (hnd : topNodup (provsOf cfg)) :
    topNodup (provsOf (stageBedrock env hC cfg)) := by
  unfold stageBedrock
  split
  · rw [provsOf_ensureModels _ _ (fun ms => alookup_ainsert_ne _ _ _ _ (by decide)),
      provsOf_ensureMod]
    exact topNodup_ainsert _ _ _ hnd
  · split
    · exact hnd
    · dsimp only
      have base := provsNodup_removeProvider false cfg "amazon-bedrock" hnd
      split
      · rename_i ms hms
        have e₁ : provsOf (ainsert (removeProvider false cfg "amazon-bedrock") "models"
            (.obj (aremove ms "bedrockDiscovery")))
            = asObjD (alookup (aremove ms "bedrockDiscovery") "providers") := by
          unfold provsOf
          rw [alookup_ainsert_self]
          rfl
        have e₂ : provsOf (removeProvider false cfg "amazon-bedrock")
            = asObjD (alookup ms "providers") := by
          unfold provsOf
          rw [hms]
          rfl
        unfold topNodup
        rw [e₁, alookup_aremove_ne _ _ _ (by decide), ← e₂]
        exact base
      · exact base

theorem provLook_stageOllama_ne (env : Env) (hC : Bool) (cfg : Obj) (b : String)
    (hol : b ≠ "ollama") :
    provLook (stageOllama env hC cfg) b = provLook cfg b := by
  unfold stageOllama
  dsimp only
  split
  · unfold provLook
    rw [provsOf_ensureMod, alookup_ainsert_ne _ _ _ _ (fun hEq => hol hEq.symm)]
  · exact provLook_removeProvider_keyne hC cfg "ollama" b (fun hEq => hol hEq.symm)

theorem provsNodup_stageOllama (env : Env) (hC : Bool) (cfg : Obj)
    (hnd : topNodup (provsOf cfg)) :
    topNodup (provsOf (stageOllama env hC cfg)) := by
  unfold stageOllama
  dsimp only
  split
  · rw [provsOf_ensureMod]
    exact topNodup_ainsert _ _ _ hnd
  · exact provsNodup_removeProvider hC cfg "ollama" hnd

theorem stageBuiltins_custom (cfg : Obj) : stageBuiltins true cfg = cfg := by
  simp [stageBuiltins]

theorem provFold_remove_nodup : ∀ (l : List (String × String × String)) (cfg : Obj),
    topNodup (provsOf cfg) →
    topNodup (provsOf (l.foldl (fun cfg t => removeProvider false cfg t.2.2) cfg))
  | [], _, hnd => hnd
  | t :: rest, cfg, hnd => by
      rw [List.foldl_cons]
      exact provFold_remove_nodup rest _ (provsNodup_removeProvider false cfg t.2.2 hnd)

theorem provFold_remove_none : ∀ (l : List (String × String × String)) (cfg : Obj)
    (b : String), provLook cfg b = none →
    provLook (l.foldl (fun cfg t => removeProvider false cfg t.2.2) cfg) b = none
  | [], _, _, h => h
  | t :: rest, cfg, b, h => by
      rw [List.foldl_cons]
      exact provFold_remove_none rest _ b (provLook_none_removeProvider cfg t.2.2 b h)

theorem provFold_remove_mem : ∀ (l : List (String × String × String)) (cfg : Obj)
    (b : String), topNodup (provsOf cfg) → b ∈ l.map (fun t => t.2.2) →
    provLook (l.foldl (fun cfg t => removeProvider false cfg t.2.2) cfg) b = none
  | [], _, b, _, hmem => absurd hmem (by simp)
  | t :: rest, cfg, b, hnd, hmem => by
      rw [List.foldl_cons]
      by_cases hEq : t.2.2 = b
      · subst hEq
        exact provFold_remove_none rest _ _ (provLook_removeProvider_self cfg t.2.2 hnd)
      · rw [List.map_cons] at hmem
        rcases List.mem_cons.mp hmem with hHead | hTail
        · exact absurd hHead.symm hEq
        · exact provFold_remove_mem rest _ b
            (provsNodup_removeProvider false cfg t.2.2 hnd) hTail

theorem provLook_stageBuiltins_none (cfg : Obj) (b : String)
    (hnd : topNodup (provsOf cfg))
    (hb : b ∈ BUILTIN_PROVIDERS.map (fun t => t.2.2) ∨ b = "opencode") :
    provLook (stageBuiltins false cfg) b = none := by
  unfold stageBuiltins
  simp only [Bool.false_eq_true, if_false]
  rcases hb with hmem | rfl
  · apply provLook_none_removeProvider
    exact provFold_remove_mem BUILTIN_PROVIDERS cfg b hnd hmem
  · exact provLook_removeProvider_self _ _ (provFold_remove_nodup BUILTIN_PROVIDERS cfg hnd)

/-- C2: in the emitted document, no built-in provider identifier (the eleven
catalog ids plus `opencode`) has an entry under `models.providers` when no
bundled override document was loaded — any stale entry from the persisted
document is deleted; when a bundled override was loaded, nothing is
auto-removed and the loaded entry survives unchanged. Scoped to runs without
convention-override variables; the stale-deletion part assumes the loaded
providers dict has unique keys, as any parsed JSON object does. -/
theorem C2_builtin_entries (env : Env) (custom persisted : Option Obj) (doc : Obj)
    (b : String)
    (hb : b ∈ BUILTIN_PROVIDERS.map (fun t => t.2.2) ∨ b = "opencode")
    (hconv : noConv env)
    (hok : pipeline env custom persisted = .ok doc) :
    (custom = none → topNodup (provsOf (loadConfig custom persisted)) →
       provLook doc b = none)
    ∧ (custom.isSome = true →
       provLook doc b = provLook (loadConfig custom persisted) b) := by
  obtain ⟨c₁, c₂, c₃, c₄, c₅, c₆, hg, hp, hch, hbr, hhk, hcv, hprov, hdoc⟩ :=
    pipeline_ok_shape env custom persisted doc hok
  rw [applyConv_noConv env c₅ hconv] at hcv
  cases hcv
  cases hdoc
  have hside : (∀ p ∈ CUSTOM_PROVIDERS, p.key ≠ b) ∧ b ≠ "amazon-bedrock" ∧ b ≠ "ollama" := by
    rcases hb with hmem | rfl
    · simp only [BUILTIN_PROVIDERS, List.map_cons, List.map_nil, List.mem_cons,
        List.not_mem_nil, or_false] at hmem
      rcases hmem with rfl | rfl | rfl | rfl | rfl | rfl | rfl | rfl | rfl | rfl | rfl <;>
        exact ⟨by decide, by decide, by decide⟩
    · exact ⟨by decide, by decide, by decide⟩
  obtain ⟨hcust, hbed, hol⟩ := hside
  have eOut : provLook doc b = provLook (midStages env custom.isSome c₁) b := by
    rw [provLook_of_eq _ _ (stageHooks_ne env c₄ doc "models" (by decide) hhk) b,
      provLook_of_eq _ _ (stageBrowser_ne env c₃ c₄ "models" (by decide) hbr) b,
      provLook_of_eq _ _ (stageChannels_ne env _ c₃ "models" (by decide) hch) b,
      provLook_of_eq _ _ (stageDeepgram_ne env c₂ "models" (by decide)) b,
      provLook_of_eq _ _ (stagePrimary_ne env _ c₂ "models" (by decide) hp) b]
  have eModels : alookup c₁ "models" = alookup (loadConfig custom persisted) "models" :=
    stageGateway_ne env _ c₁ "models" (by decide) hg
  constructor
  · intro hnone hnd
    subst hnone
    rw [eOut]
    show provLook (stageBuiltins false (stageOllama env false (stageBedrock env false
      (stageCustomProvs env false (stageAgents env c₁))))) b = none
    refine provLook_stageBuiltins_none _ b ?_ hb
    refine provsNodup_stageOllama env false _ ?_
    refine provsNodup_stageBedrock env false _ ?_
    refine provsNodup_stageCustomProvs env false _ ?_
    rw [provsOf_of_eq _ _ (stageAgents_ne env c₁ "models" (by decide)),
      provsOf_of_eq _ _ eModels]
    exact hnd
  · intro hsome
    rcases custom with _ | c
    · simp at hsome
    · rw [eOut]
      show provLook (stageBuiltins true (stageOllama env true (stageBedrock env true
        (stageCustomProvs env true (stageAgents env c₁))))) b = _
      rw [stageBuiltins_custom,
        provLook_stageOllama_ne env true _ b hol,
        provLook_stageBedrock_ne env true _ b hbed,
        provLook_stageCustomProvs env true _ b hcust,
        provLook_of_eq _ _ (stageAgents_ne env c₁ "models" (by decide)) b,
        provLook_of_eq _ _ eModels b]

def c2Stale : Obj :=
  [("models", .obj [("providers", .obj [("anthropic", .obj [("apiKey", .str "stale")])])])]

def c2DocA : Obj :=
  [ ("models", .obj [("providers", .obj [])]),
    ("gateway", .obj
      [ ("port", .int 18789), ("mode", .str "local"),
        ("controlUi", .obj [("allowInsecureAuth", .bool true), ("enabled", .bool true)]) ]),
    ("agents", .obj
      [ ("defaults", .obj
          [ ("workspace", .str "/data/workspace"),
            ("model", .obj [("primary", .str "groq/llama-3.3-70b-versatile")]) ]) ]) ]

/-- C2 witness: a stale persisted `models.providers.anthropic` entry is
deleted when no bundled override is loaded, and survives untouched when the
same document arrives as the bundled override. -/
theorem C2_witness :
    (pipeline [("GROQ_API_KEY", "gsk")] none (some c2Stale) = .ok c2DocA
      ∧ provLook c2DocA "anthropic" = none)
    ∧ (∃ docB, pipeline [("GROQ_API_KEY", "gsk")] (some c2Stale) none = .ok docB
      ∧ provLook docB "anthropic" = provLook c2Stale "anthropic"
      ∧ provLook docB "anthropic" = some (.obj [("apiKey", .str "stale")])) := by
  constructor
  · refine ⟨rfl, ?_⟩
    exact (C2_builtin_entries [("GROQ_API_KEY", "gsk")] none (some c2Stale) c2DocA
      "anthropic" (by decide) (by decide) rfl).1 rfl (by decide)
  · refine ⟨[ ("models", .obj [("providers", .obj
        [("anthropic", .obj [("apiKey", .str "stale")])])]),
      ("gateway", .obj
        [ ("port", .int 18789), ("mode", .str "local"),
          ("controlUi", .obj [("allowInsecureAuth", .bool true), ("enabled", .bool true)]) ]),
      ("agents", .obj
        [ ("defaults", .obj
            [ ("workspace", .str "/data/workspace"),
              ("model", .obj [("primary", .str "groq/llama-3.3-70b-versatile")]) ]) ]) ],
      rfl, ?_, by decide⟩
    have h := (C2_builtin_entries [("GROQ_API_KEY", "gsk")] (some c2Stale) none _
      "anthropic" (by decide) (by decide) rfl).2 rfl
    exact h

-- ── Error classification: before the validator, only crashes occur ──────────

theorem ebind_err {ε α β : Type} (e : Except ε α) (f : α → Except ε β) (x : ε) :
    (e >>= f) = .error x ↔ e = .error x ∨ ∃ v, e = .ok v ∧ f v = .error x := by
  cases e <;> simp [Bind.bind, Except.bind]

theorem emap_err {ε α β : Type} (f : α → β) (e : Except ε α) (x : ε) :
    e.map f = .error x ↔ e = .error x := by
  cases e <;> simp [Except.map]

theorem modifyAt_err : ∀ (ks : List String) (cfg : Obj) (f : Obj → Obj) (e : CfgErr),
    modifyAt cfg ks f = .error e → e = .crash
  | [], cfg, f, e => by
      intro h
      exact absurd h (by simp [modifyAt])
  | k :: ks, cfg, f, e => by
      intro h
      rw [modifyAt] at h
      split at h
      · rw [show (modifyAt _ ks f).map (fun m' => ainsert cfg k (JValue.obj m'))
            = Except.map (fun m' => ainsert cfg k (JValue.obj m')) (modifyAt _ ks f)
          from rfl, emap_err] at h
        exact modifyAt_err ks _ f e h
      · cases h
        rfl

theorem getObjAt_err : ∀ (ks : List String) (cfg : Obj) (e : CfgErr),
    getObjAt cfg ks = .error e → e = .crash
  | [], cfg, e => by
      intro h
      exact absurd h (by simp [getObjAt])
  | k :: ks, cfg, e => by
      intro h
      rw [getObjAt] at h
      split at h
      · exact getObjAt_err ks _ e h
      · cases h
        rfl

theorem parseValue_err (raw : String) (ty : FType) (e : CfgErr)
    (h : parseValue raw ty = .error e) : e = .crash := by
  cases ty <;> simp [parseValue] at h
  next =>
    split at h
    · exact absurd h (by simp)
    · cases h
      rfl

theorem applyFields_err : ∀ (fields : List FMap) (env : Env) (o : Obj) (e : CfgErr),
    applyFields env fields o = .error e → e = .crash
  | [], env, o, e => by
      intro h
      exact absurd h (by simp [applyFields, pure, Except.pure])
  | f :: rest, env, o, e => by
      intro h
      rw [show applyFields env (f :: rest) o
          = ((match envVal env f.var with
              | none => Except.ok o
              | some raw => do
                  let v ← parseValue raw f.ty
                  match setNestedO (splitDots f.path) o v with
                  | some acc' => Except.ok acc'
                  | none => Except.error CfgErr.crash) >>= fun o' =>
            applyFields env rest o') from rfl, ebind_err] at h
      rcases h with hstep | ⟨o', _, hrest⟩
      · split at hstep
        · exact absurd hstep (by simp)
        · rw [ebind_err] at hstep
          rcases hstep with hpv | ⟨v, _, hset⟩
          · exact parseValue_err _ _ e hpv
          · split at hset
            · exact absurd hset (by simp)
            · cases hset
              rfl
      · exact applyFields_err rest env o' e hrest

theorem stageGateway_err (env : Env) (cfg : Obj) (e : CfgErr)
    (h : stageGateway env cfg = .error e) : e = .crash := by
  unfold stageGateway at h
  rw [ebind_err] at h
  rcases h with h₁ | ⟨c₁, _, h⟩
  · unfold gwPortStep gwPortDefault at h₁
    split at h₁
    · split at h₁
      · exact modifyAt_err _ _ _ e h₁
      · split at h₁
        · exact modifyAt_err _ _ _ e h₁
        · cases h₁
          rfl
    · exact modifyAt_err _ _ _ e h₁
  · rw [ebind_err] at h
    rcases h with h₂ | ⟨c₂, _, h⟩
    · exact modifyAt_err _ _ _ e h₂
    · rw [ebind_err] at h
      rcases h with h₃ | ⟨c₃, _, h₄⟩
      · unfold gwTokenStep at h₃
        dsimp only at h₃
        split at h₃
        · exact absurd h₃ (by simp)
        · exact modifyAt_err _ _ _ e h₃
      · unfold gwCuiStep at h₄
        exact modifyAt_err _ _ _ e h₄

theorem stagePrimary_err (env : Env) (cfg : Obj) (e : CfgErr)
    (h : stagePrimary env cfg = .error e) : e = .crash := by
  unfold stagePrimary at h
  split at h
  · exact modifyAt_err _ _ _ e h
  · rw [ebind_err] at h
    rcases h with hget | ⟨m, _, h⟩
    · exact getObjAt_err _ _ e hget
    · split at h
      · exact absurd h (by simp)
      · split at h
        · exact modifyAt_err _ _ _ e h
        · exact absurd h (by simp)

theorem processChannel_err (env : Env) (cfg : Obj) (ch : Channel) (e : CfgErr)
    (h : processChannel env cfg ch = .error e) : e = .crash := by
  unfold processChannel at h
  split at h
  · rw [ebind_err] at h
    rcases h with hget | ⟨chans, _, h⟩
    · exact getObjAt_err _ _ e hget
    · rw [ebind_err] at h
      rcases h with hent | ⟨e₀, _, h⟩
      · split at hent
        · split at hent
          · exact absurd hent (by simp)
          · cases hent
            rfl
          · exact absurd hent (by simp)
        · exact absurd hent (by simp)
      · rw [ebind_err] at h
        rcases h with happ | ⟨e₁, _, hmod⟩
        · exact applyFields_err _ _ _ e happ
        · exact modifyAt_err _ _ _ e hmod
  · exact absurd h (by simp)

theorem stageChannels_err (env : Env) (cfg : Obj) (e : CfgErr)
    (h : stageChannels env cfg = .error e) : e = .crash := by
  unfold stageChannels at h
  rw [ebind_err] at h
  rcases h with hfold | ⟨cF, _, hclean⟩
  · have : ∀ (l : List Channel) (c : Obj),
        l.foldlM (processChannel env) c = .error e → e = .crash := by
      intro l
      induction l with
      | nil => intro c hx; exact absurd hx (by simp [pure, Except.pure])
      | cons ch rest ih =>
          intro c hx
          rw [List.foldlM_cons, ebind_err] at hx
          rcases hx with hc | ⟨c₁, _, hrest⟩
          · exact processChannel_err env c ch e hc
          · exact ih c₁ hrest
    exact this CHANNELS cfg hfold
  · exact absurd hclean (by simp)

theorem stageBrowser_err (env : Env) (cfg : Obj) (e : CfgErr)
    (h : stageBrowser env cfg = .error e) : e = .crash := by
  unfold stageBrowser at h
  split at h
  · rw [ebind_err] at h
    rcases h with hget | ⟨br₀, _, h⟩
    · exact getObjAt_err _ _ e hget
    · rw [ebind_err] at h
      rcases h with happ | ⟨br₁, _, hmod⟩
      · exact applyFields_err _ _ _ e happ
      · exact modifyAt_err _ _ _ e hmod
  · exact absurd h (by simp)

theorem stageHooks_err (env : Env) (cfg : Obj) (e : CfgErr)
    (h : stageHooks env cfg = .error e) : e = .crash := by
  unfold stageHooks at h
  dsimp only at h
  split at h
  · rw [ebind_err] at h
    rcases h with hget | ⟨hk₀, _, h⟩
    · exact getObjAt_err _ _ e hget
    · rw [ebind_err] at h
      rcases h with happ | ⟨hk₁, _, hmod⟩
      · exact applyFields_err _ _ _ e happ
      · exact modifyAt_err _ _ _ e hmod
  · exact absurd h (by simp)

theorem applyConv_err (env : Env) (cfg : Obj) (e : CfgErr)
    (h : applyConv env cfg = .error e) : e = .crash := by
  unfold applyConv at h
  have : ∀ (l : List (String × String)) (c : Obj),
      l.foldlM (fun acc kv =>
        match setNestedO (convPath kv.1) acc (autoType kv.2) with
        | some acc' => Except.ok acc'
        | none => Except.error CfgErr.crash) c = .error e → e = .crash := by
    intro l
    induction l with
    | nil => intro c hx; exact absurd hx (by simp [pure, Except.pure])
    | cons kv rest ih =>
        intro c hx
        rw [List.foldlM_cons, ebind_err] at hx
        rcases hx with hstep | ⟨c₁, _, hrest⟩
        · split at hstep
          · exact absurd hstep (by simp)
          · cases hstep
            rfl
        · exact ih c₁ hrest
  exact this (convItems env) cfg h

/-- A run that fails before the validator fails with a crash, never with the
validator's own error: the `noProvider` outcome identifies the validator. -/
theorem pipeline_noProvider (env : Env) (custom persisted : Option Obj)
    (h : pipeline env custom persisted = .error .noProvider) :
    hasProviderB env = false := by
  unfold pipeline at h
  rw [ebind_err] at h
  rcases h with h₁ | ⟨c₁, _, h⟩
  · exact absurd (stageGateway_err env _ _ h₁) (by simp)
  · rw [ebind_err] at h
    rcases h with h₂ | ⟨c₂, _, h⟩
    · exact absurd (stagePrimary_err env _ _ h₂) (by simp)
    · rw [ebind_err] at h
      rcases h with h₃ | ⟨c₃, _, h⟩
      · exact absurd (stageChannels_err env _ _ h₃) (by simp)
      · rw [ebind_err] at h
        rcases h with h₄ | ⟨c₄, _, h⟩
        · exact absurd (stageBrowser_err env _ _ h₄) (by simp)
        · rw [ebind_err] at h
          rcases h with h₅ | ⟨c₅, _, h⟩
          · exact absurd (stageHooks_err env _ _ h₅) (by simp)
          · rw [ebind_err] at h
            rcases h with h₆ | ⟨c₆, _, h⟩
            · exact absurd (applyConv_err env _ _ h₆) (by simp)
            · split at h
              · exact absurd h (by simp)
              · rename_i hfalse
                simpa using hfalse

/-- Every credential signal `has_provider` accepts. -/
def acceptedSignals : List String :=
  BUILTIN_PROVIDERS.map (fun t => t.1)
    ++ ["OPENCODE_API_KEY", "OPENCODE_ZEN_API_KEY"]
    ++ CUSTOM_PROVIDERS.map (fun p => p.envK)
    ++ ["AWS_ACCESS_KEY_ID", "AWS_SECRET_ACCESS_KEY", "OLLAMA_BASE_URL"]

/-- C8 counterexample: the claimed equivalence — the run exits through the
validator with a diagnostic enumerating *every* accepted signal iff no signal
is present — fails already at the empty environment: the run does exit
through the validator, but the diagnostic never mentions the accepted
alternate variable `OPENCODE_ZEN_API_KEY`. -/
theorem C8_counterexample :
    ¬ (∀ (env : Env) (custom persisted : Option Obj),
        (pipeline env custom persisted = .error .noProvider
          ∧ ∀ s ∈ acceptedSignals, strContains noProviderDiag s = true)
        ↔ hasProviderB env = false) := by
  intro h
  have h₂ := (h [] none none).mpr (by decide)
  have h₃ := h₂.2 "OPENCODE_ZEN_API_KEY" (by decide)
  exact absurd h₃ (by decide)

/-- C8 amended: the validator's exit is the only path to its error and fires
exactly when no credential signal is present and no earlier malformed typed
value crashed the run first; a successful run always has a signal; a
signal-free run never succeeds; the diagnostic enumerates every accepted
signal except the alternate `OPENCODE_ZEN_API_KEY`; and with exactly
`OLLAMA_BASE_URL` set the run succeeds. -/
theorem C8_amended :
    (∀ (env : Env) (custom persisted : Option Obj),
       pipeline env custom persisted = .error .noProvider → hasProviderB env = false)
    ∧ (∀ (env : Env) (custom persisted : Option Obj) (doc : Obj),
       pipeline env custom persisted = .ok doc → hasProviderB env = true)
    ∧ (∀ (env : Env) (custom persisted : Option Obj),
       hasProviderB env = false →
       pipeline env custom persisted = .error .noProvider
       ∨ pipeline env custom persisted = .error .crash)
    ∧ (∀ s ∈ acceptedSignals, s ≠ "OPENCODE_ZEN_API_KEY" →
       strContains noProviderDiag s = true)
    ∧ (∃ doc, pipeline [("OLLAMA_BASE_URL", "http://localhost:11434")] none none
        = .ok doc) := by
  refine ⟨pipeline_noProvider, ?_, ?_, by decide, ?_⟩
  · intro env custom persisted doc hok
    obtain ⟨_, _, _, _, _, _, _, _, _, _, _, _, hprov, _⟩ :=
      pipeline_ok_shape env custom persisted doc hok
    exact hprov
  · intro env custom persisted hfalse
    cases hres : pipeline env custom persisted with
    | ok doc =>
        obtain ⟨_, _, _, _, _, _, _, _, _, _, _, _, hprov, _⟩ :=
          pipeline_ok_shape env custom persisted doc hres
        rw [hprov] at hfalse
        cases hfalse
    | error e =>
        cases e with
        | crash => exact Or.inr rfl
        | noProvider => exact Or.inl rfl
  · exact ⟨_, rfl⟩

/-- C8 witness: the empty environment exits through the validator, and
`C8_amended` certifies the absence of any signal from that outcome. -/
theorem C8_witness :
    pipeline ([] : Env) none none = .error .noProvider
    ∧ hasProviderB [] = false :=
  ⟨rfl, C8_amended.1 [] none none rfl⟩

-- ── C10: empty-string asymmetry between gates and field application ─────────

/-- Remove every binding of a variable (the "unset" counterpart of setting
it to the empty string). -/
def envRemoveAll : Env → String → Env
  | [], _ => []
  | (k', v) :: rest, k =>
      if k' = k then envRemoveAll rest k else (k', v) :: envRemoveAll rest k

theorem alookup_envRemoveAll_self (env : Env) (k : String) :
    alookup (envRemoveAll env k) k = none := by
  induction env with
  | nil => rfl
  | cons hd tl ih =>
      obtain ⟨k', v'⟩ := hd
      by_cases h : k' = k
      · simp [envRemoveAll, h, ih]
      · rw [envRemoveAll, if_neg h, alookup_cons, if_neg h]
        exact ih

theorem alookup_envRemoveAll_ne (env : Env) (k q : String) (h : k ≠ q) :
    alookup (envRemoveAll env k) q = alookup env q := by
  induction env with
  | nil => rfl
  | cons hd tl ih =>
      obtain ⟨k', v'⟩ := hd
      by_cases hk : k' = k
      · subst hk
        rw [envRemoveAll, if_pos rfl, alookup_cons, if_neg h]
        exact ih
      · rw [envRemoveAll, if_neg hk, alookup_cons, alookup_cons]
        split
        · rfl
        · exact ih

/-- Setting a variable to the empty string and removing it altogether are
indistinguishable to every `os.environ.get(k) or ""`-style read. -/
theorem envStr_emptySet (env : Env) (k q : String) :
    (envVal ((k, "") :: env) q).getD ""
      = (envVal (envRemoveAll env k) q).getD "" := by
  unfold envVal
  by_cases h : k = q
  · subst h
    rw [alookup_cons, if_pos rfl, alookup_envRemoveAll_self]
    rfl
  · rw [alookup_cons, if_neg h, alookup_envRemoveAll_ne env k q h]

theorem all_congrB {α : Type} (l : List α) (f g : α → Bool)
    (h : ∀ x ∈ l, f x = g x) : l.all f = l.all g := by
  induction l with
  | nil => rfl
  | cons x xs ih =>
      simp only [List.all_cons, h x (List.mem_cons_self x xs),
        ih (fun y hy => h y (List.mem_cons_of_mem x hy))]

theorem any_congrB {α : Type} (l : List α) (f g : α → Bool)
    (h : ∀ x ∈ l, f x = g x) : l.any f = l.any g := by
  induction l with
  | nil => rfl
  | cons x xs ih =>
      simp only [List.any_cons, h x (List.mem_cons_self x xs),
        ih (fun y hy => h y (List.mem_cons_of_mem x hy))]

theorem envTru_congr (e₁ e₂ : Env)
    (h : ∀ q, (envVal e₁ q).getD "" = (envVal e₂ q).getD "") (k : String) :
    envTru e₁ k = envTru e₂ k := by
  unfold envTru
  rw [h k]

theorem chGateOpen_congr (e₁ e₂ : Env)
    (h : ∀ q, (envVal e₁ q).getD "" = (envVal e₂ q).getD "") (ch : Channel) :
    chGateOpen e₁ ch = chGateOpen e₂ ch := by
  obtain ⟨key, gate, gc, mg, tf, fs⟩ := ch
  unfold chGateOpen
  cases gate with
  | many gs =>
      dsimp only
      exact all_congrB gs _ _ (fun g _ => envTru_congr e₁ e₂ h g)
  | one g =>
      cases gc with
      | boolCheck =>
          dsimp only
          rw [h g]
      | token =>
          dsimp only
          rw [envTru_congr e₁ e₂ h g]

theorem hasProviderB_congr (e₁ e₂ : Env)
    (h : ∀ q, (envVal e₁ q).getD "" = (envVal e₂ q).getD "") :
    hasProviderB e₁ = hasProviderB e₂ := by
  unfold hasProviderB opencodeTru ollamaUrl
  rw [any_congrB BUILTIN_PROVIDERS _ _ (fun t _ => envTru_congr e₁ e₂ h t.1),
    any_congrB CUSTOM_PROVIDERS _ _ (fun p _ => envTru_congr e₁ e₂ h p.envK),
    envTru_congr e₁ e₂ h "OPENCODE_API_KEY", envTru_congr e₁ e₂ h "OPENCODE_ZEN_API_KEY",
    envTru_congr e₁ e₂ h "AWS_ACCESS_KEY_ID", envTru_congr e₁ e₂ h "AWS_SECRET_ACCESS_KEY",
    h "OLLAMA_BASE_URL"]

/-- `apply_fields` on a single mapping, in closed form. -/
theorem applyFields_single (env : Env) (f : FMap) (o : Obj) :
    applyFields env [f] o =
      match envVal env f.var with
      | none => .ok o
      | some raw =>
          (match parseValue raw f.ty with
           | .ok v =>
               (match setNestedO (splitDots f.path) o v with
                | some acc' => .ok acc'
                | none => .error .crash)
           | .error e => .error e) := by
  unfold applyFields
  rw [List.foldlM_cons]
  cases hv : envVal env f.var with
  | none => rfl
  | some raw =>
      dsimp only
      cases hp : parseValue raw f.ty with
      | error e =>
          dsimp only [Bind.bind, Except.bind]
      | ok v =>
          dsimp only [Bind.bind, Except.bind]
          cases hs : setNestedO (splitDots f.path) o v <;> rfl

/-- C10: emptiness is asymmetric at the interface. Every gate — single-token
and multi-token channel gates, boolean-mode gates, and the provider
credential signals — treats a variable set to the empty string exactly as
unset; but `apply_fields` applies any variable that is *present*, even
empty: an empty passthrough-string field stores the empty string and an
empty list field stores the empty list. -/
theorem C10_empty_asymmetry :
    (∀ (env : Env) (k : String),
       (∀ ch ∈ CHANNELS, chGateOpen ((k, "") :: env) ch
          = chGateOpen (envRemoveAll env k) ch)
       ∧ hasProviderB ((k, "") :: env) = hasProviderB (envRemoveAll env k))
    ∧ (∀ (env : Env) (o o' : Obj) (v p : String),
       envVal env v = some "" →
       setNestedO (splitDots p) o (.str "") = some o' →
       applyFields env [⟨v, p, .tstr⟩] o = .ok o')
    ∧ (∀ (env : Env) (o o' : Obj) (v p : String),
       envVal env v = some "" →
       setNestedO (splitDots p) o (.arr []) = some o' →
       applyFields env [⟨v, p, .tcsv⟩] o = .ok o') := by
  refine ⟨?_, ?_, ?_⟩
  · intro env k
    exact ⟨fun ch _ => chGateOpen_congr _ _ (envStr_emptySet env k) ch,
      hasProviderB_congr _ _ (envStr_emptySet env k)⟩
  · intro env o o' v p hv hset
    rw [applyFields_single, hv]
    dsimp only
    rw [show parseValue "" FType.tstr = Except.ok (JValue.str "") from rfl]
    dsimp only
    rw [hset]
  · intro env o o' v p hv hset
    rw [applyFields_single, hv]
    dsimp only
    rw [show parseValue "" FType.tcsv = Except.ok (JValue.arr []) from rfl]
    dsimp only
    rw [hset]

/-- C10 witness: an empty `TELEGRAM_BOT_TOKEN` leaves the telegram gate as
closed as not setting it (and the provider signals likewise), while an empty
string field and an empty csv field are applied with empty values. -/
theorem C10_witness :
    chGateOpen [("TELEGRAM_BOT_TOKEN", "")] telegramChannel
      = chGateOpen (envRemoveAll [] "TELEGRAM_BOT_TOKEN") telegramChannel
    ∧ hasProviderB [("GROQ_API_KEY", "")] = hasProviderB (envRemoveAll [] "GROQ_API_KEY")
    ∧ applyFields [("X", "")] [⟨"X", "a.b", .tstr⟩] []
        = .ok [("a", .obj [("b", .str "")])]
    ∧ applyFields [("X", "")] [⟨"X", "items", .tcsv⟩] []
        = .ok [("items", .arr [])] := by
  refine ⟨?_, ?_, ?_, ?_⟩
  · exact (C10_empty_asymmetry.1 [] "TELEGRAM_BOT_TOKEN").1 telegramChannel
      (List.mem_cons_self _ _)
  · exact (C10_empty_asymmetry.1 [] "GROQ_API_KEY").2
  · exact C10_empty_asymmetry.2.1 [("X", "")] [] [("a", .obj [("b", .str "")])]
      "X" "a.b" rfl (by decide)
  · exact C10_empty_asymmetry.2.2 [("X", "")] [] [("items", .arr [])]
      "X" "items" rfl (by decide)

-- ── C4: convention overrides are applied last and win over schema fields ────

/-- A successful `set_nested` makes a presence-style lookup at the same path
answer exactly the value that was set. -/
theorem getAt_setNestedO : ∀ (p : List String) (m m' : Obj) (v : JValue),
    setNestedO p m v = some m' → getAt (.obj m') p = some v
  | [], m, m', v => by simp [setNestedO]
  | [k], m, m', v => by
      intro h
      simp only [setNestedO, Option.some_inj] at h
      subst h
      simp [getAt, alookup_ainsert_self]
  | k :: k₂ :: ks, m, m', v => by
      intro h
      cases hl : alookup m k with
      | none =>
          rw [setNestedO, hl] at h
          simp only [Option.map_eq_some'] at h
          obtain ⟨sm', hsm, rfl⟩ := h
          simp only [getAt, alookup_ainsert_self]
          exact getAt_setNestedO (k₂ :: ks) [] sm' v hsm
      | some s =>
          cases s with
          | obj sm =>
              rw [setNestedO, hl] at h
              simp only [Option.map_eq_some'] at h
              obtain ⟨sm', hsm, rfl⟩ := h
              simp only [getAt, alookup_ainsert_self]
              exact getAt_setNestedO (k₂ :: ks) sm sm' v hsm
          | null => rw [setNestedO, hl] at h; exact absurd h (by simp)
          | bool b => rw [setNestedO, hl] at h; exact absurd h (by simp)
          | int n => rw [setNestedO, hl] at h; exact absurd h (by simp)
          | float l => rw [setNestedO, hl] at h; exact absurd h (by simp)
          | str s => rw [setNestedO, hl] at h; exact absurd h (by simp)
          | arr xs => rw [setNestedO, hl] at h; exact absurd h (by simp)

/-- When `apply_convention_overrides` succeeds and `(v, raw)` is the last
match in sorted order, the output is what that final `set_nested` produced
on some intermediate document. -/
theorem applyConv_last (env : Env) (cfg out : Obj) (pre : List (String × String))
    (v raw : String)
    (hc : convItems env = pre ++ [(v, raw)])
    (hok : applyConv env cfg = .ok out) :
    ∃ mid, setNestedO (convPath v) mid (autoType raw) = some out := by
  unfold applyConv at hok
  rw [hc, List.foldlM_append] at hok
  cases hpre : List.foldlM
      (fun acc kv =>
        match setNestedO (convPath kv.1) acc (autoType kv.2) with
        | some acc' => Except.ok acc'
        | none => Except.error CfgErr.crash)
      cfg pre with
  | error e =>
      rw [hpre] at hok
      exact absurd hok (by simp [Bind.bind, Except.bind])
  | ok mid =>
      rw [hpre] at hok
      simp only [Bind.bind, Except.bind, List.foldlM_cons, List.foldlM_nil] at hok
      refine ⟨mid, ?_⟩
      cases hs : setNestedO (convPath v) mid (autoType raw) with
      | none =>
          rw [hs] at hok
          exact absurd hok (by simp [Bind.bind, Except.bind])
      | some acc' =>
          rw [hs] at hok
          simp only [Bind.bind, Except.bind, pure, Except.pure, Except.ok.injEq] at hok
          rw [hok]

/-- C4: convention-driven overrides (`OPENCLAW_JSON__`-prefixed variables,
path from double-underscore splitting, value auto-typed) run after every
schema-driven stage: on any successful run whose last sorted convention
match is `(v, raw)`, the final document holds `autoType raw` at `v`'s
derived path — whatever any schema field mapping wrote there earlier. -/
theorem C4_conv_override_wins
    (env : Env) (custom persisted : Option Obj) (out : Obj)
    (pre : List (String × String)) (v raw : String)
    (hconv : convItems env = pre ++ [(v, raw)])
    (hrun : pipeline env custom persisted = .ok out) :
    getAt (.obj out) (convPath v) = some (autoType raw) := by
  obtain ⟨c₁, c₂, c₃, c₄, c₅, c₆, _, _, _, _, _, hcv, _, hdoc⟩ :=
    pipeline_ok_shape env custom persisted out hrun
  subst hdoc
  obtain ⟨mid, hset⟩ := applyConv_last env c₅ out pre v raw hconv hcv
  exact getAt_setNestedO (convPath v) mid out (autoType raw) hset

def c4Env : Env :=
  [("GROQ_API_KEY", "g1"), ("OPENCLAW_GATEWAY_PORT", "1111"),
   ("OPENCLAW_JSON__gateway__port", "2222")]

def c4Out : Obj :=
  [("gateway", .obj
     [("port", .int 2222), ("mode", .str "local"),
      ("controlUi", .obj [("allowInsecureAuth", .bool true), ("enabled", .bool true)])]),
   ("agents", .obj
     [("defaults", .obj
       [("workspace", .str "/data/workspace"),
        ("model", .obj [("primary", .str "groq/llama-3.3-70b-versatile")])])])]

/-- C4 witness: the schema field `OPENCLAW_GATEWAY_PORT=1111` writes
`gateway.port`, the convention override `OPENCLAW_JSON__gateway__port=2222`
targets the same path with a different value, and the final document holds
the convention value `2222` (without the override it would hold `1111`). -/
theorem C4_witness :
    pipeline c4Env none none = .ok c4Out
    ∧ getAt (.obj c4Out) (convPath "OPENCLAW_JSON__gateway__port")
        = some (autoType "2222")
    ∧ autoType "2222" = .int 2222
    ∧ (∃ port₀, pipeline [("GROQ_API_KEY", "g1"), ("OPENCLAW_GATEWAY_PORT", "1111")]
          none none = .ok port₀
        ∧ getAt (.obj port₀) ["gateway", "port"] = some (.int 1111)) := by
  refine ⟨rfl, ?_, rfl, ?_⟩
  · exact C4_conv_override_wins c4Env none none c4Out []
      "OPENCLAW_JSON__gateway__port" "2222" (by decide) rfl
  · refine ⟨[("gateway", .obj
       [("port", .int 1111), ("mode", .str "local"),
        ("controlUi", .obj [("allowInsecureAuth", .bool true), ("enabled", .bool true)])]),
     ("agents", .obj
       [("defaults", .obj
         [("workspace", .str "/data/workspace"),
          ("model", .obj [("primary", .str "groq/llama-3.3-70b-versatile")])])])], rfl, rfl⟩

-- ── C9: determinism, iteration order, and the proxy artifacts ───────────────

theorem strLtB_go_irrefl : ∀ xs, strLtB.go xs xs = false
  | [] => rfl
  | x :: xs => by
      unfold strLtB.go
      rw [if_neg (lt_irrefl x), if_neg (lt_irrefl x)]
      exact strLtB_go_irrefl xs

theorem strLtB_go_asymm : ∀ xs ys, strLtB.go xs ys = true → strLtB.go ys xs = false
  | [], [] => by intro h; exact absurd h (by decide)
  | [], _ :: _ => by intro _; rfl
  | _ :: _, [] => by intro h; exact absurd h (by simp [strLtB.go])
  | x :: xs, y :: ys => by
      intro h
      unfold strLtB.go at h ⊢
      by_cases hxy : x < y
      · rw [if_neg (lt_asymm hxy), if_pos hxy]
      · rw [if_neg hxy] at h
        by_cases hyx : y < x
        · rw [if_pos hyx] at h
          exact absurd h (by decide)
        · rw [if_neg hyx] at h
          rw [if_neg hyx, if_neg hxy]
          exact strLtB_go_asymm xs ys h

theorem strLtB_go_conn : ∀ xs ys, strLtB.go xs ys = false → strLtB.go ys xs = false → xs = ys
  | [], [] => by intro _ _; rfl
  | [], _ :: _ => by intro h _; exact absurd h (by simp [strLtB.go])
  | _ :: _, [] => by intro _ h; exact absurd h (by simp [strLtB.go])
  | x :: xs, y :: ys => by
      intro h₁ h₂
      unfold strLtB.go at h₁ h₂
      by_cases hxy : x < y
      · rw [if_pos hxy] at h₁
        exact absurd h₁ (by decide)
      · by_cases hyx : y < x
        · rw [if_pos hyx] at h₂
          exact absurd h₂ (by decide)
        · rw [if_neg hxy, if_neg hyx] at h₁
          rw [if_neg hyx, if_neg hxy] at h₂
          have hx : x = y := le_antisymm (le_of_not_lt hyx) (le_of_not_lt hxy)
          rw [hx, strLtB_go_conn xs ys h₁ h₂]

theorem strLtB_go_trans : ∀ xs ys zs,
    strLtB.go xs ys = true → strLtB.go ys zs = true → strLtB.go xs zs = true
  | [], ys, [] => by
      intro _ h₂
      cases ys with
      | nil => exact absurd h₂ (by decide)
      | cons y ys => exact absurd h₂ (by simp [strLtB.go])
  | [], _, _ :: _ => by intro _ _; rfl
  | _ :: _, ys, [] => by
      intro _ h₂
      cases ys with
      | nil => exact absurd h₂ (by decide)
      | cons y ys => exact absurd h₂ (by simp [strLtB.go])
  | x :: xs, ys, z :: zs => by
      intro h₁ h₂
      cases ys with
      | nil => exact absurd h₁ (by simp [strLtB.go])
      | cons y ys =>
          unfold strLtB.go at h₁ h₂ ⊢
          by_cases hxy : x < y
          · by_cases hyz : y < z
            · rw [if_pos (lt_trans hxy hyz)]
            · rw [if_neg hyz] at h₂
              by_cases hzy : z < y
              · rw [if_pos hzy] at h₂
                exact absurd h₂ (by decide)
              · have he : y = z := le_antisymm (le_of_not_lt hzy) (le_of_not_lt hyz)
                rw [if_pos (he ▸ hxy)]
          · rw [if_neg hxy] at h₁
            by_cases hyx : y < x
            · rw [if_pos hyx] at h₁
              exact absurd h₁ (by decide)
            · rw [if_neg hyx] at h₁
              have hx : x = y := le_antisymm (le_of_not_lt hyx) (le_of_not_lt hxy)
              by_cases hyz : y < z
              · rw [if_pos (hx ▸ hyz)]
              · rw [if_neg hyz] at h₂
                by_cases hzy : z < y
                · rw [if_pos hzy] at h₂
                  exact absurd h₂ (by decide)
                · rw [if_neg hzy] at h₂
                  have hz : y = z := le_antisymm (le_of_not_lt hzy) (le_of_not_lt hyz)
                  have hxz : x = z := hx.trans hz
                  rw [if_neg (hxz ▸ lt_irrefl x), if_neg (hxz ▸ lt_irrefl x)]
                  exact strLtB_go_trans xs ys zs h₁ h₂

theorem strLtB_irrefl (a : String) : strLtB a a = false := strLtB_go_irrefl a.data

theorem strLtB_asymm (a b : String) (h : strLtB a b = true) : strLtB b a = false :=
  strLtB_go_asymm a.data b.data h

theorem strLtB_conn (a b : String) (h₁ : strLtB a b = false) (h₂ : strLtB b a = false) :
    a = b := by
  have h := strLtB_go_conn a.data b.data h₁ h₂
  cases a
  cases b
  exact congrArg String.mk h

theorem strLtB_trans (a b c : String) (h₁ : strLtB a b = true) (h₂ : strLtB b c = true) :
    strLtB a c = true :=
  strLtB_go_trans a.data b.data c.data h₁ h₂

theorem pairLtB_irrefl (a : String × String) : pairLtB a a = false := by
  unfold pairLtB
  simp [strLtB_irrefl]

theorem pairLtB_conn (a b : String × String)
    (h₁ : pairLtB a b = false) (h₂ : pairLtB b a = false) : a = b := by
  obtain ⟨a₁, a₂⟩ := a
  obtain ⟨b₁, b₂⟩ := b
  unfold pairLtB at h₁ h₂
  simp only [Bool.or_eq_false_iff, Bool.and_eq_false_iff] at h₁ h₂
  obtain ⟨h₁s, h₁r⟩ := h₁
  obtain ⟨h₂s, h₂r⟩ := h₂
  have hk : a₁ = b₁ := strLtB_conn a₁ b₁ h₁s h₂s
  subst hk
  have hv : a₂ = b₂ := by
    cases h₁r with
    | inl h => simp at h
    | inr h =>
        cases h₂r with
        | inl h' => simp at h'
        | inr h' => exact strLtB_conn a₂ b₂ h h'
  rw [hv]

theorem pairLtB_trans (a b c : String × String)
    (h₁ : pairLtB a b = true) (h₂ : pairLtB b c = true) : pairLtB a c = true := by
  obtain ⟨a₁, a₂⟩ := a
  obtain ⟨b₁, b₂⟩ := b
  obtain ⟨c₁, c₂⟩ := c
  unfold pairLtB at h₁ h₂ ⊢
  simp only [Bool.or_eq_true, Bool.and_eq_true, beq_iff_eq] at h₁ h₂ ⊢
  cases h₁ with
  | inl h =>
      cases h₂ with
      | inl h' => exact Or.inl (strLtB_trans a₁ b₁ c₁ h h')
      | inr h' => exact Or.inl (h'.1 ▸ h)
  | inr h =>
      cases h₂ with
      | inl h' => exact Or.inl (h.1 ▸ h')
      | inr h' => exact Or.inr ⟨h.1.trans h'.1, strLtB_trans a₂ b₂ c₂ h.2 h'.2⟩

theorem pairLtB_asymm (a b : String × String) (h : pairLtB a b = true) :
    pairLtB b a = false := by
  cases hba : pairLtB b a with
  | false => rfl
  | true =>
      have ht := pairLtB_trans a b a h hba
      rw [pairLtB_irrefl a] at ht
      exact absurd ht (by decide)

/-- The non-strict tuple order: `a` may stand before `b` in `sorted` output. -/
def pairLe (a b : String × String) : Prop := pairLtB b a = false

theorem pairLe_of_not_lt (a b : String × String) (h : ¬ pairLtB a b = true) :
    pairLe b a := by
  unfold pairLe
  cases hab : pairLtB a b with
  | false => rfl
  | true => exact absurd hab h

theorem pairLe_trans (a b c : String × String) (h₁ : pairLe a b) (h₂ : pairLe b c) :
    pairLe a c := by
  unfold pairLe at h₁ h₂ ⊢
  cases hca : pairLtB c a with
  | false => rfl
  | true =>
      cases hcb : pairLtB c b with
      | true => exact absurd hcb (by rw [h₂]; decide)
      | false =>
          cases hbc : pairLtB b c with
          | false =>
              have he : b = c := pairLtB_conn b c hbc hcb
              rw [← he] at hca
              exact absurd hca (by rw [h₁]; decide)
          | true =>
              have := pairLtB_trans b c a hbc hca
              exact absurd this (by rw [h₁]; decide)

theorem sortedInsert_perm (x : String × String) :
    ∀ l, (sortedInsert x l).Perm (x :: l)
  | [] => List.Perm.refl _
  | y :: ys => by
      unfold sortedInsert
      split
      · exact ((sortedInsert_perm x ys).cons y).trans (List.Perm.swap x y ys)
      · exact List.Perm.refl _

theorem sortPairs_perm : ∀ l, (sortPairs l).Perm l
  | [] => List.Perm.refl _
  | x :: xs => by
      unfold sortPairs
      exact (sortedInsert_perm x (sortPairs xs)).trans ((sortPairs_perm xs).cons x)

theorem sortedInsert_sorted (x : String × String) :
    ∀ l, l.Sorted pairLe → (sortedInsert x l).Sorted pairLe
  | [], _ => List.sorted_singleton x
  | y :: ys, hs => by
      rw [List.sorted_cons] at hs
      obtain ⟨hy, hys⟩ := hs
      unfold sortedInsert
      by_cases hyx : pairLtB y x = true
      · rw [if_pos hyx, List.sorted_cons]
        refine ⟨?_, sortedInsert_sorted x ys hys⟩
        intro b hb
        cases List.mem_cons.mp ((sortedInsert_perm x ys).mem_iff.mp hb) with
        | inl hbx =>
            subst hbx
            exact pairLtB_asymm y b hyx
        | inr hbys => exact hy b hbys
      · rw [if_neg hyx, List.sorted_cons]
        refine ⟨?_, List.sorted_cons.mpr ⟨hy, hys⟩⟩
        intro b hb
        cases List.mem_cons.mp hb with
        | inl hby =>
            subst hby
            exact pairLe_of_not_lt b x hyx
        | inr hbys => exact pairLe_trans x y b (pairLe_of_not_lt y x hyx) (hy b hbys)

theorem sortPairs_sorted : ∀ l, (sortPairs l).Sorted pairLe
  | [] => List.sorted_nil
  | x :: xs => by
      unfold sortPairs
      exact sortedInsert_sorted x (sortPairs xs) (sortPairs_sorted xs)

theorem sortPairs_eq_of_perm (l₁ l₂ : List (String × String)) (h : l₁.Perm l₂) :
    sortPairs l₁ = sortPairs l₂ := by
  haveI : IsAntisymm (String × String) pairLe :=
    ⟨fun a b h₁ h₂ => pairLtB_conn a b h₂ h₁⟩
  exact List.eq_of_perm_of_sorted
    ((sortPairs_perm l₁).trans (h.trans (sortPairs_perm l₂).symm))
    (sortPairs_sorted l₁) (sortPairs_sorted l₂)

theorem alookup_some_iff_mem {α : Type} :
    ∀ (m : List (String × α)), (m.map Prod.fst).Nodup → ∀ (k : String) (v : α),
      (alookup m k = some v ↔ (k, v) ∈ m)
  | [], _, k, v => by simp [alookup]
  | (k', v') :: rest, hn, k, v => by
      rw [List.map_cons, List.nodup_cons] at hn
      obtain ⟨hk', hrest⟩ := hn
      rw [alookup_cons]
      by_cases h : k' = k
      · subst h
        rw [if_pos rfl]
        simp only [Option.some_inj, List.mem_cons, Prod.mk.injEq]
        constructor
        · intro he
          exact Or.inl ⟨trivial, he.symm⟩
        · intro hm
          cases hm with
          | inl he => exact he.2.symm
          | inr hmem => exact absurd (List.mem_map_of_mem Prod.fst hmem) hk'
      · rw [if_neg h, alookup_some_iff_mem rest hrest k v]
        simp only [List.mem_cons, Prod.mk.injEq]
        constructor
        · exact Or.inr
        · intro hm
          cases hm with
          | inl he => exact absurd he.1.symm h
          | inr hmem => exact hmem

/-- Two environment snapshots that agree as partial maps and have unique
variable names are permutations of one another as item lists. -/
theorem env_perm_of_ext (e₁ e₂ : Env)
    (hn₁ : (e₁.map Prod.fst).Nodup) (hn₂ : (e₂.map Prod.fst).Nodup)
    (hE : ∀ k, envVal e₁ k = envVal e₂ k) : e₁.Perm e₂ := by
  rw [List.perm_ext_iff_of_nodup (hn₁.of_map _) (hn₂.of_map _)]
  intro a
  obtain ⟨k, v⟩ := a
  rw [← alookup_some_iff_mem e₁ hn₁ k v, ← alookup_some_iff_mem e₂ hn₂ k v]
  rw [show alookup e₁ k = alookup e₂ k from hE k]

theorem convItems_congr (e₁ e₂ : Env)
    (hn₁ : (e₁.map Prod.fst).Nodup) (hn₂ : (e₂.map Prod.fst).Nodup)
    (hE : ∀ k, envVal e₁ k = envVal e₂ k) : convItems e₁ = convItems e₂ := by
  unfold convItems
  exact sortPairs_eq_of_perm _ _
    ((env_perm_of_ext e₁ e₂ hn₁ hn₂ hE).filter _)

/-- With unique variable names, the sorted convention matches are strictly
increasing in the variable name: iteration is lexicographic by name. -/
theorem convItems_names_sorted (env : Env) (hn : (env.map Prod.fst).Nodup) :
    (convItems env).Pairwise (fun a b => strLtB a.1 b.1 = true) := by
  have hsor : (convItems env).Pairwise pairLe := sortPairs_sorted _
  have hperm : (convItems env).Perm (env.filter (fun kv => strStarts kv.1 convPfx)) :=
    sortPairs_perm _
  have hnf : ((env.filter (fun kv => strStarts kv.1 convPfx)).map Prod.fst).Nodup :=
    hn.sublist ((List.filter_sublist env).map Prod.fst)
  have hnc : ((convItems env).map Prod.fst).Nodup :=
    ((hperm.map Prod.fst).nodup_iff).mpr hnf
  have hne : (convItems env).Pairwise (fun a b => a.1 ≠ b.1) :=
    List.pairwise_map.mp hnc
  refine (hsor.and hne).imp ?_
  intro a b hab
  obtain ⟨hle, hneq⟩ := hab
  have hfst : strLtB b.1 a.1 = false := by
    have : pairLtB b a = false := hle
    unfold pairLtB at this
    exact (Bool.or_eq_false_iff.mp this).1
  cases hab' : strLtB a.1 b.1 with
  | true => rfl
  | false => exact absurd (strLtB_conn a.1 b.1 hab' hfst) hneq

theorem applyFields_cons (env : Env) (f : FMap) (fs : List FMap) (o : Obj) :
    applyFields env (f :: fs) o =
      match applyFields env [f] o with
      | .ok o' => applyFields env fs o'
      | .error e => .error e := by
  rw [applyFields_single]
  unfold applyFields
  rw [List.foldlM_cons]
  cases hv : envVal env f.var with
  | none => rfl
  | some raw =>
      dsimp only
      cases hp : parseValue raw f.ty with
      | error e => dsimp only [Bind.bind, Except.bind]
      | ok v =>
          dsimp only [Bind.bind, Except.bind]
          cases hs : setNestedO (splitDots f.path) o v <;> rfl

theorem applyFields_congr (e₁ e₂ : Env) (hE : ∀ k, envVal e₁ k = envVal e₂ k) :
    ∀ (fs : List FMap) (o : Obj), applyFields e₁ fs o = applyFields e₂ fs o
  | [], _ => rfl
  | f :: fs, o => by
      rw [applyFields_cons e₁ f fs o, applyFields_cons e₂ f fs o,
        applyFields_single e₁ f o, applyFields_single e₂ f o, hE f.var]
      cases envVal e₂ f.var with
      | none =>
          dsimp only
          exact applyFields_congr e₁ e₂ hE fs o
      | some raw =>
          dsimp only
          cases parseValue raw f.ty with
          | error e => rfl
          | ok v =>
              dsimp only
              cases setNestedO (splitDots f.path) o v with
              | none => rfl
              | some o' =>
                  dsimp only
                  exact applyFields_congr e₁ e₂ hE fs o'

theorem stageGateway_congr (e₁ e₂ : Env) (hE : ∀ k, envVal e₁ k = envVal e₂ k)
    (cfg : Obj) : stageGateway e₁ cfg = stageGateway e₂ cfg := by
  simp only [stageGateway, gwPortStep, gwTokenStep, hE]

theorem stageAgents_congr (e₁ e₂ : Env) (hE : ∀ k, envVal e₁ k = envVal e₂ k)
    (cfg : Obj) : stageAgents e₁ cfg = stageAgents e₂ cfg := by
  simp only [stageAgents, workspaceDir, hE]

theorem stageCustomProvs_congr (e₁ e₂ : Env) (hE : ∀ k, envVal e₁ k = envVal e₂ k)
    (hC : Bool) (cfg : Obj) :
    stageCustomProvs e₁ hC cfg = stageCustomProvs e₂ hC cfg := by
  simp only [stageCustomProvs, provEntry, hE]

theorem stageBedrock_congr (e₁ e₂ : Env) (hE : ∀ k, envVal e₁ k = envVal e₂ k)
    (hC : Bool) (cfg : Obj) : stageBedrock e₁ hC cfg = stageBedrock e₂ hC cfg := by
  simp only [stageBedrock, awsRegion, envTru, hE]

theorem stageOllama_congr (e₁ e₂ : Env) (hE : ∀ k, envVal e₁ k = envVal e₂ k)
    (hC : Bool) (cfg : Obj) : stageOllama e₁ hC cfg = stageOllama e₂ hC cfg := by
  simp only [stageOllama, ollamaUrl, hE]

theorem stagePrimary_congr (e₁ e₂ : Env) (hE : ∀ k, envVal e₁ k = envVal e₂ k)
    (cfg : Obj) : stagePrimary e₁ cfg = stagePrimary e₂ cfg := by
  simp only [stagePrimary, primaryWalk, resolvedTru, opencodeTru, ollamaUrl, envTru, hE]

theorem stageDeepgram_congr (e₁ e₂ : Env) (hE : ∀ k, envVal e₁ k = envVal e₂ k)
    (cfg : Obj) : stageDeepgram e₁ cfg = stageDeepgram e₂ cfg := by
  simp only [stageDeepgram, envTru, hE]

theorem processChannel_congr (e₁ e₂ : Env) (hE : ∀ k, envVal e₁ k = envVal e₂ k)
    (cfg : Obj) (ch : Channel) : processChannel e₁ cfg ch = processChannel e₂ cfg ch := by
  simp only [processChannel, chGateOpen, chTokens, envTru, hE,
    applyFields_congr e₁ e₂ hE]

theorem stageChannels_congr (e₁ e₂ : Env) (hE : ∀ k, envVal e₁ k = envVal e₂ k)
    (cfg : Obj) : stageChannels e₁ cfg = stageChannels e₂ cfg := by
  have hPC : processChannel e₁ = processChannel e₂ :=
    funext fun c => funext fun ch => processChannel_congr e₁ e₂ hE c ch
  simp only [stageChannels, hPC]

theorem stageBrowser_congr (e₁ e₂ : Env) (hE : ∀ k, envVal e₁ k = envVal e₂ k)
    (cfg : Obj) : stageBrowser e₁ cfg = stageBrowser e₂ cfg := by
  simp only [stageBrowser, envTru, hE, applyFields_congr e₁ e₂ hE]

theorem stageHooks_congr (e₁ e₂ : Env) (hE : ∀ k, envVal e₁ k = envVal e₂ k)
    (cfg : Obj) : stageHooks e₁ cfg = stageHooks e₂ cfg := by
  simp only [stageHooks, hE, applyFields_congr e₁ e₂ hE]

theorem applyConv_congr (e₁ e₂ : Env)
    (hn₁ : (e₁.map Prod.fst).Nodup) (hn₂ : (e₂.map Prod.fst).Nodup)
    (hE : ∀ k, envVal e₁ k = envVal e₂ k) (cfg : Obj) :
    applyConv e₁ cfg = applyConv e₂ cfg := by
  unfold applyConv
  rw [convItems_congr e₁ e₂ hn₁ hn₂ hE]

/-- The emitted document is a function of the environment as a partial map
(not of its list representation) and of the starting documents. -/
theorem pipeline_congr (e₁ e₂ : Env)
    (hn₁ : (e₁.map Prod.fst).Nodup) (hn₂ : (e₂.map Prod.fst).Nodup)
    (hE : ∀ k, envVal e₁ k = envVal e₂ k) (custom persisted : Option Obj) :
    pipeline e₁ custom persisted = pipeline e₂ custom persisted := by
  have hD : ∀ q, (envVal e₁ q).getD "" = (envVal e₂ q).getD "" := fun q => by rw [hE q]
  simp only [pipeline, stageGateway_congr e₁ e₂ hE, stageAgents_congr e₁ e₂ hE,
    stageCustomProvs_congr e₁ e₂ hE, stageBedrock_congr e₁ e₂ hE,
    stageOllama_congr e₁ e₂ hE, stagePrimary_congr e₁ e₂ hE,
    stageDeepgram_congr e₁ e₂ hE, stageChannels_congr e₁ e₂ hE,
    stageBrowser_congr e₁ e₂ hE, stageHooks_congr e₁ e₂ hE,
    applyConv_congr e₁ e₂ hn₁ hn₂ hE, hasProviderB_congr e₁ e₂ hD]

-- Python `repr` of a JSON value as interpolated by `str(...)` on
-- containers: exact on `None`/booleans/integers and on the container
-- punctuation; strings are rendered in single quotes without re-escaping and
-- floats by their source literal (Python would escape quotes inside strings
-- and print the parsed float's repr — both deterministic functions of the
-- value, which is all the theorems below use).
mutual
def jRepr : JValue → String
  | .null => "None"
  | .bool true => "True"
  | .bool false => "False"
  | .int n => toString n
  | .float lit => lit
  | .str s => "'" ++ s ++ "'"
  | .arr xs => "[" ++ jReprList xs ++ "]"
  | .obj kvs => "\x7b" ++ jReprFields kvs ++ "\x7d"

def jReprList : List JValue → String
  | [] => ""
  | [x] => jRepr x
  | x :: y :: rest => jRepr x ++ ", " ++ jReprList (y :: rest)

def jReprFields : List (String × JValue) → String
  | [] => ""
  | [(k, v)] => "'" ++ k ++ "': " ++ jRepr v
  | (k, v) :: x :: rest => "'" ++ k ++ "': " ++ jRepr v ++ ", " ++ jReprFields (x :: rest)
end

/-- Python `str(x)` for an f-string interpolation: the string itself for
strings, `repr`-style otherwise. -/
def jShow : JValue → String
  | .str s => s
  | v => jRepr v

/-- The `auth.caddyfile` bytes. A truthy `AUTH_PASSWORD` runs the external
command `caddy hash-password`; its stdout — a bcrypt hash over a freshly
drawn random salt — is an input to this function, not a function of the
environment, and is passed here as `hashOutcome` (`none` models a non-zero
exit of the hasher). -/
def authSnippet (env : Env) (hashOutcome : Option String) : String :=
  let pw := (envVal env "AUTH_PASSWORD").getD ""
  let user := (envVal env "AUTH_USERNAME").getD "admin"
  if pw ≠ "" then
    match hashOutcome with
    | some h =>
        "(auth_block) \x7b\n    basicauth \x7b\n        " ++ user ++ " " ++ h
          ++ "\n    \x7d\n\x7d\n"
    | none => "(auth_block) \x7b\x7d\n"
  else "(auth_block) \x7b\x7d\n"

/-- The `hooks.caddyfile` bytes: a pure function of the emitted document and
the environment (`.get("enabled")` on a non-mapping `hooks` value raises). -/
def hooksSnippet (env : Env) (cfg : Obj) : Except CfgErr String :=
  let hooksPath := getNested (.obj cfg) ["hooks", "path"] (.str "/hooks")
  match alookup cfg "hooks" with
  | none => .ok ""
  | some (.obj hk) =>
      if truthyO (alookup hk "enabled") then
        let gwPort := (envVal env "OPENCLAW_GATEWAY_PORT").getD "18789"
        let gwToken := (envVal env "OPENCLAW_GATEWAY_TOKEN").getD ""
        .ok ("handle " ++ jShow hooksPath ++ "* \x7b\n    reverse_proxy localhost:"
          ++ gwPort ++ " \x7b\n        header_up Authorization \"Bearer " ++ gwToken
          ++ "\"\n    \x7d\n\x7d\n")
      else .ok ""
  | some _ => .error .crash

theorem alookup_eq_of_perm (m₁ m₂ : Env)
    (hn₁ : (m₁.map Prod.fst).Nodup) (hp : m₁.Perm m₂) :
    ∀ k, alookup m₁ k = alookup m₂ k := by
  intro k
  have hn₂ : (m₂.map Prod.fst).Nodup := ((hp.map Prod.fst).nodup_iff).mp hn₁
  cases ha : alookup m₁ k with
  | some v =>
      exact ((alookup_some_iff_mem m₂ hn₂ k v).mpr
        (hp.mem_iff.mp ((alookup_some_iff_mem m₁ hn₁ k v).mp ha))).symm
  | none =>
      rw [alookup_eq_none_iff] at ha
      rw [eq_comm, alookup_eq_none_iff]
      intro hm
      exact ha (((hp.map Prod.fst).mem_iff).mpr hm)

/-- C9 counterexample: "byte-identical proxy artifacts on identical inputs"
fails at the auth snippet. Its bytes embed the stdout of the external
`caddy hash-password` run — a bcrypt hash over a fresh random salt — so two
runs with the same environment and the same starting documents legitimately
embed two different hashes and the artifact bytes differ. -/
theorem C9_counterexample : ¬ (∀ (env : Env) (h₁ h₂ : Option String),
    authSnippet env h₁ = authSnippet env h₂) := by
  intro h
  have hc := h [("AUTH_PASSWORD", "pw")]
    (some "$2a$14$abcdefghijklmnopqrstuv") (some "$2a$14$wvutsrqponmlkjihgfedcb")
  exact absurd hc (by decide)

/-- C9 amended: everything except the bcrypt salt is deterministic. The
emitted document, the hooks snippet, and the auth snippet at a fixed hasher
outcome are functions of the environment as a partial map (independent of
the snapshot's item order) and the starting documents; and the convention
matches are iterated in strictly increasing lexicographic variable-name
order. -/
theorem C9_amended :
    (∀ (e₁ e₂ : Env) (custom persisted : Option Obj),
       (e₁.map Prod.fst).Nodup → (e₂.map Prod.fst).Nodup →
       (∀ k, envVal e₁ k = envVal e₂ k) →
       pipeline e₁ custom persisted = pipeline e₂ custom persisted
       ∧ (∀ cfg, hooksSnippet e₁ cfg = hooksSnippet e₂ cfg)
       ∧ (∀ hOut, authSnippet e₁ hOut = authSnippet e₂ hOut))
    ∧ (∀ env : Env, (env.map Prod.fst).Nodup →
       (convItems env).Pairwise (fun a b => strLtB a.1 b.1 = true)) := by
  refine ⟨?_, convItems_names_sorted⟩
  intro e₁ e₂ custom persisted hn₁ hn₂ hE
  refine ⟨pipeline_congr e₁ e₂ hn₁ hn₂ hE custom persisted, ?_, ?_⟩
  · intro cfg
    simp only [hooksSnippet, hE]
  · intro hOut
    simp only [authSnippet, hE]

def c9E₁ : Env :=
  [("HOOKS_ENABLED", "true"), ("GROQ_API_KEY", "g"), ("AUTH_PASSWORD", "pw"),
   ("OPENCLAW_JSON__b__x", "1"), ("OPENCLAW_JSON__a", "2")]

def c9E₂ : Env :=
  [("OPENCLAW_JSON__a", "2"), ("OPENCLAW_JSON__b__x", "1"), ("AUTH_PASSWORD", "pw"),
   ("GROQ_API_KEY", "g"), ("HOOKS_ENABLED", "true")]

/-- C9 witness: two snapshots of the same environment map, listed in
different orders, give the same document, the same hooks snippet, and the
same auth snippet at a fixed hasher outcome; and the sorted convention
matches of the run are strictly increasing by name. -/
theorem C9_witness :
    pipeline c9E₁ none none = pipeline c9E₂ none none
    ∧ hooksSnippet c9E₁ [("hooks", .obj [("enabled", .bool true)])]
        = hooksSnippet c9E₂ [("hooks", .obj [("enabled", .bool true)])]
    ∧ authSnippet c9E₁ (some "$2a$14$abcdefghijklmnopqrstuv")
        = authSnippet c9E₂ (some "$2a$14$abcdefghijklmnopqrstuv")
    ∧ (convItems c9E₁).Pairwise (fun a b => strLtB a.1 b.1 = true) := by
  have hperm : c9E₁.Perm c9E₂ := by decide
  have hE : ∀ k, envVal c9E₁ k = envVal c9E₂ k :=
    alookup_eq_of_perm c9E₁ c9E₂ (by decide) hperm
  obtain ⟨h₁, h₂, h₃⟩ := C9_amended.1 c9E₁ c9E₂ none none (by decide) (by decide) hE
  exact ⟨h₁, h₂ _, h₃ _, C9_amended.2 c9E₁ (by decide)⟩
